import Mathlib

/-!
Shallow embedding of the vo-demo-generator backend (timeline normalizer,
action validator, demo runner retry logic, TTS cache key, project store
migration and history appends, unified pipeline source selection), with
theorems settling the specification claims about those components.

JSON-ish dynamic values are modelled by the inductive type `J`; Python
dicts are insertion-ordered association lists (`setKey` updates in place,
appends new keys at the end, matching CPython semantics).  Floats are
modelled as decimal literals `m / 10^e`; no float arithmetic occurs in the
embedded code paths.  `str()` on containers approximates Python `repr`
(string escaping inside containers is not reproduced); none of the claims
depends on that rendering.
-/

namespace Demo

/-- Dynamic (JSON-like) Python value. -/
inductive J where
  | null : J
  | bool (b : Bool) : J
  | int (n : Int) : J
  | float (m : Int) (e : Nat) : J
  | str (s : String) : J
  | arr (xs : List J) : J
  | obj (fields : List (String × J)) : J

abbrev Dict := List (String × J)

/-- `d.get(key)`: first binding wins (keys are unique by construction). -/
def getKey : Dict → String → Option J
  | [], _ => none
  | (k, v) :: rest, key => if k = key then some v else getKey rest key

/-- `d[key] = val`: update in place if present, else append (CPython dict order). -/
def setKey : Dict → String → J → Dict
  | [], key, val => [(key, val)]
  | (k, v) :: rest, key, val =>
    if k = key then (k, val) :: rest else (k, v) :: setKey rest key val

theorem getKey_setKey (d : Dict) (k k' : String) (v : J) :
    getKey (setKey d k v) k' = if k = k' then some v else getKey d k' := by
  induction d with
  | nil => simp only [setKey, getKey]
  | cons hd tl ih =>
    obtain ⟨k0, v0⟩ := hd
    by_cases h0 : k0 = k
    · subst h0
      simp only [setKey, if_pos rfl, getKey]
      by_cases h1 : k0 = k' <;> simp [h1]
    · simp only [setKey, if_neg h0, getKey]
      by_cases h1 : k0 = k'
      · subst h1
        rw [if_pos rfl, if_neg (fun hh : k = k0 => h0 hh.symm), if_pos rfl]
      · rw [if_neg h1, ih, if_neg h1]

theorem setKey_same (d : Dict) (k : String) (v : J) (h : getKey d k = some v) :
    setKey d k v = d := by
  induction d with
  | nil => simp [getKey] at h
  | cons hd tl ih =>
    obtain ⟨k0, v0⟩ := hd
    by_cases h0 : k0 = k
    · subst h0
      simp [getKey] at h
      simp [setKey, h]
    · simp [getKey, h0] at h
      simp [setKey, h0, ih h]

/-- Python's stable `list.sort(key=...)`, modelled by insertion sort (stable
    and structurally recursive, hence kernel-reducible). -/
def pySortStable {α : Type} (le : α → α → Bool) (l : List α) : List α :=
  l.insertionSort (fun a b => le a b = true)

/-- Python `s.startswith(pre)` (list-based so the kernel can evaluate it). -/
def strStartsWith (s pre : String) : Bool :=
  pre.data.isPrefixOf s.data

/-- Python whitespace characters (`str.split`/`str.strip` default set, ASCII part). -/
def isPySpace (c : Char) : Bool :=
  c = ' ' || c = '\t' || c = '\n' || c = '\x0d' || c = '\x0b' || c = '\x0c'

def stripChars (cs : List Char) : List Char :=
  ((cs.dropWhile isPySpace).reverse.dropWhile isPySpace).reverse

/-- Python `str.strip()` (default whitespace). -/
def pyStrip (s : String) : String := ⟨stripChars s.data⟩

/-- Python `str.lower()` (ASCII case fold, which is all the code relies on). -/
def pyLower (s : String) : String := ⟨s.data.map Char.toLower⟩

/-- Decimal digits of a natural number, least-significant first
    (fuel-based structural recursion so the kernel can evaluate it;
    `fuel = n` always suffices since `n / 10 < n`). -/
def digitsRevAux : Nat → Nat → List Char
  | 0, _ => []
  | _ + 1, 0 => []
  | fuel + 1, n + 1 =>
    Nat.digitChar ((n + 1) % 10) :: digitsRevAux fuel ((n + 1) / 10)

def digitsRev (n : Nat) : List Char := digitsRevAux n n

/-- Render the decimal digits of a natural number (Python `str` of an `int ≥ 0`). -/
def natDigits (n : Nat) : String :=
  if n = 0 then "0" else String.mk (digitsRev n).reverse

/-- Python `str` of an `int`. -/
def intStr (n : Int) : String :=
  if n < 0 then "-" ++ natDigits n.natAbs else natDigits n.natAbs

/-- Render a float literal `m / 10^e` the way Python prints simple decimals
    (e.g. `1.0`, `2.25`, `-0.5`). -/
def renderFloat (m : Int) (e : Nat) : String :=
  let sign := if m < 0 then "-" else ""
  let digits := natDigits m.natAbs
  let digits := if digits.length ≤ e then
      String.mk (List.replicate (e + 1 - digits.length) '0') ++ digits
    else digits
  let intPart := String.mk (digits.data.take (digits.length - e))
  let fracPart := String.mk (digits.data.drop (digits.length - e))
  if e = 0 then sign ++ digits ++ ".0" else sign ++ intPart ++ "." ++ fracPart

/-- Python truthiness (`bool(v)`). -/
def truthy : J → Bool
  | .null => false
  | .bool b => b
  | .int n => n ≠ 0
  | .float m _ => m ≠ 0
  | .str s => s ≠ ""
  | .arr xs => !xs.isEmpty
  | .obj fs => !fs.isEmpty

mutual
/-- Python `str(v)`.  Containers use an approximation of `repr`
    (inner strings are quoted without escaping). -/
def pyStr : J → String
  | .null => "None"
  | .bool b => if b then "True" else "False"
  | .int n => intStr n
  | .float m e => renderFloat m e
  | .str s => s
  | .arr xs => "[" ++ pyStrList xs ++ "]"
  | .obj fs => "\x7b" ++ pyStrFields fs ++ "\x7d"

def pyRepr : J → String
  | .str s => "'" ++ s ++ "'"
  | v => match v with
    | .null => "None"
    | .bool b => if b then "True" else "False"
    | .int n => intStr n
    | .float m e => renderFloat m e
    | .str s => "'" ++ s ++ "'"
    | .arr xs => "[" ++ pyStrList xs ++ "]"
    | .obj fs => "\x7b" ++ pyStrFields fs ++ "\x7d"

def pyStrList : List J → String
  | [] => ""
  | [x] => pyRepr x
  | x :: rest => pyRepr x ++ ", " ++ pyStrList rest

def pyStrFields : List (String × J) → String
  | [] => ""
  | [(k, v)] => "'" ++ k ++ "': " ++ pyRepr v
  | (k, v) :: rest => "'" ++ k ++ "': " ++ pyRepr v ++ ", " ++ pyStrFields rest
end

/-- Parse a decimal string the way Python `int(str)` does: optional
    surrounding whitespace, optional sign, at least one digit.
    (Underscore digit grouping is not modelled.) -/
def pyIntOfString (s : String) : Option Int :=
  let cs := stripChars s.data
  let (sign, digits) : Int × List Char :=
    match cs with
    | '-' :: rest => (-1, rest)
    | '+' :: rest => (1, rest)
    | rest => (1, rest)
  if digits.isEmpty || !digits.all Char.isDigit then none
  else
    some (sign * Int.ofNat
      (digits.foldl (fun acc c => acc * 10 + (c.toNat - '0'.toNat)) 0))

/-- Python `int(v)`: truncates floats toward zero, parses strings, maps
    bools to 0/1; anything else raises. -/
def pyInt : J → Option Int
  | .int n => some n
  | .bool b => some (if b then 1 else 0)
  | .float m e => some (Int.tdiv m ((10 : Int) ^ e))
  | .str s => pyIntOfString s
  | _ => none

/-- `_coerce_int(value, default)` from storage.py / `_as_int` from normalizer.py. -/
def coerceInt (v : Option J) (default : Int) : Int :=
  match v with
  | none => default
  | some j => (pyInt j).getD default

end Demo

namespace Demo

/-! ### Action validator (`backend/app/demo_runner/validator.py`) -/

def SUPPORTED_ACTIONS : List String := ["goto", "click", "fill", "press", "wait"]
def MIN_ACTION_TIMEOUT_MS : Int := 100
def MAX_ACTION_TIMEOUT_MS : Int := 120000
def DEFAULT_ACTION_TIMEOUT_MS : Int := 10000
def MIN_ACTION_RETRIES : Int := 0
def MAX_ACTION_RETRIES : Int := 3
def DEFAULT_ACTION_RETRIES : Int := 1
def MAX_WAIT_MS : Int := 120000

structure DemoActionEvent where
  id : String
  at_ms : Int
  action : String
  target : Option String
  args : Dict
  timeout_ms : Int
  retries : Int
  source_index : Nat

/-- `DemoActionValidationError(message, index, action_id)`; `typeError`
    models the `AttributeError` raised by `(raw.get("args") or {}).get(...)`
    when `args` is a truthy non-dict value. -/
inductive ParseFailure where
  | validation (message : String) (index : Option Nat) (actionId : Option String)
  | typeError

/-- Python `dict.get(key)`: an explicit `None` value and a missing key are
    both `None`. -/
def getPy (d : Dict) (k : String) : Option J :=
  match getKey d k with
  | some .null => none
  | v => v

/-- `value or default` for the common `str(d.get(k) or fallback)` pattern. -/
def orDefault (v : Option J) (fallback : J) : J :=
  match v with
  | some j => if truthy j then j else fallback
  | none => fallback

/-- `_parse_int_field` from validator.py. -/
def parseIntField (value : Option J) (fieldName : String) (index : Nat)
    (actionId : String) (minimum : Int) (maximum : Option Int)
    (default : Option Int) : Except ParseFailure Int := do
  match value with
  | none =>
    match default with
    | some d => pure d
    | none => throw (.validation (fieldName ++ " is required") (some index) (some actionId))
  | some v =>
    match pyInt v with
    | none =>
      throw (.validation (fieldName ++ " must be an integer") (some index) (some actionId))
    | some parsed => do
      if parsed < minimum then
        throw (.validation (fieldName ++ " must be >= " ++ toString minimum)
          (some index) (some actionId))
      match maximum with
      | some mx =>
        if parsed > mx then
          throw (.validation (fieldName ++ " must be <= " ++ toString mx)
            (some index) (some actionId))
        else pure parsed
      | none => pure parsed

/-- `_require_target` from validator.py. -/
def requireTarget (rawd : Dict) (idx : Nat) (actionId : String) :
    Except ParseFailure String :=
  match getKey rawd "target" with
  | some (.str s) =>
    if pyStrip s = "" then
      throw (.validation "action requires a non-empty target" (some idx) (some actionId))
    else pure (pyStrip s)
  | _ => throw (.validation "action requires a non-empty target" (some idx) (some actionId))

/-- `(raw.get("args") or {})` as a dict usable for `.get`: raises
    (AttributeError) when args is truthy but not a dict. -/
def argsForLookup (rawd : Dict) : Except ParseFailure Dict :=
  match getPy rawd "args" with
  | none => pure []
  | some v =>
    if truthy v then
      match v with
      | .obj f => pure f
      | _ => throw .typeError
    else pure []

/-- Body of the per-action loop in `parse_action_events` (all fields of the
    resulting `DemoActionEvent` except the constant `source_index = idx`). -/
def parseOneFields (idx : Nat) (raw : J) (seen : List String) :
    Except ParseFailure (String × Int × String × Option String × Dict × Int × Int) := do
  match raw with
  | .obj rawd => do
    let actionId := pyStrip (pyStr (orDefault (getKey rawd "id") (.str ("a" ++ toString (idx + 1)))))
    if actionId = "" then
      throw (.validation "action id must be non-empty" (some idx) (some actionId))
    if actionId ∈ seen then
      throw (.validation "duplicate action id" (some idx) (some actionId))
    let actionType := pyLower (pyStrip (pyStr (orDefault (getKey rawd "action") (.str ""))))
    if actionType ∉ SUPPORTED_ACTIONS then
      throw (.validation
        ("unsupported action '" ++ (if actionType = "" then "<empty>" else actionType) ++ "'")
        (some idx) (some actionId))
    let atMs ← parseIntField (getPy rawd "at_ms") "action at_ms" idx actionId 0 none none
    let timeoutRaw ← match getPy rawd "timeout_ms" with
      | some v => pure (some v)
      | none => do
        let ad ← argsForLookup rawd
        pure (getPy ad "timeout_ms")
    let timeoutMs ← parseIntField timeoutRaw "action timeout_ms" idx actionId
      MIN_ACTION_TIMEOUT_MS (some MAX_ACTION_TIMEOUT_MS) (some DEFAULT_ACTION_TIMEOUT_MS)
    let retriesRaw ← match getPy rawd "retries" with
      | some v => pure (some v)
      | none => do
        let ad ← argsForLookup rawd
        pure (getPy ad "retries")
    let retries ← parseIntField retriesRaw "action retries" idx actionId
      MIN_ACTION_RETRIES (some MAX_ACTION_RETRIES) (some DEFAULT_ACTION_RETRIES)
    let args ← match getPy rawd "args" with
      | none => pure ([] : Dict)
      | some (.obj f) => pure f
      | some _ =>
        throw (.validation "action args must be an object" (some idx) (some actionId))
    let target : Option String ←
      if actionType = "goto" || actionType = "click" || actionType = "fill"
          || actionType = "press" then do
        let t ← requireTarget rawd idx actionId
        pure (some t)
      else pure none
    if actionType = "goto" then
      match target with
      | some t =>
        if !(strStartsWith t "http://" || strStartsWith t "https://") then
          throw (.validation "goto action target must start with http:// or https://"
            (some idx) (some actionId))
        else pure ()
      | none => pure ()
    else pure ()
    if actionType = "fill" && (getKey args "value").isNone then
      throw (.validation "fill action requires args.value" (some idx) (some actionId))
    if actionType = "fill" then
      match getKey args "value" with
      | some (.str _) | some (.int _) | some (.float _ _) | some (.bool _) => pure ()
      | _ =>
        throw (.validation "fill action args.value must be string/number/bool"
          (some idx) (some actionId))
    else pure ()
    if actionType = "press" && (getKey args "key").isNone then
      throw (.validation "press action requires args.key" (some idx) (some actionId))
    let args ←
      if actionType = "press" then
        match getKey args "key" with
        | some (.str s) =>
          if pyStrip s = "" then
            throw (.validation "press action requires non-empty args.key"
              (some idx) (some actionId))
          else pure (setKey args "key" (.str (pyStrip s)))
        | _ =>
          throw (.validation "press action requires non-empty args.key"
            (some idx) (some actionId))
      else pure args
    let args ←
      if actionType = "wait" then do
        let waitMs ← parseIntField (getPy args "ms") "wait action args.ms" idx actionId
          0 (some MAX_WAIT_MS) none
        pure (setKey args "ms" (.int waitMs))
      else pure args
    pure (actionId, atMs, actionType, target, args, timeoutMs, retries)
  | _ => throw (.validation "action event must be an object" (some idx) none)

def parseOneAction (idx : Nat) (raw : J) (seen : List String) :
    Except ParseFailure DemoActionEvent :=
  (parseOneFields idx raw seen).map fun f =>
    { id := f.1, at_ms := f.2.1, action := f.2.2.1, target := f.2.2.2.1,
      args := f.2.2.2.2.1, timeout_ms := f.2.2.2.2.2.1, retries := f.2.2.2.2.2.2,
      source_index := idx }

def parseActionsLoop : Nat → List String → List J →
    Except ParseFailure (List DemoActionEvent)
  | _, _, [] => pure []
  | idx, seen, raw :: rest => do
    let ev ← parseOneAction idx raw seen
    let evs ← parseActionsLoop (idx + 1) (ev.id :: seen) rest
    pure (ev :: evs)

/-- Python's sort key `(event.at_ms, event.source_index, event.id)` compared
    lexicographically (`list.sort` is stable; see `pySortStable`). -/
def actionSortLE (a b : DemoActionEvent) : Bool :=
  a.at_ms < b.at_ms ||
    (a.at_ms = b.at_ms &&
      (a.source_index < b.source_index ||
        (a.source_index = b.source_index && decide (a.id ≤ b.id))))

/-- `parse_action_events` from validator.py. -/
def parseActionEvents (timeline : Dict) : Except ParseFailure (List DemoActionEvent) := do
  match getKey timeline "action_events" with
  | some (.arr raws) => do
    let parsed ← parseActionsLoop 0 [] raws
    pure (pySortStable actionSortLE parsed)
  | _ => pure []

end Demo

namespace Demo

theorem exceptBind_ok {α β ε : Type} (a : α) (f : α → Except ε β) :
    (Except.ok a >>= f) = f a := rfl

theorem exceptBind_error {α β ε : Type} (e : ε) (f : α → Except ε β) :
    ((Except.error e : Except ε α) >>= f) = Except.error e := rfl

theorem exceptPure {α ε : Type} (a : α) : (pure a : Except ε α) = Except.ok a := rfl

theorem parseOneAction_source_index (idx : Nat) (raw : J) (seen : List String)
    (ev : DemoActionEvent) (h : parseOneAction idx raw seen = .ok ev) :
    ev.source_index = idx := by
  unfold parseOneAction at h
  cases hf : parseOneFields idx raw seen with
  | error e => rw [hf] at h; simp [Except.map] at h
  | ok f =>
    rw [hf] at h
    simp only [Except.map, Except.ok.injEq] at h
    rw [← h]

theorem parseActionsLoop_sourceIndices :
    ∀ (raws : List J) (idx : Nat) (seen : List String) (l : List DemoActionEvent),
      parseActionsLoop idx seen raws = .ok l →
      l.map (fun e => e.source_index) = List.range' idx l.length := by
  intro raws
  induction raws with
  | nil =>
    intro idx seen l h
    simp only [parseActionsLoop] at h
    cases h
    simp
  | cons raw rest ih =>
    intro idx seen l h
    simp only [parseActionsLoop] at h
    cases h1 : parseOneAction idx raw seen with
    | error e => rw [h1, exceptBind_error] at h; cases h
    | ok ev =>
      rw [h1, exceptBind_ok] at h
      cases h2 : parseActionsLoop (idx + 1) (ev.id :: seen) rest with
      | error e => rw [h2, exceptBind_error] at h; cases h
      | ok evs =>
        rw [h2, exceptBind_ok, exceptPure] at h
        cases h
        have hev := parseOneAction_source_index idx raw seen ev h1
        have htl := ih (idx + 1) (ev.id :: seen) evs h2
        simp only [List.map_cons, List.length_cons, List.range'_succ, hev, htl]

theorem actionSortLE_trans (a b c : DemoActionEvent)
    (hab : actionSortLE a b = true) (hbc : actionSortLE b c = true) :
    actionSortLE a c = true := by
  simp only [actionSortLE, Bool.or_eq_true, Bool.and_eq_true, decide_eq_true_eq] at *
  rcases hab with h1 | ⟨he1, h1⟩
  · rcases hbc with h2 | ⟨he2, _⟩
    · exact Or.inl (by omega)
    · exact Or.inl (by omega)
  · rcases hbc with h2 | ⟨he2, h2⟩
    · exact Or.inl (by omega)
    · refine Or.inr ⟨by omega, ?_⟩
      rcases h1 with h1 | ⟨hs1, h1⟩
      · rcases h2 with h2 | ⟨hs2, _⟩
        · exact Or.inl (by omega)
        · exact Or.inl (by omega)
      · rcases h2 with h2 | ⟨hs2, h2⟩
        · exact Or.inl (by omega)
        · exact Or.inr ⟨by omega, le_trans h1 h2⟩

theorem actionSortLE_total (a b : DemoActionEvent) :
    (actionSortLE a b || actionSortLE b a) = true := by
  simp only [actionSortLE, Bool.or_eq_true, Bool.and_eq_true, decide_eq_true_eq]
  rcases lt_trichotomy a.at_ms b.at_ms with h | h | h
  · exact Or.inl (Or.inl h)
  · rcases lt_trichotomy a.source_index b.source_index with h2 | h2 | h2
    · exact Or.inl (Or.inr ⟨h, Or.inl h2⟩)
    · rcases le_total a.id b.id with h3 | h3
      · exact Or.inl (Or.inr ⟨h, Or.inr ⟨h2, h3⟩⟩)
      · exact Or.inr (Or.inr ⟨h.symm, Or.inr ⟨h2.symm, h3⟩⟩)
    · exact Or.inr (Or.inr ⟨h.symm, Or.inl h2⟩)
  · exact Or.inr (Or.inl h)

/-- **C2.** For every timeline payload accepted by `parse_action_events`, the
    returned action events are sorted by the key `(at_ms, source_index, id)`;
    in particular, whenever two actions share the same `at_ms`, their order in
    the output equals their order in the input (the `source_index` fields,
    which record input positions, appear in strictly increasing order). -/
theorem parse_action_events_sorted_source_order (timeline : Dict)
    (out : List DemoActionEvent) (h : parseActionEvents timeline = .ok out) :
    out.Pairwise (fun a b => actionSortLE a b = true) ∧
    ∀ (i j : Nat) (hi : i < out.length) (hj : j < out.length), i < j →
      (out.get ⟨i, hi⟩).at_ms = (out.get ⟨j, hj⟩).at_ms →
      (out.get ⟨i, hi⟩).source_index < (out.get ⟨j, hj⟩).source_index := by
  unfold parseActionEvents at h
  split at h
  case h_2 _ =>
    rw [exceptPure] at h
    cases h
    exact ⟨List.Pairwise.nil, by intro i j hi hj _ _; cases hi⟩
  case h_1 raws heq =>
    cases hp : parseActionsLoop 0 [] raws with
    | error e => rw [hp, exceptBind_error] at h; cases h
    | ok parsed =>
      rw [hp, exceptBind_ok, exceptPure] at h
      cases h
      haveI htrI : IsTrans DemoActionEvent (fun a b => actionSortLE a b = true) :=
        ⟨actionSortLE_trans⟩
      haveI htoI : IsTotal DemoActionEvent (fun a b => actionSortLE a b = true) :=
        ⟨fun a b => by
          have := actionSortLE_total a b
          rcases Bool.or_eq_true_iff.1 this with h | h
          · exact Or.inl h
          · exact Or.inr h⟩
      have hsorted : (pySortStable actionSortLE parsed).Pairwise
          (fun a b => actionSortLE a b = true) :=
        List.sorted_insertionSort (fun a b => actionSortLE a b = true) parsed
      refine ⟨hsorted, ?_⟩
      have hperm : List.Perm (pySortStable actionSortLE parsed) parsed :=
        List.perm_insertionSort (fun a b => actionSortLE a b = true) parsed
      have hmapnd : (parsed.map (fun e => e.source_index)).Nodup := by
        rw [parseActionsLoop_sourceIndices raws 0 [] parsed hp]
        exact List.nodup_range' 0 parsed.length
      have hnd : ((pySortStable actionSortLE parsed).map
          (fun e => e.source_index)).Nodup :=
        (List.Perm.nodup_iff (List.Perm.map _ hperm)).2 hmapnd
      intro i j hi hj hij hat
      have hle := (List.pairwise_iff_getElem.1 hsorted) i j hi hj hij
      simp only [actionSortLE, Bool.or_eq_true, Bool.and_eq_true,
        decide_eq_true_eq] at hle
      have hgi : (pySortStable actionSortLE parsed).get ⟨i, hi⟩ =
          (pySortStable actionSortLE parsed)[i] := rfl
      have hgj : (pySortStable actionSortLE parsed).get ⟨j, hj⟩ =
          (pySortStable actionSortLE parsed)[j] := rfl
      rw [hgi, hgj]
      rw [hgi, hgj] at hat
      rcases hle with hlt | ⟨_, hsi | ⟨hsieq, _⟩⟩
      · omega
      · exact hsi
      · exfalso
        have hne : i ≠ j := by omega
        have hinj := List.nodup_iff_injective_get.1 hnd
        have hi' : i < ((pySortStable actionSortLE parsed).map
            (fun e => e.source_index)).length := by simpa using hi
        have hj' : j < ((pySortStable actionSortLE parsed).map
            (fun e => e.source_index)).length := by simpa using hj
        have : ((pySortStable actionSortLE parsed).map
            (fun e => e.source_index)).get ⟨i, hi'⟩ =
            ((pySortStable actionSortLE parsed).map
            (fun e => e.source_index)).get ⟨j, hj'⟩ := by
          simp only [List.get_eq_getElem, List.getElem_map]
          exact hsieq
        have := hinj this
        simp at this
        omega

def c2WitnessTimeline : Dict :=
  [("action_events", .arr [
    .obj [("id", .str "b"), ("at_ms", .int 5), ("action", .str "click"),
          ("target", .str "#x")],
    .obj [("id", .str "a"), ("at_ms", .int 5), ("action", .str "click"),
          ("target", .str "#x")]])]

/-- Witness for C2: concrete two-action timeline with equal `at_ms`. -/
theorem parse_action_events_sorted_source_order_witness :
    ∃ out, parseActionEvents c2WitnessTimeline = .ok out ∧
      out.Pairwise (fun a b => actionSortLE a b = true) := by
  refine ⟨_, rfl, ?_⟩
  exact (parse_action_events_sorted_source_order c2WitnessTimeline _ rfl).1

/-- **C10.** For every timeline dict whose `action_events` key is absent or
    not a list, `parse_action_events` returns the empty list (no validation
    error). -/
theorem parse_action_events_missing_or_nonlist (timeline : Dict)
    (h : ∀ xs, getKey timeline "action_events" ≠ some (J.arr xs)) :
    parseActionEvents timeline = .ok [] := by
  unfold parseActionEvents
  split
  case h_1 raws heq => exact absurd heq (h raws)
  case h_2 => rfl

/-- Witness for C10 at a concrete non-list value. -/
theorem parse_action_events_missing_or_nonlist_witness :
    parseActionEvents [("action_events", .str "nope")] = .ok [] := by
  apply parse_action_events_missing_or_nonlist
  intro xs hxs
  simp [getKey] at hxs

end Demo

namespace Demo

/-! ### TTS cache key (`backend/app/tts/cache.py`) -/

/-- Python `str.split()` with no separator: split on whitespace runs,
    dropping empty pieces. -/
def splitWsAux : List Char → List Char → List (List Char)
  | [], acc => if acc.isEmpty then [] else [acc.reverse]
  | c :: rest, acc =>
    if isPySpace c then
      if acc.isEmpty then splitWsAux rest []
      else acc.reverse :: splitWsAux rest []
    else splitWsAux rest (c :: acc)

def pySplit (s : String) : List String :=
  (splitWsAux s.data []).map (fun cs => String.mk cs)

/-- `" ".join((text or "").split())` from `build_tts_cache_key`. -/
def collapseWs (s : String) : String :=
  String.intercalate " " (pySplit s)

def hexDigit (n : Nat) : Char :=
  if n < 10 then Char.ofNat ('0'.toNat + n) else Char.ofNat ('a'.toNat + (n - 10))

/-- JSON string escaping as `json.dumps(..., ensure_ascii=False)` performs it. -/
def jsonEscapeChar (c : Char) : String :=
  if c = '"' then "\\\""
  else if c = '\\' then "\\\\"
  else if c = '\n' then "\\n"
  else if c = '\x0d' then "\\r"
  else if c = '\t' then "\\t"
  else if c.toNat < 32 then
    "\\u00" ++ String.mk [hexDigit (c.toNat / 16), hexDigit (c.toNat % 16)]
  else String.mk [c]

def jsonEscape (s : String) : String :=
  String.join (s.data.map jsonEscapeChar)

def keyLE (a b : String × String) : Bool := a.1 ≤ b.1

/-- Join already-rendered, key-sorted object fields with the
    `separators=(",", ":")` convention. -/
def joinDumpedFields : List (String × String) → String
  | [] => ""
  | [(k, v)] => "\"" ++ jsonEscape k ++ "\":" ++ v
  | (k, v) :: rest => "\"" ++ jsonEscape k ++ "\":" ++ v ++ "," ++ joinDumpedFields rest

mutual
/-- `json.dumps(v, ensure_ascii=False, sort_keys=True, separators=(",", ":"))`:
    object keys are sorted (recursively, via `sort_keys`). -/
def dumpJ : J → String
  | .null => "null"
  | .bool b => if b then "true" else "false"
  | .int n => intStr n
  | .float m e => renderFloat m e
  | .str s => "\"" ++ jsonEscape s ++ "\""
  | .arr xs => "[" ++ dumpJList xs ++ "]"
  | .obj fs => "\x7b" ++ joinDumpedFields (pySortStable keyLE (dumpJFields fs)) ++ "\x7d"

def dumpJList : List J → String
  | [] => ""
  | [x] => dumpJ x
  | x :: rest => dumpJ x ++ "," ++ dumpJList rest

def dumpJFields : List (String × J) → List (String × String)
  | [] => []
  | (k, v) :: rest => (k, dumpJ v) :: dumpJFields rest
end

/-- `build_tts_cache_key` from tts/cache.py.  `sha256` abstracts
    `hashlib.sha256(...).hexdigest()` (a pure function of the input string);
    `promptSha` is the result of hashing the audio-prompt file when the path
    names an existing regular file (`None` otherwise) — the file read itself
    is outside the embedding. -/
def buildTtsCacheKey (sha256 : String → String) (text : String) (params : Dict)
    (endpoint : String) (mode : String) (promptSha : Option String)
    (modelSignature : Option String) : String :=
  let payload : Dict :=
    [("text", .str (collapseWs text)),
     ("params", .obj params),
     ("endpoint", .str endpoint),
     ("mode", .str mode),
     ("audio_prompt_sha256", match promptSha with
        | some s => .str s
        | none => .null),
     ("model_signature", .str (modelSignature.getD ""))]
  sha256 (dumpJ (.obj payload))

/-- **C6.** `build_tts_cache_key` is deterministic: two calls whose texts are
    equal after whitespace collapsing and whose params, endpoint, mode,
    audio-prompt SHA-256 and model signature are equal produce the same key. -/
theorem build_tts_cache_key_deterministic (sha256 : String → String)
    (t1 t2 : String) (params : Dict) (endpoint mode : String)
    (promptSha : Option String) (modelSignature : Option String)
    (h : collapseWs t1 = collapseWs t2) :
    buildTtsCacheKey sha256 t1 params endpoint mode promptSha modelSignature =
      buildTtsCacheKey sha256 t2 params endpoint mode promptSha modelSignature := by
  unfold buildTtsCacheKey
  rw [h]

/-- Witness for C6: two texts differing only in whitespace yield the same key
    (at a concrete hash function and parameter set). -/
theorem build_tts_cache_key_deterministic_witness :
    buildTtsCacheKey (fun s => s) "hello   world" [("speed_factor", .float 10 1)]
        "http://tts" "chatterbox_tts_json" none (some "sig") =
      buildTtsCacheKey (fun s => s) "  hello world\n" [("speed_factor", .float 10 1)]
        "http://tts" "chatterbox_tts_json" none (some "sig") :=
  build_tts_cache_key_deterministic (fun s => s) "hello   world" "  hello world\n"
    [("speed_factor", .float 10 1)] "http://tts" "chatterbox_tts_json" none
    (some "sig") (by rfl)

/-! ### Unified pipeline source-video selection
    (`backend/app/pipeline/unified.py`, lines 71-83) -/

/-- `raw_demo_playable` as computed by `run_unified_pipeline`: present iff
    `artifact_summary` is a dict carrying the key, then coerced with `bool`. -/
def rawDemoPlayableFlag (demoResult : Dict) : Option Bool :=
  match getKey demoResult "artifact_summary" with
  | some (.obj s) =>
    match getKey s "raw_demo_playable" with
    | some v => some (truthy v)
    | none => none
  | _ => none

/-- Source-video selection from `run_unified_pipeline`: `fileExists`/`fileSize`
    abstract `Path.exists()` and `Path.stat().st_size`. -/
def selectSourceVideo (fileExists : String → Bool) (fileSize : String → Nat)
    (inputMp4 : String) (demoResult : Dict) : String :=
  let playable := rawDemoPlayableFlag demoResult
  match getKey demoResult "raw_demo_mp4" with
  | some (.str p) =>
    let candidateOk := fileExists p && decide (0 < fileSize p)
    if playable = some true && candidateOk then p
    else if playable = none && candidateOk then p
    else inputMp4
  | _ => inputMp4

/-- **C4.** In `run_unified_pipeline` the render is invoked with the demo's
    raw demo mp4 as `source_video_path` iff that file exists, has size > 0,
    and the demo record's `artifact_summary` either has a truthy
    `raw_demo_playable` or carries no such key; otherwise the project's
    `input.mp4` is used. -/
theorem unified_pipeline_source_selection (fileExists : String → Bool)
    (fileSize : String → Nat) (inputMp4 : String) (demoResult : Dict)
    (p : String) (hp : getKey demoResult "raw_demo_mp4" = some (J.str p)) :
    ((fileExists p = true ∧ 0 < fileSize p ∧
        (rawDemoPlayableFlag demoResult = some true ∨
          rawDemoPlayableFlag demoResult = none)) →
      selectSourceVideo fileExists fileSize inputMp4 demoResult = p) ∧
    (¬(fileExists p = true ∧ 0 < fileSize p ∧
        (rawDemoPlayableFlag demoResult = some true ∨
          rawDemoPlayableFlag demoResult = none)) →
      selectSourceVideo fileExists fileSize inputMp4 demoResult = inputMp4) := by
  unfold selectSourceVideo
  rw [hp]
  constructor
  · rintro ⟨he, hs, hpl | hpl⟩ <;>
      simp [hpl, he, hs]
  · intro hneg
    rcases hfe : fileExists p with _ | _
    · have : ¬ (0 < fileSize p) ∨ True := Or.inr trivial
      simp [hfe]
    · rcases Nat.lt_or_ge 0 (fileSize p) with hs | hs
      · have hpl : ¬(rawDemoPlayableFlag demoResult = some true ∨
            rawDemoPlayableFlag demoResult = none) := by
          intro hc
          exact hneg ⟨hfe, hs, hc⟩
        push_neg at hpl
        simp [hfe, hs, hpl.1, hpl.2]
      · have hs0 : fileSize p = 0 := by omega
        simp [hfe, hs0]

/-- Witness for C4: playable raw demo of positive size is selected. -/
theorem unified_pipeline_source_selection_witness :
    selectSourceVideo (fun _ => true) (fun _ => 1) "/proj/input.mp4"
      [("raw_demo_mp4", .str "/runs/raw_demo.mp4"),
       ("artifact_summary", .obj [("raw_demo_playable", .bool true)])] =
      "/runs/raw_demo.mp4" :=
  (unified_pipeline_source_selection (fun _ => true) (fun _ => 1)
      "/proj/input.mp4"
      [("raw_demo_mp4", .str "/runs/raw_demo.mp4"),
       ("artifact_summary", .obj [("raw_demo_playable", .bool true)])]
      "/runs/raw_demo.mp4" (by rfl)).1
    (by exact ⟨rfl, Nat.zero_lt_one, Or.inl rfl⟩)

end Demo

namespace Demo

/-! ### Demo runner retry discipline
    (`backend/app/demo_runner/runner.py`, `_classify_error_type`,
    `_is_retryable_error`, `_execute_action_with_retry`) -/

/-- Python `needle in hay` on strings (substring containment). -/
def listContainsSub (hay needle : List Char) : Bool :=
  match hay with
  | [] => needle.isEmpty
  | _ :: t => needle.isPrefixOf hay || listContainsSub t needle

def strContains (hay needle : String) : Bool :=
  listContainsSub hay.data needle.data

/-- `DemoRunner._classify_error_type`. -/
def classifyErrorType (errorText : String) : String :=
  let lowered := pyLower errorText
  if strContains lowered "timeout" then "timeout"
  else if strContains lowered "target closed" || strContains lowered "context closed"
      || strContains lowered "browser has been closed" then "transient_browser"
  else if strContains lowered "net::" || strContains lowered "connection reset" then
    "transient_network"
  else "action_error"

/-- `DemoRunner._is_retryable_error`. -/
def isRetryableError (errorType : String) : Bool :=
  errorType = "timeout" || errorType = "transient_browser"
    || errorType = "transient_network"

structure ActionAttemptLog where
  attempt : Nat
  status : String
  retryable : Bool
  error_type : String
  error : String

/-- The timing/screenshot fields of `DemoActionExecution` are not modelled
    (wall-clock and browser side effects). -/
structure ActionExecResult where
  attempts : Nat
  retry_count : Nat
  status : String
  error_type : String
  attempt_logs : List ActionAttemptLog

/-- The `for attempt in range(1, max_attempts + 1)` loop of
    `_execute_action_with_retry`.  `oc k = none` means attempt `k` of the
    browser action succeeds, `some err` means it raises with text `err`.
    The fuel-exhausted case mirrors the (unreachable) post-loop return. -/
def retryLoop (oc : Nat → Option String) (maxAttempts : Nat) :
    Nat → Nat → ActionExecResult
  | _, 0 => ⟨maxAttempts, maxAttempts - 1, "error", "action_error", []⟩
  | attempt, fuel + 1 =>
    match oc attempt with
    | none => ⟨attempt, attempt - 1, "ok", "", [⟨attempt, "ok", false, "", ""⟩]⟩
    | some err =>
      let et := classifyErrorType err
      let retryable := isRetryableError et
      let log : ActionAttemptLog := ⟨attempt, "error", retryable, et, err⟩
      if retryable && decide (attempt < maxAttempts) then
        let deeper := retryLoop oc maxAttempts (attempt + 1) fuel
        ⟨deeper.attempts, deeper.retry_count, deeper.status, deeper.error_type,
          log :: deeper.attempt_logs⟩
      else ⟨attempt, attempt - 1, "error", et, [log]⟩

/-- `_execute_action_with_retry`: `max_retries = max(0, int(action.retries))`,
    `max_attempts = 1 + max_retries`. -/
def executeActionWithRetry (oc : Nat → Option String) (retries : Int) :
    ActionExecResult :=
  let maxRetries := retries.toNat
  let maxAttempts := 1 + maxRetries
  retryLoop oc maxAttempts 1 maxAttempts

theorem retryLoop_spec (oc : Nat → Option String) (m : Nat) :
    ∀ (fuel a : Nat), 1 ≤ a → a ≤ m → a + fuel = m + 1 →
      (a ≤ (retryLoop oc m a fuel).attempts ∧ (retryLoop oc m a fuel).attempts ≤ m) ∧
      (∀ k, a ≤ k → k < (retryLoop oc m a fuel).attempts →
        k < m ∧ ∃ err, oc k = some err ∧
          isRetryableError (classifyErrorType err) = true) ∧
      (∀ err, oc (retryLoop oc m a fuel).attempts = some err →
        isRetryableError (classifyErrorType err) = true →
        (retryLoop oc m a fuel).attempts < m → False) ∧
      ((retryLoop oc m a fuel).status = "ok" ↔
        oc (retryLoop oc m a fuel).attempts = none) ∧
      (retryLoop oc m a fuel).retry_count = (retryLoop oc m a fuel).attempts - 1 := by
  intro fuel
  induction fuel with
  | zero => intro a h1 ham hsum; omega
  | succ fuel ih =>
    intro a h1 ham hsum
    cases hoc : oc a with
    | none =>
      have hres : retryLoop oc m a (fuel + 1) =
          ⟨a, a - 1, "ok", "", [⟨a, "ok", false, "", ""⟩]⟩ := by
        simp [retryLoop, hoc]
      refine ⟨⟨?_, ?_⟩, ?_, ?_, ?_, ?_⟩
      · simp [hres]
      · simp [hres, ham]
      · intro k hk1 hk2
        rw [hres] at hk2
        simp at hk2
        omega
      · intro err2 herr2 _ _
        rw [hres] at herr2
        simp at herr2
        rw [hoc] at herr2
        cases herr2
      · simp [hres, hoc]
      · simp [hres]
    | some err =>
      by_cases hretry :
          (isRetryableError (classifyErrorType err) && decide (a < m)) = true
      · have hconj : isRetryableError (classifyErrorType err) = true ∧ a < m := by
          simpa using hretry
        have hres : retryLoop oc m a (fuel + 1) =
            ⟨(retryLoop oc m (a + 1) fuel).attempts,
             (retryLoop oc m (a + 1) fuel).retry_count,
             (retryLoop oc m (a + 1) fuel).status,
             (retryLoop oc m (a + 1) fuel).error_type,
             ⟨a, "error", isRetryableError (classifyErrorType err),
               classifyErrorType err, err⟩ ::
               (retryLoop oc m (a + 1) fuel).attempt_logs⟩ := by
          simp [retryLoop, hoc, hretry]
        have hih := ih (a + 1) (by omega) (by omega) (by omega)
        obtain ⟨⟨hlo, hhi⟩, hmid, hfin, hok, hrc⟩ := hih
        refine ⟨⟨?_, ?_⟩, ?_, ?_, ?_, ?_⟩
        · rw [hres]
          show a ≤ (retryLoop oc m (a + 1) fuel).attempts
          omega
        · rw [hres]; exact hhi
        · intro k hk1 hk2
          rw [hres] at hk2
          simp only at hk2
          rcases Nat.eq_or_lt_of_le hk1 with heq | hlt
          · exact heq ▸ ⟨hconj.2, err, hoc, hconj.1⟩
          · exact hmid k hlt hk2
        · intro err2 herr2 hret2 hlt2
          rw [hres] at herr2 hlt2
          simp only at herr2 hlt2
          exact hfin err2 herr2 hret2 hlt2
        · rw [hres]
          simpa using hok
        · rw [hres]
          simpa using hrc
      · have hres : retryLoop oc m a (fuel + 1) =
            ⟨a, a - 1, "error", classifyErrorType err,
             [⟨a, "error", isRetryableError (classifyErrorType err),
               classifyErrorType err, err⟩]⟩ := by
          simp only [retryLoop, hoc]
          rw [if_neg hretry]
        refine ⟨⟨?_, ?_⟩, ?_, ?_, ?_, ?_⟩
        · simp [hres]
        · simp [hres, ham]
        · intro k hk1 hk2
          rw [hres] at hk2
          simp at hk2
          omega
        · intro err2 herr2 hret2 hlt2
          rw [hres] at herr2 hlt2
          simp only at herr2 hlt2
          rw [hoc] at herr2
          cases herr2
          apply hretry
          simp [hret2, hlt2]
        · rw [hres]
          simp [hoc]
        · simp [hres]

/-- **C5.** For every action with `retries = r` the runner makes at most
    `1 + max(0, r)` attempts; a non-final attempt always failed with a
    retryable error and left attempts remaining; the final attempt is never
    a retryable failure with attempts remaining; the run is `ok` iff the
    final attempt succeeded; and the error-text classification follows the
    substring rules (`timeout` / `transient_browser` / `transient_network` /
    `action_error`), of which exactly the first three are retryable. -/
theorem demo_runner_retry_discipline (oc : Nat → Option String) (retries : Int) :
    (1 ≤ (executeActionWithRetry oc retries).attempts ∧
      (executeActionWithRetry oc retries).attempts ≤ 1 + retries.toNat) ∧
    (∀ k, 1 ≤ k → k < (executeActionWithRetry oc retries).attempts →
      k < 1 + retries.toNat ∧ ∃ err, oc k = some err ∧
        isRetryableError (classifyErrorType err) = true) ∧
    (∀ err, oc (executeActionWithRetry oc retries).attempts = some err →
      isRetryableError (classifyErrorType err) = true →
      (executeActionWithRetry oc retries).attempts < 1 + retries.toNat → False) ∧
    ((executeActionWithRetry oc retries).status = "ok" ↔
      oc (executeActionWithRetry oc retries).attempts = none) ∧
    (executeActionWithRetry oc retries).retry_count =
      (executeActionWithRetry oc retries).attempts - 1 ∧
    (∀ s,
      (strContains (pyLower s) "timeout" = true → classifyErrorType s = "timeout") ∧
      (strContains (pyLower s) "timeout" = false →
        (strContains (pyLower s) "target closed" ||
          strContains (pyLower s) "context closed" ||
          strContains (pyLower s) "browser has been closed") = true →
        classifyErrorType s = "transient_browser") ∧
      (strContains (pyLower s) "timeout" = false →
        (strContains (pyLower s) "target closed" ||
          strContains (pyLower s) "context closed" ||
          strContains (pyLower s) "browser has been closed") = false →
        (strContains (pyLower s) "net::" ||
          strContains (pyLower s) "connection reset") = true →
        classifyErrorType s = "transient_network") ∧
      (strContains (pyLower s) "timeout" = false →
        (strContains (pyLower s) "target closed" ||
          strContains (pyLower s) "context closed" ||
          strContains (pyLower s) "browser has been closed") = false →
        (strContains (pyLower s) "net::" ||
          strContains (pyLower s) "connection reset") = false →
        classifyErrorType s = "action_error")) ∧
    (∀ et, isRetryableError et = true ↔
      et = "timeout" ∨ et = "transient_browser" ∨ et = "transient_network") := by
  have hspec := retryLoop_spec oc (1 + retries.toNat) (1 + retries.toNat) 1
    (Nat.le_refl 1) (by omega) (by omega)
  obtain ⟨⟨hlo, hhi⟩, hmid, hfin, hok, hrc⟩ := hspec
  refine ⟨⟨hlo, hhi⟩, hmid, hfin, hok, hrc, ?_, ?_⟩
  · intro s
    refine ⟨?_, ?_, ?_, ?_⟩
    · intro h1; simp [classifyErrorType, h1]
    · intro h1 h2; simp [classifyErrorType, h1, h2]
    · intro h1 h2 h3; simp [classifyErrorType, h1, h2, h3]
    · intro h1 h2 h3; simp [classifyErrorType, h1, h2, h3]
  · intro et
    simp [isRetryableError, or_assoc]

/-- Witness for C5: a concrete oracle failing with a timeout on attempt 1
    and succeeding on attempt 2, with `retries = 1`. -/
theorem demo_runner_retry_discipline_witness :
    1 ≤ (executeActionWithRetry
        (fun k => if k = 1 then some "Timeout 250ms exceeded" else none)
        1).attempts ∧
    (executeActionWithRetry
        (fun k => if k = 1 then some "Timeout 250ms exceeded" else none)
        1).attempts ≤ 1 + (1 : Int).toNat :=
  (demo_runner_retry_discipline
    (fun k => if k = 1 then some "Timeout 250ms exceeded" else none) 1).1

end Demo

namespace Demo

/-! ### Decimal rendering is injective (used for id-suffix dedup analysis) -/

theorem digitChar_inj_lt10 : ∀ (a b : Fin 10),
    Nat.digitChar a.val = Nat.digitChar b.val → a = b := by decide

theorem digitsRevAux_congr : ∀ (n f1 f2 : Nat), n ≤ f1 → n ≤ f2 →
    digitsRevAux f1 n = digitsRevAux f2 n := by
  intro n
  induction n using Nat.strong_induction_on with
  | _ n ih =>
    intro f1 f2 h1 h2
    match n, f1, f2 with
    | 0, 0, 0 => rfl
    | 0, 0, _ + 1 => rfl
    | 0, _ + 1, 0 => rfl
    | 0, _ + 1, _ + 1 => rfl
    | n + 1, g1 + 1, g2 + 1 =>
      rw [digitsRevAux, digitsRevAux]
      congr 1
      have hlt : (n + 1) / 10 < n + 1 := Nat.div_lt_self (Nat.succ_pos n) (by omega)
      exact ih ((n + 1) / 10) hlt g1 g2 (by omega) (by omega)

theorem digitsRev_succ (n : Nat) :
    digitsRev (n + 1) = Nat.digitChar ((n + 1) % 10) :: digitsRev ((n + 1) / 10) := by
  show digitsRevAux (n + 1) (n + 1) = _
  rw [digitsRevAux]
  congr 1
  have hlt : (n + 1) / 10 < n + 1 := Nat.div_lt_self (Nat.succ_pos n) (by omega)
  exact digitsRevAux_congr ((n + 1) / 10) n ((n + 1) / 10) (by omega) (le_refl _)

theorem digitsRev_eq_nil_iff (n : Nat) : digitsRev n = [] ↔ n = 0 := by
  cases n with
  | zero => simp [digitsRev, digitsRevAux]
  | succ n => rw [digitsRev_succ]; simp

theorem digitsRev_inj : ∀ m n : Nat, digitsRev m = digitsRev n → m = n := by
  intro m
  induction m using Nat.strong_induction_on with
  | _ m ih =>
    intro n h
    match m, n with
    | 0, 0 => rfl
    | 0, n + 1 => rw [show digitsRev 0 = [] from rfl, digitsRev_succ] at h; cases h
    | m + 1, 0 => rw [show digitsRev 0 = [] from rfl, digitsRev_succ] at h; cases h
    | m + 1, n + 1 =>
      rw [digitsRev_succ, digitsRev_succ] at h
      injection h with hhd htl
      have hmod : (m + 1) % 10 = (n + 1) % 10 := by
        have ha : ((m + 1) % 10 : Nat) < 10 := Nat.mod_lt _ (by omega)
        have hb : ((n + 1) % 10 : Nat) < 10 := Nat.mod_lt _ (by omega)
        have := digitChar_inj_lt10 ⟨(m + 1) % 10, ha⟩ ⟨(n + 1) % 10, hb⟩ hhd
        exact Fin.mk.injEq _ _ _ _ ▸ (by injection this)
      have hdivlt : (m + 1) / 10 < m + 1 := Nat.div_lt_self (Nat.succ_pos m) (by omega)
      have hdiv : (m + 1) / 10 = (n + 1) / 10 := ih _ hdivlt _ htl
      have h1 := Nat.div_add_mod (m + 1) 10
      have h2 := Nat.div_add_mod (n + 1) 10
      omega

theorem natDigits_inj : ∀ m n : Nat, natDigits m = natDigits n → m = n := by
  intro m n h
  unfold natDigits at h
  by_cases hm : m = 0 <;> by_cases hn : n = 0
  · omega
  · rw [if_pos hm, if_neg hn] at h
    have : ("0" : String).data = (String.mk (digitsRev n).reverse).data := by rw [h]
    simp at this
    have hr : digitsRev n = ['0'] := by
      have := this.symm
      rw [← List.reverse_reverse (digitsRev n), this]
      rfl
    exfalso
    apply hn
    cases n with
    | zero => rfl
    | succ n =>
      rw [digitsRev_succ] at hr
      injection hr with hh ht
      rw [digitsRev_eq_nil_iff] at ht
      have hmod : (n + 1) % 10 = 0 := by
        have ha : ((n + 1) % 10 : Nat) < 10 := Nat.mod_lt _ (by omega)
        have := digitChar_inj_lt10 ⟨(n + 1) % 10, ha⟩ ⟨0, by omega⟩ (by simpa using hh)
        exact by injection this
      have := Nat.div_add_mod (n + 1) 10
      omega
  · rw [if_neg hm, if_pos hn] at h
    have : (String.mk (digitsRev m).reverse).data = ("0" : String).data := by rw [h]
    simp at this
    have hr : digitsRev m = ['0'] := by
      rw [← List.reverse_reverse (digitsRev m), this]
      rfl
    exfalso
    apply hm
    cases m with
    | zero => rfl
    | succ m =>
      rw [digitsRev_succ] at hr
      injection hr with hh ht
      rw [digitsRev_eq_nil_iff] at ht
      have hmod : (m + 1) % 10 = 0 := by
        have ha : ((m + 1) % 10 : Nat) < 10 := Nat.mod_lt _ (by omega)
        have := digitChar_inj_lt10 ⟨(m + 1) % 10, ha⟩ ⟨0, by omega⟩ (by simpa using hh)
        exact by injection this
      have := Nat.div_add_mod (m + 1) 10
      omega
  · rw [if_neg hm, if_neg hn] at h
    have hd : (digitsRev m).reverse = (digitsRev n).reverse := by
      have : (String.mk (digitsRev m).reverse).data =
          (String.mk (digitsRev n).reverse).data := by rw [h]
      simpa using this
    exact digitsRev_inj m n (List.reverse_injective hd)

end Demo

namespace Demo

/-! ### Id dedup (`seen_ids` logic of `normalize_narration_events`) -/

theorem string_app_underscore_data (b x : String) :
    (b ++ "_" ++ x).data = b.data ++ '_' :: x.data := by
  simp

theorem append_underscore_trichotomy (b b' x y : String)
    (h : b ++ "_" ++ x = b' ++ "_" ++ y) :
    (b = b' ∧ x = y) ∨ (∃ s, b' = b ++ "_" ++ s) ∨ (∃ s, b = b' ++ "_" ++ s) := by
  have hd : b.data ++ '_' :: x.data = b'.data ++ '_' :: y.data := by
    rw [← string_app_underscore_data, ← string_app_underscore_data, h]
  have hb : b.data <+: (b.data ++ '_' :: x.data) := ⟨'_' :: x.data, rfl⟩
  have hb' : b'.data <+: (b.data ++ '_' :: x.data) := ⟨'_' :: y.data, hd.symm⟩
  rcases List.prefix_or_prefix_of_prefix hb hb' with hpre | hpre
  · obtain ⟨t, ht⟩ := hpre
    cases t with
    | nil =>
      have hbeq : b = b' := String.ext (by simpa using ht)
      subst hbeq
      have := List.append_cancel_left hd
      injection this with _ hxy
      exact Or.inl ⟨rfl, String.ext hxy⟩
    | cons c t' =>
      rw [← ht] at hd
      rw [List.append_assoc] at hd
      have := List.append_cancel_left hd
      injection this with hc hx
      subst hc
      refine Or.inr (Or.inl ⟨String.mk t', ?_⟩)
      apply String.ext
      rw [string_app_underscore_data]
      exact ht.symm
  · obtain ⟨t, ht⟩ := hpre
    cases t with
    | nil =>
      have hbeq : b' = b := String.ext (by simpa using ht)
      subst hbeq
      have := List.append_cancel_left hd
      injection this with _ hxy
      exact Or.inl ⟨rfl, String.ext hxy⟩
    | cons c t' =>
      rw [← ht] at hd
      rw [List.append_assoc] at hd
      have := (List.append_cancel_left hd.symm)
      injection this with hc hx
      subst hc
      refine Or.inr (Or.inr ⟨String.mk t', ?_⟩)
      apply String.ext
      rw [string_app_underscore_data]
      exact ht.symm

theorem string_app_underscore_cancel (b x y : String)
    (h : b ++ "_" ++ x = b ++ "_" ++ y) : x = y := by
  have hd : b.data ++ '_' :: x.data = b.data ++ '_' :: y.data := by
    rw [← string_app_underscore_data, ← string_app_underscore_data, h]
  have := List.append_cancel_left hd
  injection this with _ hxy
  exact String.ext hxy

def lookupCount : List (String × Nat) → String → Option Nat
  | [], _ => none
  | (k, c) :: rest, key => if k = key then some c else lookupCount rest key

def setCount : List (String × Nat) → String → Nat → List (String × Nat)
  | [], _, _ => []
  | (k, c) :: rest, key, v =>
    if k = key then (k, v) :: rest else (k, c) :: setCount rest key v

/-- The id-deduplication pass of `normalize_narration_events`: assign each
    base id, suffixing `_N` on collision (N = number of previous uses). -/
def dedupAssign : List (String × Nat) → List String → List String
  | _, [] => []
  | seen, b :: rest =>
    match lookupCount seen b with
    | some c =>
      (b ++ "_" ++ natDigits (c + 1)) :: dedupAssign (setCount seen b (c + 1)) rest
    | none => b :: dedupAssign ((b, 0) :: seen) rest

theorem lookupCount_none_iff (seen : List (String × Nat)) (b : String) :
    lookupCount seen b = none ↔ b ∉ seen.map Prod.fst := by
  induction seen with
  | nil => simp [lookupCount]
  | cons hd tl ih =>
    obtain ⟨k, c⟩ := hd
    by_cases hk : k = b
    · subst hk
      simp [lookupCount]
    · simp [lookupCount, hk, ih, Ne.symm hk]

theorem keys_setCount (seen : List (String × Nat)) (b : String) (v : Nat) :
    (setCount seen b v).map Prod.fst = seen.map Prod.fst := by
  induction seen with
  | nil => simp [setCount]
  | cons hd tl ih =>
    obtain ⟨k, c⟩ := hd
    by_cases hk : k = b <;> simp [setCount, hk, ih]

theorem lookupCount_setCount_ne (seen : List (String × Nat)) (b b' : String)
    (v : Nat) (hne : b' ≠ b) :
    lookupCount (setCount seen b v) b' = lookupCount seen b' := by
  induction seen with
  | nil => simp [setCount]
  | cons hd tl ih =>
    obtain ⟨k, c⟩ := hd
    by_cases hk : k = b
    · subst hk
      have hkb : ¬ (k = b') := fun hh => hne hh.symm
      simp [setCount, lookupCount, hkb]
    · simp [setCount, hk, lookupCount, ih]

end Demo

namespace Demo

theorem lookupCount_setCount_self (seen : List (String × Nat)) (b : String)
    (c v : Nat) (h : lookupCount seen b = some c) :
    lookupCount (setCount seen b v) b = some v := by
  induction seen with
  | nil => simp [lookupCount] at h
  | cons hd tl ih =>
    obtain ⟨k, c0⟩ := hd
    by_cases hk : k = b
    · subst hk
      simp [setCount, lookupCount]
    · simp [lookupCount, hk] at h
      simp [setCount, lookupCount, hk, ih h]

theorem dedupAssign_spec (bases : List String)
    (H : ∀ b ∈ bases, ∀ s, (b ++ "_" ++ s) ∉ bases) :
    ∀ (rest : List String) (seen : List (String × Nat)),
      (∀ b ∈ rest, b ∈ bases) →
      (∀ k ∈ seen.map Prod.fst, k ∈ bases) →
      (dedupAssign seen rest).Nodup ∧
      (∀ e ∈ dedupAssign seen rest,
        e ∉ seen.map Prod.fst ∧
        ∀ b c, lookupCount seen b = some c →
          ∀ j, 1 ≤ j → j ≤ c → e ≠ b ++ "_" ++ natDigits j) := by
  intro rest
  induction rest with
  | nil =>
    intro seen _ _
    simp [dedupAssign]
  | cons b rest ih =>
    intro seen hrest hkeys
    have hbbase : b ∈ bases := hrest b (List.mem_cons_self b rest)
    have hrest' : ∀ x ∈ rest, x ∈ bases := fun x hx =>
      hrest x (List.mem_cons_of_mem b hx)
    cases hlook : lookupCount seen b with
    | none =>
      have hkeys' : ∀ k ∈ ((b, 0) :: seen).map Prod.fst, k ∈ bases := by
        intro k hk
        simp only [List.map_cons, List.mem_cons] at hk
        rcases hk with hk | hk
        · exact hk ▸ hbbase
        · exact hkeys k hk
      obtain ⟨ihnd, ihfresh⟩ := ih ((b, 0) :: seen) hrest' hkeys'
      have hbnotin : b ∉ dedupAssign ((b, 0) :: seen) rest := by
        intro hmem
        have := (ihfresh b hmem).1
        simp at this
      constructor
      · simp only [dedupAssign, hlook]
        exact List.Nodup.cons hbnotin ihnd
      · intro e he
        simp only [dedupAssign, hlook, List.mem_cons] at he
        rcases he with he | he
        · subst he
          constructor
          · exact (lookupCount_none_iff seen e).1 hlook
          · intro b' c' hlk' j h1 h2 heq
            have hb'keys : b' ∈ seen.map Prod.fst := by
              by_contra hcon
              rw [← lookupCount_none_iff] at hcon
              rw [hcon] at hlk'
              cases hlk'
            have hb'base : b' ∈ bases := hkeys b' hb'keys
            exact H b' hb'base (natDigits j) (heq ▸ hbbase)
        · have hf := ihfresh e he
          constructor
          · intro hcon
            exact hf.1 (by simp [hcon])
          · intro b' c' hlk' j h1 h2
            have hb'ne : b' ≠ b := by
              intro hcon
              rw [hcon, hlook] at hlk'
              cases hlk'
            apply hf.2 b' c' _ j h1 h2
            simp [lookupCount, Ne.symm hb'ne, hlk']
    | some c =>
      have hkeyseq := keys_setCount seen b (c + 1)
      have hkeys' : ∀ k ∈ (setCount seen b (c + 1)).map Prod.fst, k ∈ bases := by
        rw [hkeyseq]; exact hkeys
      obtain ⟨ihnd, ihfresh⟩ := ih (setCount seen b (c + 1)) hrest' hkeys'
      have hbkeys : b ∈ seen.map Prod.fst := by
        by_contra hcon
        rw [← lookupCount_none_iff] at hcon
        rw [hcon] at hlook
        cases hlook
      have he0notin : (b ++ "_" ++ natDigits (c + 1)) ∉
          dedupAssign (setCount seen b (c + 1)) rest := by
        intro hmem
        exact (ihfresh _ hmem).2 b (c + 1)
          (lookupCount_setCount_self seen b c (c + 1) hlook)
          (c + 1) (by omega) (le_refl _) rfl
      constructor
      · simp only [dedupAssign, hlook]
        exact List.Nodup.cons he0notin ihnd
      · intro e he
        simp only [dedupAssign, hlook, List.mem_cons] at he
        rcases he with he | he
        · subst he
          constructor
          · intro hcon
            exact H b hbbase (natDigits (c + 1)) (hkeys _ hcon)
          · intro b' c' hlk' j h1 h2 heq
            have hb'keys : b' ∈ seen.map Prod.fst := by
              by_contra hcon
              rw [← lookupCount_none_iff] at hcon
              rw [hcon] at hlk'
              cases hlk'
            have hb'base : b' ∈ bases := hkeys b' hb'keys
            rcases append_underscore_trichotomy b b' (natDigits (c + 1))
              (natDigits j) heq with ⟨hbeq, hdig⟩ | ⟨s, hs⟩ | ⟨s, hs⟩
            · subst hbeq
              rw [hlook] at hlk'
              injection hlk' with hcc
              subst hcc
              have := natDigits_inj (c + 1) j hdig
              omega
            · exact H b hbbase s (hs ▸ hb'base)
            · exact H b' hb'base s (hs ▸ hbbase)
        · have hf := ihfresh e he
          constructor
          · rw [← hkeyseq]
            exact hf.1
          · intro b' c' hlk' j h1 h2
            by_cases hb'b : b' = b
            · subst hb'b
              rw [hlook] at hlk'
              injection hlk' with hcc
              exact hf.2 b' (c + 1)
                (lookupCount_setCount_self seen b' c (c + 1) hlook)
                j h1 (by omega)
            · apply hf.2 b' c' _ j h1 h2
              rw [lookupCount_setCount_ne seen b b' (c + 1) hb'b]
              exact hlk'

/-- If no base id extends another base id by an underscore and a suffix, the
    deduplicated ids are pairwise distinct. -/
theorem dedupAssign_nodup (bases : List String)
    (H : ∀ b ∈ bases, ∀ s, (b ++ "_" ++ s) ∉ bases) :
    (dedupAssign [] bases).Nodup :=
  (dedupAssign_spec bases H bases [] (fun _ hb => hb) (by simp)).1

end Demo

namespace Demo

/-! ### Narration normalizer (`backend/app/timeline/normalizer.py`) -/

/-- `TimelineImportError(message, line_number, code)`. -/
structure TLError where
  message : String
  line_number : Option Int
  code : String

/-- `typeErr` models the `TypeError` raised by `dict(source.get("meta") or {})`
    when `meta` is a truthy non-dict value. -/
inductive NormFailure where
  | imp (e : TLError)
  | typeErr

structure PreparedItem where
  raw : Dict
  start_ms : Int
  end_ms : Int
  index : Nat

structure NarrEventOut where
  id : String
  start_ms : Int
  end_ms : Int
  text : String
  voice_profile_id : String
  meta : Dict

/-- First loop of `normalize_narration_events`: validate each raw event and
    record `(raw, start_ms, end_ms, index)` with 1-based `index`. -/
def prepareEvents : Nat → List J → Except NormFailure (List PreparedItem)
  | _, [] => pure []
  | idx, ev :: rest =>
    match ev with
    | .obj e =>
      if pyStrip (pyStr (orDefault (getKey e "text") (.str ""))) = "" then
        let lineNo : Option Int :=
          match getKey e "meta" with
          | some (.obj meta) =>
            let v := coerceInt (getKey meta "source_line") 0
            if v = 0 then none else some v
          | _ => none
        throw (.imp ⟨"narration text cannot be empty", lineNo, "empty_text"⟩)
      else do
        let rest' ← prepareEvents (idx + 1) rest
        pure ({ raw := e,
                start_ms := max 0 (coerceInt (getKey e "start_ms") 0),
                end_ms := coerceInt (getKey e "end_ms") (-1),
                index := idx } :: rest')
    | _ =>
      throw (.imp ⟨"event #" ++ natDigits idx ++ " is not an object", none,
        "invalid_event"⟩)

/-- Sort key `(item.start_ms, item.index)` of the prepared list
    (`list.sort` is stable; see `pySortStable`). -/
def prepLE (a b : PreparedItem) : Bool :=
  a.start_ms < b.start_ms || (a.start_ms = b.start_ms && a.index ≤ b.index)

/-- First later prepared item with a strictly larger `start_ms`. -/
def findNextStart (startMs : Int) : List PreparedItem → Option Int
  | [] => none
  | it :: rest =>
    if startMs < it.start_ms then some it.start_ms else findNextStart startMs rest

/-- The `end_ms` adjustment chain of the second loop: default to the next
    start or `start + default_duration`, clamp to the video duration, then
    enforce the minimum duration. -/
def computeEndMs (bounded : Option Int) (defaultDur minDur startMs endMs0 : Int)
    (rest : List PreparedItem) : Int :=
  let endMs :=
    if endMs0 ≤ startMs then
      match findNextStart startMs rest with
      | some ns => ns
      | none => startMs + defaultDur
    else endMs0
  let endMs :=
    match bounded with
    | some b => if b < endMs then b else endMs
    | none => endMs
  if endMs ≤ startMs then startMs + minDur else endMs

def shouldSkip (bounded : Option Int) (startMs : Int) : Bool :=
  match bounded with
  | some b => decide (b ≤ startMs)
  | none => false

/-- The (defaulted) base event id assigned in the second loop. -/
def eventBaseId (idx : Nat) (raw : Dict) : String :=
  pyStr (orDefault (getKey raw "id") (.str ("n" ++ natDigits (idx + 1))))

/-- `dict(source.get("meta") or {})`: a truthy non-dict raises `TypeError`. -/
def metaDictOf (raw : Dict) : Except NormFailure Dict :=
  match orDefault (getKey raw "meta") (.obj []) with
  | .obj f => pure f
  | _ => throw NormFailure.typeErr

/-- Second loop of `normalize_narration_events` (0-based `idx` from
    `enumerate(prepared)`, including skipped items). -/
def emitLoop (bounded : Option Int) (defaultDur minDur : Int) :
    Nat → List (String × Nat) → List PreparedItem →
    Except NormFailure (List NarrEventOut)
  | _, _, [] => pure []
  | idx, seen, item :: rest =>
    if shouldSkip bounded item.start_ms then
      emitLoop bounded defaultDur minDur (idx + 1) seen rest
    else do
      let endMs := computeEndMs bounded defaultDur minDur item.start_ms
        item.end_ms rest
      let base := eventBaseId idx item.raw
      let assigned :=
        match lookupCount seen base with
        | some c => (base ++ "_" ++ natDigits (c + 1), setCount seen base (c + 1))
        | none => (base, (base, 0) :: seen)
      let meta ← metaDictOf item.raw
      let rest' ← emitLoop bounded defaultDur minDur (idx + 1) assigned.2 rest
      pure ({ id := assigned.1,
              start_ms := item.start_ms,
              end_ms := endMs,
              text := pyStrip (pyStr (orDefault (getKey item.raw "text") (.str ""))),
              voice_profile_id :=
                pyStr (orDefault (getKey item.raw "voice_profile_id") (.str "default")),
              meta := meta } :: rest')

/-- `video_duration_ms if isinstance(video_duration_ms, int) and
    video_duration_ms > 0 else None`. -/
def boundedOf : Option Int → Option Int
  | some n => if 0 < n then some n else none
  | none => none

/-- `normalize_narration_events` (with its default
    `default_duration_ms = 3000`, `min_duration_ms = 500` passed explicitly). -/
def normalizeNarrationEvents (videoDurationMs : Option Int)
    (defaultDurationMs minDurationMs : Int) (rawEvents : List J) :
    Except NormFailure (List NarrEventOut) :=
  if rawEvents.isEmpty then pure []
  else do
    let prepared ← prepareEvents 1 rawEvents
    let normalized ← emitLoop (boundedOf videoDurationMs) defaultDurationMs
      minDurationMs 0 [] (pySortStable prepLE prepared)
    if normalized.isEmpty then
      throw (.imp ⟨"no usable narration events after normalization", none,
        "empty_output"⟩)
    else pure normalized

/-- The base ids consumed by the dedup logic, in emission order. -/
def emitBases (bounded : Option Int) : Nat → List PreparedItem → List String
  | _, [] => []
  | idx, item :: rest =>
    if shouldSkip bounded item.start_ms then emitBases bounded (idx + 1) rest
    else eventBaseId idx item.raw :: emitBases bounded (idx + 1) rest

end Demo

namespace Demo

/-! ### Timestamped-txt parser
    (`backend/app/timeline/parsers_timestamped_txt.py`) -/

/-- Python `str.splitlines()` (`\n`, `\r\n`, `\r`; no trailing empty line). -/
def splitLinesChars : List Char → List Char → List (List Char)
  | [], [] => []
  | [], acc => [acc.reverse]
  | '\x0d' :: '\n' :: rest, acc => acc.reverse :: splitLinesChars rest []
  | '\x0d' :: rest, acc => acc.reverse :: splitLinesChars rest []
  | '\n' :: rest, acc => acc.reverse :: splitLinesChars rest []
  | c :: rest, acc => splitLinesChars rest (c :: acc)

def pySplitLines (s : String) : List String :=
  (splitLinesChars s.data []).map (fun cs => String.mk cs)

def digitsVal (ds : List Char) : Nat :=
  ds.foldl (fun acc c => acc * 10 + (c.toNat - '0'.toNat)) 0

/-- Match `^\[(?:(\d{1,2}):)?(\d{1,2}):(\d{2})\]` against a (stripped) line
    and return `(hours, minutes, seconds, rest-after-bracket)`.  The digit
    groups may be separated only by `:`; the final group is exactly two
    digits, the others one or two (the regex admits exactly these shapes). -/
def matchTimestampHead (line : List Char) : Option (Nat × Nat × Nat × List Char) :=
  match line with
  | '[' :: rest =>
    let g1 := rest.takeWhile Char.isDigit
    let r1 := rest.dropWhile Char.isDigit
    match r1 with
    | ':' :: r2 =>
      let g2 := r2.takeWhile Char.isDigit
      let r3 := r2.dropWhile Char.isDigit
      match r3 with
      | ':' :: r4 =>
        let g3 := r4.takeWhile Char.isDigit
        let r5 := r4.dropWhile Char.isDigit
        match r5 with
        | ']' :: tail =>
          if 1 ≤ g1.length && g1.length ≤ 2 && 1 ≤ g2.length && g2.length ≤ 2
              && g3.length = 2 then
            some (digitsVal g1, digitsVal g2, digitsVal g3, tail)
          else none
        | _ => none
      | ']' :: tail =>
        if 1 ≤ g1.length && g1.length ≤ 2 && g2.length = 2 then
          some (0, digitsVal g1, digitsVal g2, tail)
        else none
      | _ => none
    | _ => none
  | _ => none

/-- Body of the per-line loop in `parse_timestamped_txt`; returns the dict
    appended to `entries`, or `none` for skipped (blank/comment) lines. -/
def parseTimestampedLine (lineNo : Nat) (rawLine : String) :
    Except NormFailure (Option J) := do
  let line := pyStrip rawLine
  if line = "" || strStartsWith line "#" then
    pure none
  else
    match matchTimestampHead line.data with
    | none =>
      throw (.imp ⟨"expected '[MM:SS] text' or '[HH:MM:SS] text'",
        some (Int.ofNat lineNo), "invalid_timestamped_line"⟩)
    | some (hh, mm, ss, tail) =>
      if tail.isEmpty then
        throw (.imp ⟨"expected '[MM:SS] text' or '[HH:MM:SS] text'",
          some (Int.ofNat lineNo), "invalid_timestamped_line"⟩)
      else
        let text := pyStrip (String.mk tail)
        if text = "" then
          throw (.imp ⟨"timestamped line is missing narration text",
            some (Int.ofNat lineNo), "empty_text"⟩)
        else if 60 ≤ mm || 60 ≤ ss then
          throw (.imp ⟨"timestamp has invalid minute/second value",
            some (Int.ofNat lineNo), "invalid_timestamp"⟩)
        else
          pure (some (.obj
            [("id", .str ("n" ++ natDigits lineNo)),
             ("start_ms", .int (Int.ofNat (((hh * 3600) + (mm * 60) + ss) * 1000))),
             ("text", .str text),
             ("meta", .obj
               [("source_line", .int (Int.ofNat lineNo)),
                ("source_format", .str "timestamped_txt")])]))

def parseTimestampedLines : Nat → List String → Except NormFailure (List J)
  | _, [] => pure []
  | lineNo, line :: rest => do
    let entry ← parseTimestampedLine lineNo line
    let rest' ← parseTimestampedLines (lineNo + 1) rest
    match entry with
    | some e => pure (e :: rest')
    | none => pure rest'

/-- `parse_timestamped_txt`. -/
def parseTimestampedTxt (content : String) : Except NormFailure (List J) := do
  let entries ← parseTimestampedLines 1 (pySplitLines content)
  if entries.isEmpty then
    throw (.imp ⟨"no narration lines found in timestamped script", none,
      "empty_input"⟩)
  else pure entries

/-- The `timestamped_txt` branch of `import_narration_timeline`:
    parse, then normalize with the importer defaults. -/
def importTimestampedTxt (videoDurationMs : Option Int) (content : String) :
    Except NormFailure (List NarrEventOut) := do
  let parsed ← parseTimestampedTxt content
  normalizeNarrationEvents videoDurationMs 3000 500 parsed

end Demo

namespace Demo

theorem computeEndMs_gt (bounded : Option Int)
    (defaultDur minDur startMs endMs0 : Int) (rest : List PreparedItem)
    (hmin : 0 < minDur) :
    startMs < computeEndMs bounded defaultDur minDur startMs endMs0 rest := by
  unfold computeEndMs
  dsimp only
  split <;> omega

theorem emitLoop_end_gt_start (bounded : Option Int) (defaultDur minDur : Int)
    (hmin : 0 < minDur) :
    ∀ (items : List PreparedItem) (idx : Nat) (seen : List (String × Nat))
      (out : List NarrEventOut),
      emitLoop bounded defaultDur minDur idx seen items = .ok out →
      ∀ e ∈ out, e.start_ms < e.end_ms := by
  intro items
  induction items with
  | nil =>
    intro idx seen out h e he
    simp only [emitLoop, exceptPure] at h
    cases h
    cases he
  | cons item rest ih =>
    intro idx seen out h e he
    simp only [emitLoop] at h
    by_cases hskip : shouldSkip bounded item.start_ms = true
    · rw [if_pos hskip] at h
      exact ih (idx + 1) seen out h e he
    · rw [if_neg hskip] at h
      cases hmeta : metaDictOf item.raw with
      | error err => rw [hmeta, exceptBind_error] at h; cases h
      | ok metaD =>
        rw [hmeta, exceptBind_ok] at h
        cases hrec : emitLoop bounded defaultDur minDur (idx + 1)
            (match lookupCount seen (eventBaseId idx item.raw) with
             | some c => (eventBaseId idx item.raw ++ "_" ++ natDigits (c + 1),
                 setCount seen (eventBaseId idx item.raw) (c + 1))
             | none => (eventBaseId idx item.raw,
                 (eventBaseId idx item.raw, 0) :: seen)).2 rest with
        | error err => rw [hrec, exceptBind_error] at h; cases h
        | ok rest' =>
          rw [hrec, exceptBind_ok, exceptPure] at h
          cases h
          rcases List.mem_cons.1 he with hev | hev
          · subst hev
            exact computeEndMs_gt bounded defaultDur minDur item.start_ms
              item.end_ms rest hmin
          · exact ih (idx + 1) _ rest' hrec e hev

theorem emitLoop_ids (bounded : Option Int) (defaultDur minDur : Int) :
    ∀ (items : List PreparedItem) (idx : Nat) (seen : List (String × Nat))
      (out : List NarrEventOut),
      emitLoop bounded defaultDur minDur idx seen items = .ok out →
      out.map (fun e => e.id) = dedupAssign seen (emitBases bounded idx items) := by
  intro items
  induction items with
  | nil =>
    intro idx seen out h
    simp only [emitLoop, exceptPure] at h
    cases h
    simp [emitBases, dedupAssign]
  | cons item rest ih =>
    intro idx seen out h
    simp only [emitLoop] at h
    by_cases hskip : shouldSkip bounded item.start_ms = true
    · rw [if_pos hskip] at h
      rw [emitBases, if_pos hskip]
      exact ih (idx + 1) seen out h
    · rw [if_neg hskip] at h
      rw [emitBases, if_neg hskip]
      cases hmeta : metaDictOf item.raw with
      | error err => rw [hmeta, exceptBind_error] at h; cases h
      | ok metaD =>
        rw [hmeta, exceptBind_ok] at h
        cases hlk : lookupCount seen (eventBaseId idx item.raw) with
        | some c =>
          rw [hlk] at h
          cases hrec : emitLoop bounded defaultDur minDur (idx + 1)
              (setCount seen (eventBaseId idx item.raw) (c + 1)) rest with
          | error err => rw [hrec, exceptBind_error] at h; cases h
          | ok rest' =>
            rw [hrec, exceptBind_ok, exceptPure] at h
            cases h
            rw [List.map_cons]
            rw [dedupAssign, hlk]
            exact congrArg _ (ih (idx + 1) _ rest' hrec)
        | none =>
          rw [hlk] at h
          cases hrec : emitLoop bounded defaultDur minDur (idx + 1)
              ((eventBaseId idx item.raw, 0) :: seen) rest with
          | error err => rw [hrec, exceptBind_error] at h; cases h
          | ok rest' =>
            rw [hrec, exceptBind_ok, exceptPure] at h
            cases h
            rw [List.map_cons]
            rw [dedupAssign, hlk]
            exact congrArg _ (ih (idx + 1) _ rest' hrec)

end Demo

namespace Demo

/-- **C1 (amended).** For every accepted input, every returned event satisfies
    `end_ms > start_ms`; and the returned ids are pairwise distinct *provided*
    no (defaulted) base id equals another base id extended by an underscore and
    a suffix — duplicate ids are resolved by appending `_N`, but a literal id of
    that suffixed shape can collide with a generated one (see the
    counterexample). -/
theorem normalize_narration_events_invariants (raws : List J) (vd : Option Int)
    (prepared : List PreparedItem) (out : List NarrEventOut)
    (hp : prepareEvents 1 raws = .ok prepared)
    (h : normalizeNarrationEvents vd 3000 500 raws = .ok out) :
    (∀ e ∈ out, e.start_ms < e.end_ms) ∧
    ((∀ b ∈ emitBases (boundedOf vd) 0 (pySortStable prepLE prepared), ∀ s,
        (b ++ "_" ++ s) ∉ emitBases (boundedOf vd) 0 (pySortStable prepLE prepared)) →
      (out.map (fun e => e.id)).Nodup) := by
  unfold normalizeNarrationEvents at h
  by_cases hemp : raws.isEmpty = true
  · rw [if_pos hemp, exceptPure] at h
    cases h
    exact ⟨fun e he => absurd he (List.not_mem_nil e), fun _ => List.nodup_nil⟩
  · rw [if_neg hemp, hp, exceptBind_ok] at h
    cases hem : emitLoop (boundedOf vd) 3000 500 0 [] (pySortStable prepLE prepared) with
    | error err => rw [hem, exceptBind_error] at h; cases h
    | ok normalized =>
      rw [hem, exceptBind_ok] at h
      by_cases hne : normalized.isEmpty = true
      · rw [if_pos hne] at h; cases h
      · rw [if_neg hne, exceptPure] at h
        cases h
        refine ⟨emitLoop_end_gt_start (boundedOf vd) 3000 500 (by omega)
          (pySortStable prepLE prepared) 0 [] out hem, ?_⟩
        intro hH
        rw [emitLoop_ids (boundedOf vd) 3000 500 (pySortStable prepLE prepared)
          0 [] out hem]
        exact dedupAssign_nodup _ hH

def c1DupDict : Dict :=
  [("id", .str "a"), ("start_ms", .int 0), ("end_ms", .int 1000), ("text", .str "x")]

def c1SuffixDict : Dict :=
  [("id", .str "a_1"), ("start_ms", .int 0), ("end_ms", .int 1000), ("text", .str "x")]

def c1CounterexampleRaws : List J := [.obj c1DupDict, .obj c1DupDict, .obj c1SuffixDict]

/-- Counterexample to C1 as stated: input ids `a`, `a`, `a_1` are accepted and
    produce output ids `a`, `a_1`, `a_1` — the dedup suffix collides with the
    literal id `a_1`, so the returned ids are not pairwise distinct. -/
theorem normalize_narration_events_duplicate_ids_counterexample :
    (normalizeNarrationEvents none 3000 500 c1CounterexampleRaws).map
        (fun out => out.map (fun e => e.id)) = .ok ["a", "a_1", "a_1"] ∧
    ¬ (["a", "a_1", "a_1"] : List String).Nodup :=
  ⟨rfl, by decide⟩

def c1WitnessRaws : List J := [.obj c1DupDict, .obj c1DupDict]

def c1WitnessOut : List NarrEventOut :=
  [⟨"a", 0, 1000, "x", "default", []⟩, ⟨"a_1", 0, 1000, "x", "default", []⟩]

/-- Witness for the amended C1: duplicate ids `a`, `a` (no underscore-suffixed
    collisions), giving distinct output ids `a`, `a_1`. -/
theorem normalize_narration_events_invariants_witness :
    (∀ e ∈ c1WitnessOut, e.start_ms < e.end_ms) ∧
    ((c1WitnessOut.map (fun e => e.id)).Nodup) := by
  have h := normalize_narration_events_invariants c1WitnessRaws none
    [⟨c1DupDict, 0, 1000, 1⟩, ⟨c1DupDict, 0, 1000, 2⟩] c1WitnessOut rfl rfl
  refine ⟨h.1, h.2 ?_⟩
  have hb : emitBases (boundedOf none) 0
      (pySortStable prepLE [⟨c1DupDict, 0, 1000, 1⟩, ⟨c1DupDict, 0, 1000, 2⟩]) =
      ["a", "a"] := rfl
  rw [hb]
  intro b hbm s hcon
  have hba : b = "a" := by
    rcases List.mem_cons.1 hbm with hx | hx
    · exact hx
    · simpa using hx
  subst hba
  have heq : ("a" ++ "_" ++ s : String) = "a" := by
    rcases List.mem_cons.1 hcon with hx | hx
    · exact hx
    · simpa using hx
  have hlen := congrArg String.length heq
  rw [String.length_append, String.length_append] at hlen
  have h1 : ("a" : String).length = 1 := rfl
  have h2 : ("_" : String).length = 1 := rfl
  omega

/-- **C8.** Importing `"[00:02] second\n[00:00] first"` as `timestamped_txt`
    yields exactly two narration events: first `{id: "n2", start_ms: 0,
    end_ms: 2000, text: "first"}` then `{id: "n1", start_ms: 2000,
    end_ms: 5000, text: "second"}`. -/
theorem import_timestamped_txt_example :
    importTimestampedTxt none "[00:02] second\n[00:00] first" = .ok
      [⟨"n2", 0, 2000, "first", "default",
        [("source_line", .int 2), ("source_format", .str "timestamped_txt")]⟩,
       ⟨"n1", 2000, 5000, "second", "default",
        [("source_line", .int 1), ("source_format", .str "timestamped_txt")]⟩] :=
  rfl

end Demo

namespace Demo

/-! ### Project store (`backend/app/storage.py`) -/

def MAX_DEMO_RUN_HISTORY : Int := 50
def MAX_RENDER_HISTORY : Int := 50

/-- `_history_limit(value, default)`. -/
def historyLimit (value default : Int) : Int :=
  if value < 1 then default else min value 500

/-- `_trim_history(records, limit)`: keep the last `limit` records. -/
def trimHistory (records : List J) (limit : Int) : List J :=
  if (records.length : Int) ≤ limit then records
  else records.drop (records.length - limit.toNat)

def truthyOpt : Option J → Bool
  | some v => truthy v
  | none => false

/-- `utc_now_iso().replace(":", "").replace("-", "")`. -/
def mangleNow (now : String) : String :=
  ⟨now.data.filter (fun c => !(c = ':' || c = '-'))⟩

/-- `dict(x or {})`: `none` models the `TypeError` on a truthy non-dict. -/
def dictOrEmpty (v : Option J) : Option Dict :=
  match v with
  | some j =>
    if truthy j then
      match j with
      | .obj f => some f
      | _ => none
    else some []
  | none => some []

def stagesAux : List (String × J) → Dict → Dict
  | [], acc => acc
  | (k, raw) :: rest, acc =>
    let name := pyStrip k
    if name = "" then stagesAux rest acc
    else stagesAux rest (setKey acc name (.int (max 0 (coerceInt (some raw) 0))))

/-- `_normalize_stage_timings`. -/
def normalizeStageTimings (v : Option J) : Dict :=
  match v with
  | some (.obj fields) => stagesAux fields []
  | _ => []

def bumpErrorType (d : Dict) (k : String) : Dict :=
  match getKey d k with
  | some (.int n) => setKey d k (.int (n + 1))
  | _ => setKey d k (.int 1)

/-- The `executions` scan of `_normalize_error_summary`: failed action ids
    and error-type counts. -/
def errorEntriesAux : List J → List String → Dict → (List String × Dict)
  | [], ids, types => (ids, types)
  | entry :: rest, ids, types =>
    match entry with
    | .obj e =>
      if pyStr (orDefault (getKey e "status") (.str "ok")) = "ok" then
        errorEntriesAux rest ids types
      else
        let actionId := pyStrip (pyStr (orDefault (getKey e "action_id") (.str "")))
        let ids2 := if actionId = "" then ids else ids ++ [actionId]
        let et0 := pyStrip (pyStr (orDefault (getKey e "error_type") (.str "action_error")))
        let et := if et0 = "" then "action_error" else et0
        errorEntriesAux rest ids2 (bumpErrorType types et)
    | _ => errorEntriesAux rest ids types

/-- `_normalize_error_summary`. -/
def normalizeErrorSummary (record : Dict) : Dict :=
  let summary :=
    match getKey record "error_summary" with
    | some (.obj s) => s
    | _ => []
  let failedActions :=
    match getKey record "execution_summary" with
    | some (.obj es) => coerceInt (getKey es "error") 0
    | _ => 0
  let scanned :=
    match getKey record "executions" with
    | some (.arr entries) => errorEntriesAux entries [] []
    | _ => ([], [])
  let message := pyStrip (pyStr (orDefault (getKey summary "message")
    (orDefault (getKey record "error") (.str ""))))
  let hasError := truthyOpt (getKey summary "has_error") || message ≠ ""
    || failedActions > 0
  [("has_error", .bool hasError), ("message", .str message),
   ("failed_actions", .int failedActions),
   ("failed_action_ids", .arr (scanned.1.map J.str)),
   ("error_types", .obj scanned.2)]

/-- The `run_id` resolution of `normalize_demo_run_record`: record value,
    then fallback, then a generated `demo_<timestamp>` id. -/
def demoRunIdOf (now : String) (runIdFallback : Option String)
    (record : Dict) : String :=
  let rid0 := pyStrip (pyStr (orDefault (getKey record "run_id") (.str "")))
  let rid1 :=
    if rid0 = "" then
      pyStrip (match runIdFallback with | some s => s | none => "")
    else rid0
  if rid1 = "" then "demo_" ++ mangleNow now else rid1

/-- The non-fallible part of `normalize_demo_run_record`. -/
def normalizeDemoRunRecordBase (now : String) (runIdFallback : Option String)
    (record : Dict) : Dict :=
  let d := setKey record "run_id" (.str (demoRunIdOf now runIdFallback record))
  let d :=
    if (getKey d "project_id").isSome then
      setKey d "project_id"
        (.str (pyStrip (pyStr (orDefault (getKey d "project_id") (.str "")))))
    else d
  let d := setKey d "created_at"
    (.str (pyStr (orDefault (getKey d "created_at") (.str now))))
  let d := setKey d "mode"
    (.str (pyStr (orDefault (getKey d "mode") (.str "demo_capture_unknown"))))
  let d := setKey d "execution_mode"
    (.str (pyStr (orDefault (getKey d "execution_mode") (.str "playwright_optional"))))
  let d := setKey d "actions_total"
    (.int (max 0 (coerceInt (getKey d "actions_total") 0)))
  let d := setKey d "actions_executed"
    (.int (max 0 (coerceInt (getKey d "actions_executed") 0)))
  setKey d "stage_timings_ms"
    (.obj (normalizeStageTimings (getKey d "stage_timings_ms")))

/-- `normalize_demo_run_record` (`now` stands for `utc_now_iso()`). -/
def normalizeDemoRunRecord (now : String) (runIdFallback : Option String)
    (record : Dict) : Option Dict := do
  let d := normalizeDemoRunRecordBase now runIdFallback record
  let ds ← dictOrEmpty (getKey d "drift_stats")
  let d := setKey d "drift_stats" (.obj ds)
  let es ← dictOrEmpty (getKey d "execution_summary")
  let d := setKey d "execution_summary" (.obj es)
  let co ← dictOrEmpty (getKey d "correlation")
  let d := setKey d "correlation" (.obj co)
  pure (setKey d "error_summary" (.obj (normalizeErrorSummary d)))

/-- The `render_id` resolution of `normalize_render_record`. -/
def renderIdOf (now : String) (renderIdFallback : Option String)
    (record : Dict) : String :=
  let rid0 := pyStrip (pyStr (orDefault (getKey record "render_id") (.str "")))
  let rid1 :=
    if rid0 = "" then
      pyStrip (match renderIdFallback with | some s => s | none => "")
    else rid0
  if rid1 = "" then "render_" ++ mangleNow now else rid1

/-- The non-fallible prefix of `normalize_render_record`. -/
def normalizeRenderRecordBase (now : String) (renderIdFallback : Option String)
    (record : Dict) : Dict :=
  let d := setKey record "render_id" (.str (renderIdOf now renderIdFallback record))
  let d := setKey d "created_at"
    (.str (pyStr (orDefault (getKey d "created_at") (.str now))))
  let d := setKey d "mode"
    (.str (pyStr (orDefault (getKey d "mode") (.str "tts_only"))))
  let d := setKey d "status"
    (.str (pyStr (orDefault (getKey d "status") (.str "completed"))))
  setKey d "stage_timings_ms"
    (.obj (normalizeStageTimings (getKey d "stage_timings_ms")))

/-- `normalize_render_record`. -/
def normalizeRenderRecord (now : String) (renderIdFallback : Option String)
    (record : Dict) : Option Dict := do
  let d := normalizeRenderRecordBase now renderIdFallback record
  let co ← dictOrEmpty (getKey d "correlation")
  let d := setKey d "correlation" (.obj co)
  let errSum := normalizeErrorSummary d
  let d := setKey d "error_summary" (.obj errSum)
  let d :=
    if truthyOpt (getKey errSum "has_error") then
      setKey d "status" (.str (pyStr (orDefault (getKey d "status") (.str "failed"))))
    else d
  pure d

def defaultDemoState : Dict := [("last_run_id", .null), ("runs", .arr [])]
def defaultRenders : Dict := [("last_render_id", .null), ("history", .arr [])]

/-- `append_demo_run` (returns the updated project document; the Python
    function mutates `proj` in place and returns the normalized record). -/
def appendDemoRun (now : String) (proj : Dict) (runRecord : Dict)
    (runId : Option String) (histLimit : Int) : Option Dict := do
  let demoState :=
    match getKey proj "demo" with
    | some (.obj d) => d
    | _ => defaultDemoState
  let runs :=
    match getKey demoState "runs" with
    | some (.arr rs) => rs
    | _ => []
  let normalized ← normalizeDemoRunRecord now runId runRecord
  let runs2 := trimHistory (runs ++ [.obj normalized])
    (historyLimit histLimit MAX_DEMO_RUN_HISTORY)
  let demo2 := setKey demoState "runs" (.arr runs2)
  let lastId := pyStr (orDefault (getKey normalized "run_id")
    (match getKey demoState "last_run_id" with | some v => v | none => .null))
  let demo3 := setKey demo2 "last_run_id" (.str lastId)
  pure (setKey proj "demo" (.obj demo3))

/-- `append_render_history` (returns the updated project document). -/
def appendRenderHistory (now : String) (proj : Dict) (renderRecord : Dict)
    (renderId : Option String) (histLimit : Int) : Option Dict := do
  let renders :=
    match getKey proj "renders" with
    | some (.obj d) => d
    | _ => defaultRenders
  let history :=
    match getKey renders "history" with
    | some (.arr rs) => rs
    | _ => []
  let normalized ← normalizeRenderRecord now renderId renderRecord
  let history2 := trimHistory (history ++ [.obj normalized])
    (historyLimit histLimit MAX_RENDER_HISTORY)
  let renders2 := setKey renders "history" (.arr history2)
  let lastId := pyStr (orDefault (getKey normalized "render_id")
    (match getKey renders "last_render_id" with | some v => v | none => .null))
  let renders3 := setKey renders2 "last_render_id" (.str lastId)
  pure (setKey proj "renders" (.obj renders3))

end Demo

namespace Demo

theorem trimHistory_length_le (l : List J) (n : Int) (hn : 0 ≤ n) :
    (trimHistory l n).length ≤ n.toNat := by
  unfold trimHistory
  split
  · omega
  · rw [List.length_drop]
    omega

theorem trimHistory_concat_getLast (l : List J) (x : J) (n : Int) (hn : 1 ≤ n) :
    (trimHistory (l ++ [x]) n).getLast? = some x := by
  unfold trimHistory
  split
  · exact List.getLast?_concat l
  · rename_i hlen
    simp only [List.length_append, List.length_singleton] at hlen ⊢
    have hk : (l.length + 1) - n.toNat ≤ l.length := by omega
    rw [List.drop_append_of_le_length hk]
    exact List.getLast?_concat _

theorem string_append_ne_empty (a b : String) (ha : a ≠ "") : a ++ b ≠ "" := by
  intro hcon
  have := congrArg String.length hcon
  rw [String.length_append] at this
  have h0 : ("" : String).length = 0 := rfl
  rw [h0] at this
  apply ha
  apply String.ext
  have : a.length = 0 := by omega
  have hd : a.data.length = 0 := this
  cases hda : a.data with
  | nil => simp [hda]
  | cons c cs => rw [hda] at hd; simp at hd

theorem optionBind_some {α β : Type} (a : α) (f : α → Option β) :
    (some a >>= f) = f a := rfl

theorem optionBind_none {α β : Type} (f : α → Option β) :
    ((none : Option α) >>= f) = none := rfl

theorem demoRunIdOf_ne_empty (now : String) (rid : Option String) (record : Dict) :
    demoRunIdOf now rid record ≠ "" := by
  unfold demoRunIdOf
  dsimp only
  split
  all_goals try split
  all_goals
    first
      | exact string_append_ne_empty "demo_" (mangleNow now) (by decide)
      | assumption

theorem renderIdOf_ne_empty (now : String) (rid : Option String) (record : Dict) :
    renderIdOf now rid record ≠ "" := by
  unfold renderIdOf
  dsimp only
  split
  all_goals try split
  all_goals
    first
      | exact string_append_ne_empty "render_" (mangleNow now) (by decide)
      | assumption

theorem normalizeDemoRunRecordBase_run_id (now : String) (rid : Option String)
    (record : Dict) :
    getKey (normalizeDemoRunRecordBase now rid record) "run_id" =
      some (.str (demoRunIdOf now rid record)) := by
  unfold normalizeDemoRunRecordBase
  dsimp only
  by_cases hp : (getKey (setKey record "run_id"
      (.str (demoRunIdOf now rid record))) "project_id").isSome
  · rw [if_pos hp]
    simp [getKey_setKey]
  · rw [if_neg hp]
    simp [getKey_setKey]

theorem normalizeDemoRunRecord_run_id (now : String) (rid : Option String)
    (record d : Dict) (h : normalizeDemoRunRecord now rid record = some d) :
    getKey d "run_id" = some (.str (demoRunIdOf now rid record)) := by
  unfold normalizeDemoRunRecord at h
  dsimp only at h
  cases h1 : dictOrEmpty (getKey (normalizeDemoRunRecordBase now rid record)
      "drift_stats") with
  | none => rw [h1, optionBind_none] at h; cases h
  | some ds =>
    rw [h1, optionBind_some] at h
    cases h2 : dictOrEmpty (getKey (setKey (normalizeDemoRunRecordBase now rid record)
        "drift_stats" (.obj ds)) "execution_summary") with
    | none => rw [h2, optionBind_none] at h; cases h
    | some es =>
      rw [h2, optionBind_some] at h
      cases h3 : dictOrEmpty (getKey (setKey (setKey
          (normalizeDemoRunRecordBase now rid record)
          "drift_stats" (.obj ds)) "execution_summary" (.obj es))
          "correlation") with
      | none => rw [h3, optionBind_none] at h; cases h
      | some co =>
        rw [h3, optionBind_some] at h
        cases h
        simp [getKey_setKey, normalizeDemoRunRecordBase_run_id]

theorem normalizeRenderRecordBase_render_id (now : String) (rid : Option String)
    (record : Dict) :
    getKey (normalizeRenderRecordBase now rid record) "render_id" =
      some (.str (renderIdOf now rid record)) := by
  unfold normalizeRenderRecordBase
  dsimp only
  simp [getKey_setKey]

theorem normalizeRenderRecord_render_id (now : String) (rid : Option String)
    (record d : Dict) (h : normalizeRenderRecord now rid record = some d) :
    getKey d "render_id" = some (.str (renderIdOf now rid record)) := by
  unfold normalizeRenderRecord at h
  try dsimp only at h
  cases h1 : dictOrEmpty (getKey (normalizeRenderRecordBase now rid record)
      "correlation") with
  | none => rw [h1, optionBind_none] at h; cases h
  | some co =>
    rw [h1, optionBind_some] at h
    try dsimp only at h
    cases h
    split
    all_goals simp [getKey_setKey, normalizeRenderRecordBase_render_id]

end Demo

namespace Demo

/-- The `renders` sub-document of a project (empty dict when absent). -/
def rendersOf (p : Dict) : Dict :=
  match getKey p "renders" with
  | some (.obj d) => d
  | _ => []

/-- The `demo` sub-document of a project (empty dict when absent). -/
def demoOf (p : Dict) : Dict :=
  match getKey p "demo" with
  | some (.obj d) => d
  | _ => []

/-- The list stored under key `k` of a dict (empty list when absent). -/
def arrAt (d : Dict) (k : String) : List J :=
  match getKey d k with
  | some (.arr l) => l
  | _ => []

theorem orDefault_str_ne_empty (s : String) (hs : s ≠ "") (fb : J) :
    orDefault (some (.str s)) fb = .str s := by
  simp [orDefault, truthy, hs]

/-- **C3.** After `append_render_history` the project's `renders.history`
    list has at most 50 entries and `renders.last_render_id` equals the
    `render_id` of the last history entry; analogously, after
    `append_demo_run` the `demo.runs` list has at most 50 entries and
    `demo.last_run_id` equals the `run_id` of the last run (both with
    their default history limit of 50). -/
theorem append_history_bounded_last_id (now : String)
    (proj renderRecord runRecord : Dict) (renderId runId : Option String) :
    (∀ p2, appendRenderHistory now proj renderRecord renderId MAX_RENDER_HISTORY
        = some p2 →
      getKey p2 "renders" = some (.obj (rendersOf p2)) ∧
      getKey (rendersOf p2) "history"
        = some (.arr (arrAt (rendersOf p2) "history")) ∧
      (arrAt (rendersOf p2) "history").length ≤ 50 ∧
      ∃ lastRec, (arrAt (rendersOf p2) "history").getLast?
          = some (.obj lastRec) ∧
        ∃ s, getKey lastRec "render_id" = some (.str s) ∧
          getKey (rendersOf p2) "last_render_id" = some (.str s)) ∧
    (∀ p2, appendDemoRun now proj runRecord runId MAX_DEMO_RUN_HISTORY
        = some p2 →
      getKey p2 "demo" = some (.obj (demoOf p2)) ∧
      getKey (demoOf p2) "runs" = some (.arr (arrAt (demoOf p2) "runs")) ∧
      (arrAt (demoOf p2) "runs").length ≤ 50 ∧
      ∃ lastRec, (arrAt (demoOf p2) "runs").getLast? = some (.obj lastRec) ∧
        ∃ s, getKey lastRec "run_id" = some (.str s) ∧
          getKey (demoOf p2) "last_run_id" = some (.str s)) := by
  constructor
  · intro p2 h
    unfold appendRenderHistory at h
    try dsimp only at h
    cases hn : normalizeRenderRecord now renderId renderRecord with
    | none => rw [hn, optionBind_none] at h; cases h
    | some normalized =>
      rw [hn, optionBind_some] at h
      try dsimp only at h
      cases h
      have hid := normalizeRenderRecord_render_id now renderId renderRecord
        normalized hn
      have hne := renderIdOf_ne_empty now renderId renderRecord
      refine ⟨?_, ?_, ?_, normalized, ?_, renderIdOf now renderId renderRecord,
        hid, ?_⟩
      · simp [rendersOf, getKey_setKey]
      · simp [rendersOf, arrAt, getKey_setKey]
      · simp only [rendersOf, arrAt, getKey_setKey, String.reduceEq, reduceIte]
        refine le_trans (trimHistory_length_le _ _ ?_) (le_of_eq ?_)
        · decide
        · decide
      · simp only [rendersOf, arrAt, getKey_setKey, String.reduceEq, reduceIte]
        refine trimHistory_concat_getLast _ _ _ ?_
        decide
      · simp [rendersOf, getKey_setKey, hid, orDefault_str_ne_empty _ hne,
          pyStr]
  · intro p2 h
    unfold appendDemoRun at h
    try dsimp only at h
    cases hn : normalizeDemoRunRecord now runId runRecord with
    | none => rw [hn, optionBind_none] at h; cases h
    | some normalized =>
      rw [hn, optionBind_some] at h
      try dsimp only at h
      cases h
      have hid := normalizeDemoRunRecord_run_id now runId runRecord
        normalized hn
      have hne := demoRunIdOf_ne_empty now runId runRecord
      refine ⟨?_, ?_, ?_, normalized, ?_, demoRunIdOf now runId runRecord,
        hid, ?_⟩
      · simp [demoOf, getKey_setKey]
      · simp [demoOf, arrAt, getKey_setKey]
      · simp only [demoOf, arrAt, getKey_setKey, String.reduceEq, reduceIte]
        refine le_trans (trimHistory_length_le _ _ ?_) (le_of_eq ?_)
        · decide
        · decide
      · simp only [demoOf, arrAt, getKey_setKey, String.reduceEq, reduceIte]
        refine trimHistory_concat_getLast _ _ _ ?_
        decide
      · simp [demoOf, getKey_setKey, hid, orDefault_str_ne_empty _ hne,
          pyStr]

/-- Witness for C3: appending a concrete render record to an empty
    project satisfies the bounded-history and last-id properties. -/
theorem append_history_bounded_last_id_witness :
    ∃ p2, appendRenderHistory "2026-01-01T000000" []
        [("render_id", .str "render_1"), ("status", .str "completed")]
        none MAX_RENDER_HISTORY = some p2 ∧
      getKey p2 "renders" = some (.obj (rendersOf p2)) ∧
      getKey (rendersOf p2) "history"
        = some (.arr (arrAt (rendersOf p2) "history")) ∧
      (arrAt (rendersOf p2) "history").length ≤ 50 ∧
      ∃ lastRec, (arrAt (rendersOf p2) "history").getLast?
          = some (.obj lastRec) ∧
        ∃ s, getKey lastRec "render_id" = some (.str s) ∧
          getKey (rendersOf p2) "last_render_id" = some (.str s) := by
  refine ⟨_, rfl, ?_⟩
  exact (append_history_bounded_last_id "2026-01-01T000000" []
    [("render_id", .str "render_1"), ("status", .str "completed")]
    [] none none).1 _ rfl

end Demo

namespace Demo

def PLAYWRIGHT_OPTIONAL_MODE : String := "playwright_optional"
def PLAYWRIGHT_REQUIRED_MODE : String := "playwright_required"

/-- One entry of `self._executions` (the fields relevant to dry runs;
    wall-clock timing fields are outside the model). -/
structure DemoActionExecution where
  action_id : String
  source_index : Nat
  action : String
  planned_at_ms : Int
  timeout_ms : Int
  max_retries : Int
  attempts : Nat
  retry_count : Nat
  status : String

/-- `_execute_dry_run`: one `status="ok"` execution per action, then the
    write of an empty `raw_demo.mp4` (returned by the caller model). -/
def executeDryRun (actions : List DemoActionEvent) :
    List DemoActionExecution :=
  actions.map (fun a =>
    ⟨a.id, a.source_index, a.action, a.at_ms, a.timeout_ms, a.retries,
      1, 0, "ok"⟩)

/-- Outcome of `ffprobe_json` on the raw demo file: an exception, or a
    parsed result reduced to whether a video stream is present and the
    reported duration in milliseconds. -/
inductive ProbeOutcome
  | err (msg : String)
  | ok (hasVideo : Bool) (durationMs : Int)

structure ArtifactSummary where
  raw_demo_exists : Bool
  raw_demo_size_bytes : Int
  raw_demo_duration_ms : Int
  raw_demo_playable : Bool
  raw_demo_probe_error : String

/-- `_probe_raw_demo_artifact`.  `rawExists`/`sizeBytes` describe the file
    on disk, `probe` the ffprobe call (only reached for non-empty files). -/
def probeRawDemoArtifact (rawExists : Bool) (sizeBytes : Int)
    (probe : ProbeOutcome) : ArtifactSummary :=
  let base : ArtifactSummary := ⟨rawExists, 0, 0, false, ""⟩
  if !rawExists then base
  else
    let s1 := { base with raw_demo_size_bytes := sizeBytes }
    if sizeBytes ≤ 0 then s1
    else
      match probe with
      | .err m => { s1 with raw_demo_probe_error := m }
      | .ok hasVideo durationMs =>
        let d := max durationMs 0
        { s1 with raw_demo_duration_ms := d,
                  raw_demo_playable := hasVideo && decide (0 < d) }

structure DemoRunResult where
  ok : Bool
  mode : String
  actions_total : Nat
  actions_executed : Nat
  error : String
  executions : List DemoActionExecution
  artifact_summary : ArtifactSummary
  raw_demo_size : Option Int

/-- `DemoRunner.execute` specialised to a failed dependency probe
    (`dependency_status["ok"]` false), so the Playwright branch is not
    taken: `used_playwright = False` and `runtime_error = ""`.  `fsRaw0`
    is the size of a pre-existing `raw_demo.mp4`, if any. -/
def executeProbeFailed (executionMode : String) (dependencyError : String)
    (fsRaw0 : Option Int) (probe : ProbeOutcome)
    (actions : List DemoActionEvent) : DemoRunResult :=
  let usedPlaywright : Bool := false
  let runtimeError : String := ""
  if !usedPlaywright && executionMode == PLAYWRIGHT_REQUIRED_MODE then
    { ok := false,
      mode := "demo_capture_failed",
      actions_total := actions.length,
      actions_executed := 0,
      error := "Playwright execution mode is set to 'playwright_required' but dependencies are unavailable. Either install Playwright+Chromium or switch to 'playwright_optional'. Diagnostic: "
        ++ (if dependencyError = "" then "missing dependency probe details"
            else dependencyError),
      executions := [],
      artifact_summary :=
        probeRawDemoArtifact fsRaw0.isSome (fsRaw0.getD 0) probe,
      raw_demo_size := fsRaw0 }
  else
    let executions := executeDryRun actions
    let fsRaw : Option Int := some 0
    let errorCount :=
      (executions.filter (fun e => e.status != "ok")).length
    let artifact := probeRawDemoArtifact true 0 probe
    let failureReasons : List String :=
      if usedPlaywright then
        (if runtimeError ≠ "" then
          ["Playwright runtime failure: " ++ runtimeError] else [])
        ++ (if 0 < errorCount then
          [intStr errorCount ++ " action(s) failed during capture"] else [])
        ++ (if errorCount = 0 && !artifact.raw_demo_playable then
          [if artifact.raw_demo_probe_error = "" then
            "Playwright capture did not produce a non-empty playable raw_demo.mp4"
          else "Playwright capture did not produce a playable raw_demo.mp4 ("
            ++ artifact.raw_demo_probe_error ++ ")"] else [])
      else []
    let resultOk := failureReasons.isEmpty
    { ok := resultOk,
      mode :=
        if usedPlaywright && resultOk then "demo_capture_playwright"
        else if usedPlaywright then "demo_capture_failed"
        else "demo_capture_dry_run",
      actions_total := actions.length,
      actions_executed := executions.length,
      error := String.intercalate "; " failureReasons,
      executions := executions,
      artifact_summary := artifact,
      raw_demo_size := fsRaw }

/-- **C9.** When the Playwright dependency probe fails and the execution
    mode is `playwright_optional`, `DemoRunner.execute` returns `ok = true`
    with `mode = "demo_capture_dry_run"`, writes a zero-byte
    `raw_demo.mp4` (so `artifact_summary.raw_demo_playable = false` and
    `raw_demo_size_bytes = 0`), records one execution per action with
    `status = "ok"`, `attempts = 1` and `retry_count = 0`, and reports no
    error: the playability quality gate never fires on dry runs. -/
theorem demo_runner_dry_run (executionMode dependencyError : String)
    (fsRaw0 : Option Int) (probe : ProbeOutcome)
    (actions : List DemoActionEvent)
    (hmode : executionMode = PLAYWRIGHT_OPTIONAL_MODE) :
    (executeProbeFailed executionMode dependencyError fsRaw0 probe
        actions).ok = true ∧
    (executeProbeFailed executionMode dependencyError fsRaw0 probe
        actions).mode = "demo_capture_dry_run" ∧
    (executeProbeFailed executionMode dependencyError fsRaw0 probe
        actions).raw_demo_size = some 0 ∧
    (executeProbeFailed executionMode dependencyError fsRaw0 probe
        actions).artifact_summary.raw_demo_exists = true ∧
    (executeProbeFailed executionMode dependencyError fsRaw0 probe
        actions).artifact_summary.raw_demo_size_bytes = 0 ∧
    (executeProbeFailed executionMode dependencyError fsRaw0 probe
        actions).artifact_summary.raw_demo_playable = false ∧
    (executeProbeFailed executionMode dependencyError fsRaw0 probe
        actions).error = "" ∧
    (executeProbeFailed executionMode dependencyError fsRaw0 probe
        actions).executions.length = actions.length ∧
    ∀ e ∈ (executeProbeFailed executionMode dependencyError fsRaw0 probe
        actions).executions,
      e.status = "ok" ∧ e.attempts = 1 ∧ e.retry_count = 0 := by
  subst hmode
  refine ⟨?_, ?_, ?_, ?_, ?_, ?_, ?_, ?_, ?_⟩
  all_goals
    simp [executeProbeFailed, probeRawDemoArtifact,
      PLAYWRIGHT_OPTIONAL_MODE, PLAYWRIGHT_REQUIRED_MODE,
      executeDryRun, String.intercalate]

/-- Witness for C9 at a concrete action list. -/
theorem demo_runner_dry_run_witness :
    "playwright_optional" = PLAYWRIGHT_OPTIONAL_MODE ∧
    (executeProbeFailed "playwright_optional" "no browser" none
        (.err "unused")
        [⟨"a1", 0, "click", some "#b", [], 5000, 0, 0⟩]).ok = true ∧
    (executeProbeFailed "playwright_optional" "no browser" none
        (.err "unused")
        [⟨"a1", 0, "click", some "#b", [], 5000, 0, 0⟩]).mode
      = "demo_capture_dry_run" := by
  have h := demo_runner_dry_run "playwright_optional" "no browser" none
    (.err "unused") [⟨"a1", 0, "click", some "#b", [], 5000, 0, 0⟩] rfl
  exact ⟨rfl, h.1, h.2.1⟩

end Demo

namespace Demo

/-! ### Helper lemmas for the `ensure_project_defaults` development -/

theorem setKey_of_getKey_none (d : Dict) (k : String) (v : J)
    (h : getKey d k = none) : setKey d k v = d ++ [(k, v)] := by
  induction d with
  | nil => rfl
  | cons hd tl ih =>
    obtain ⟨k0, v0⟩ := hd
    by_cases h0 : k0 = k
    · subst h0; simp [getKey] at h
    · simp only [getKey, if_neg h0] at h
      simp [setKey, h0, ih h]

theorem dropWhile_head_not {α : Type} (p : α → Bool) (l : List α) :
    ∀ a, (l.dropWhile p).head? = some a → p a = false := by
  induction l with
  | nil => intro a h; simp [List.dropWhile] at h
  | cons x t ih =>
    intro a h
    by_cases hx : p x
    · rw [List.dropWhile_cons_of_pos hx] at h
      exact ih a h
    · rw [List.dropWhile_cons_of_neg hx] at h
      simp at h
      subst h
      simpa using hx

theorem dropWhile_of_head_not {α : Type} (p : α → Bool) (l : List α)
    (h : ∀ a, l.head? = some a → p a = false) : l.dropWhile p = l := by
  cases l with
  | nil => rfl
  | cons x t =>
    have hx := h x rfl
    exact List.dropWhile_cons_of_neg (by simp [hx])

theorem dropWhile_idem {α : Type} (p : α → Bool) (l : List α) :
    (l.dropWhile p).dropWhile p = l.dropWhile p :=
  dropWhile_of_head_not p _ (dropWhile_head_not p l)

theorem getLast_dropWhile {α : Type} (p : α → Bool) (l : List α)
    (h : l.dropWhile p ≠ []) : (l.dropWhile p).getLast? = l.getLast? := by
  induction l with
  | nil => simp [List.dropWhile] at h
  | cons x t ih =>
    by_cases hx : p x
    · rw [List.dropWhile_cons_of_pos hx] at h ⊢
      rw [ih h]
      cases t with
      | nil => rw [List.dropWhile_nil] at h; exact absurd rfl h
      | cons y s => simp [List.getLast?_cons_cons]
    · rw [List.dropWhile_cons_of_neg hx]

theorem stripChars_idem (cs : List Char) :
    stripChars (stripChars cs) = stripChars cs := by
  unfold stripChars
  have h1 : List.dropWhile isPySpace
      (((cs.dropWhile isPySpace).reverse.dropWhile isPySpace).reverse)
      = ((cs.dropWhile isPySpace).reverse.dropWhile isPySpace).reverse := by
    apply dropWhile_of_head_not
    intro a ha
    by_cases hnil :
        (cs.dropWhile isPySpace).reverse.dropWhile isPySpace = []
    · rw [hnil] at ha; simp at ha
    · rw [List.head?_reverse] at ha
      rw [getLast_dropWhile isPySpace _ hnil] at ha
      rw [← List.head?_reverse] at ha
      rw [List.reverse_reverse] at ha
      exact dropWhile_head_not isPySpace cs a ha
  rw [h1]
  rw [List.reverse_reverse, dropWhile_idem]

theorem pyStrip_idem (s : String) : pyStrip (pyStrip s) = pyStrip s := by
  unfold pyStrip
  exact congrArg String.mk (stripChars_idem s.data)

theorem stripChars_of_no_space (cs : List Char)
    (h : ∀ c ∈ cs, isPySpace c = false) : stripChars cs = cs := by
  unfold stripChars
  have h1 : cs.dropWhile isPySpace = cs := by
    apply dropWhile_of_head_not
    intro a ha
    exact h a (List.mem_of_mem_head? (by simp [ha]))
  rw [h1]
  have h2 : cs.reverse.dropWhile isPySpace = cs.reverse := by
    apply dropWhile_of_head_not
    intro a ha
    apply h
    rw [← List.mem_reverse]
    exact List.mem_of_mem_head? (by simp [ha])
  rw [h2, List.reverse_reverse]

theorem pyStrip_of_no_space (s : String)
    (h : ∀ c ∈ s.data, isPySpace c = false) : pyStrip s = s := by
  unfold pyStrip
  rw [stripChars_of_no_space s.data h]

theorem string_mk_ne_empty (cs : List Char) (h : cs ≠ []) :
    String.mk cs ≠ "" := by
  intro hcon
  apply h
  have : (String.mk cs).data = ("" : String).data := by rw [hcon]
  simpa using this

theorem natDigits_ne_empty (n : Nat) : natDigits n ≠ "" := by
  unfold natDigits
  by_cases h : n = 0
  · simp [h]
  · rw [if_neg h]
    apply string_mk_ne_empty
    simp only [ne_eq, List.reverse_eq_nil_iff]
    rw [digitsRev_eq_nil_iff]
    exact h

theorem intStr_ne_empty (n : Int) : intStr n ≠ "" := by
  unfold intStr
  split
  · exact string_append_ne_empty "-" _ (by decide)
  · exact natDigits_ne_empty n.natAbs

theorem string_append_ne_empty_right (a b : String) (hb : b ≠ "") :
    a ++ b ≠ "" := by
  intro hcon
  have := congrArg String.length hcon
  rw [String.length_append] at this
  have h0 : ("" : String).length = 0 := rfl
  rw [h0] at this
  apply hb
  have hlen : b.length = 0 := by omega
  cases b with
  | mk cs =>
    cases cs with
    | nil => rfl
    | cons c t => simp [String.length] at hlen

theorem renderFloat_ne_empty (m : Int) (e : Nat) : renderFloat m e ≠ "" := by
  unfold renderFloat
  dsimp only
  split
  · exact string_append_ne_empty_right _ _ (by decide)
  · exact string_append_ne_empty _ _
      (string_append_ne_empty_right _ _ (by decide))

theorem truthy_pyStr_ne_empty (v : J) (h : truthy v = true) :
    pyStr v ≠ "" := by
  cases v with
  | null => simp [truthy] at h
  | bool b =>
    simp [truthy] at h
    subst h
    simp [pyStr]
  | int n => exact intStr_ne_empty n
  | float m e => exact renderFloat_ne_empty m e
  | str s => simpa [truthy] using h
  | arr xs => exact string_append_ne_empty "[" _ (by decide)
  | obj fs => exact string_append_ne_empty "\x7b" _ (by decide)

end Demo

namespace Demo

theorem getKey_eq_none_of_not_mem (d : Dict) (k : String)
    (h : k ∉ d.map Prod.fst) : getKey d k = none := by
  induction d with
  | nil => rfl
  | cons hd tl ih =>
    obtain ⟨k0, v0⟩ := hd
    have h1 : k0 ≠ k := by
      intro he; exact h (by simp [he])
    have h2 : k ∉ tl.map Prod.fst := by
      intro he; exact h (by simp [he])
    show (if k0 = k then some v0 else getKey tl k) = none
    rw [if_neg h1]
    exact ih h2

theorem setKey_cons_eq (k0 : String) (v0 : J) (tl : Dict) (k : String) (v : J)
    (h : k0 = k) : setKey ((k0, v0) :: tl) k v = (k0, v) :: tl := by
  show (if k0 = k then (k0, v) :: tl else (k0, v0) :: setKey tl k v)
      = (k0, v) :: tl
  rw [if_pos h]

theorem setKey_cons_ne (k0 : String) (v0 : J) (tl : Dict) (k : String) (v : J)
    (h : k0 ≠ k) : setKey ((k0, v0) :: tl) k v = (k0, v0) :: setKey tl k v := by
  show (if k0 = k then (k0, v) :: tl else (k0, v0) :: setKey tl k v)
      = (k0, v0) :: setKey tl k v
  rw [if_neg h]

theorem mem_setKey (d : Dict) (k : String) (v : J) (p : String × J) :
    p ∈ setKey d k v → p ∈ d ∨ p = (k, v) := by
  induction d with
  | nil =>
    intro h
    simp only [setKey, List.mem_singleton] at h
    right; exact h
  | cons hd tl ih =>
    intro h
    obtain ⟨k0, v0⟩ := hd
    by_cases h0 : k0 = k
    · rw [setKey_cons_eq k0 v0 tl k v h0] at h
      rcases List.mem_cons.mp h with h | h
      · right; rw [h, h0]
      · left; exact List.mem_cons_of_mem _ h
    · rw [setKey_cons_ne k0 v0 tl k v h0] at h
      rcases List.mem_cons.mp h with h | h
      · left; rw [h]; exact List.mem_cons_self _ _
      · rcases ih h with h2 | h2
        · left; exact List.mem_cons_of_mem _ h2
        · right; exact h2

theorem keys_setKey_nodup (d : Dict) (k : String) (v : J)
    (h : (d.map Prod.fst).Nodup) : ((setKey d k v).map Prod.fst).Nodup := by
  induction d with
  | nil => simp [setKey]
  | cons hd tl ih =>
    obtain ⟨k0, v0⟩ := hd
    simp only [List.map_cons, List.nodup_cons] at h
    by_cases h0 : k0 = k
    · rw [setKey_cons_eq k0 v0 tl k v h0]
      simp only [List.map_cons, List.nodup_cons]
      exact h
    · rw [setKey_cons_ne k0 v0 tl k v h0]
      simp only [List.map_cons, List.nodup_cons]
      constructor
      · intro hcon
        rcases List.mem_map.mp hcon with ⟨p, hp, hpk⟩
        rcases mem_setKey tl k v p hp with h2 | h2
        · exact h.1 (List.mem_map.mpr ⟨p, h2, hpk⟩)
        · apply h0; rw [h2] at hpk; exact hpk.symm
      · exact ih h.2

/-- Shape of every binding produced by `_normalize_stage_timings`. -/
def stagesGoodEntry (p : String × J) : Prop :=
  pyStrip p.1 = p.1 ∧ p.1 ≠ "" ∧ ∃ n : Int, p.2 = J.int n ∧ 0 ≤ n

theorem stagesAux_good (fields : List (String × J)) :
    ∀ acc : Dict, (∀ p ∈ acc, stagesGoodEntry p) → (acc.map Prod.fst).Nodup →
      (∀ p ∈ stagesAux fields acc, stagesGoodEntry p) ∧
      ((stagesAux fields acc).map Prod.fst).Nodup := by
  induction fields with
  | nil => intro acc hg hn; exact ⟨hg, hn⟩
  | cons hd tl ih =>
    intro acc hg hn
    obtain ⟨k, raw⟩ := hd
    by_cases hk : pyStrip k = ""
    · simp only [stagesAux, if_pos hk]
      exact ih acc hg hn
    · simp only [stagesAux, if_neg hk]
      apply ih
      · intro p hp
        rcases mem_setKey acc (pyStrip k) _ p hp with h2 | h2
        · exact hg p h2
        · rw [h2]
          refine ⟨pyStrip_idem k, hk, max 0 (coerceInt (some raw) 0), rfl, ?_⟩
          exact le_max_left 0 _
      · exact keys_setKey_nodup acc (pyStrip k) _ hn

theorem stagesAux_rebuild (l : Dict) :
    ∀ acc : Dict, (∀ p ∈ l, stagesGoodEntry p) →
      ((acc.map Prod.fst ++ l.map Prod.fst).Nodup) →
      stagesAux l acc = acc ++ l := by
  induction l with
  | nil => intro acc _ _; simp [stagesAux]
  | cons hd tl ih =>
    intro acc hg hn
    obtain ⟨k, v⟩ := hd
    obtain ⟨hks, hkne, n, hv, hnn⟩ := hg (k, v) (List.mem_cons_self _ _)
    dsimp only at hks hkne hv
    subst hv
    simp only [stagesAux, hks, if_neg hkne]
    have hget : getKey acc k = none := by
      apply getKey_eq_none_of_not_mem
      intro hmem
      have := (List.nodup_append.mp hn).2.2
      exact this hmem (by simp)
    have hco : (max 0 (coerceInt (some (J.int n)) 0)) = n := by
      simp [coerceInt, pyInt]
      omega
    rw [hco, setKey_of_getKey_none acc k _ hget]
    rw [ih (acc ++ [(k, J.int n)])
      (fun p hp => hg p (List.mem_cons_of_mem _ hp))
      (by simpa using hn)]
    simp

theorem normalizeStageTimings_stable (v : Option J) :
    normalizeStageTimings (some (.obj (normalizeStageTimings v)))
      = normalizeStageTimings v := by
  have hgood := stagesAux_good
  cases v with
  | none => simp [normalizeStageTimings, stagesAux]
  | some j =>
    cases j with
    | obj fields =>
      show stagesAux (stagesAux fields []) [] = stagesAux fields []
      obtain ⟨hg, hn⟩ := stagesAux_good fields [] (by simp) (by simp)
      rw [stagesAux_rebuild _ [] hg (by simpa using hn)]
      simp
    | null => simp [normalizeStageTimings, stagesAux]
    | bool b => simp [normalizeStageTimings, stagesAux]
    | int n => simp [normalizeStageTimings, stagesAux]
    | float m e => simp [normalizeStageTimings, stagesAux]
    | str s => simp [normalizeStageTimings, stagesAux]
    | arr xs => simp [normalizeStageTimings, stagesAux]

end Demo

namespace Demo

theorem dictOrEmpty_obj (c : Dict) : dictOrEmpty (some (.obj c)) = some c := by
  unfold dictOrEmpty
  dsimp only
  by_cases h : truthy (J.obj c) = true
  · rw [if_pos h]
  · rw [if_neg h]
    simp only [truthy, Bool.not_eq_true, Bool.not_eq_false] at h
    have hc : c = [] := by simpa [List.isEmpty_iff] using h
    rw [hc]

theorem orDefault_of_truthy (j : J) (fb : J) (h : truthy j = true) :
    orDefault (some j) fb = j := by
  simp [orDefault, h]

theorem orDefault_of_not_truthy (j : J) (fb : J) (h : truthy j = false) :
    orDefault (some j) fb = fb := by
  simp [orDefault, h]

/-- The components of `_normalize_error_summary`, named for reuse. -/
def summaryOf (d : Dict) : Dict :=
  match getKey d "error_summary" with
  | some (.obj s) => s
  | _ => []

def failedActionsOf (d : Dict) : Int :=
  match getKey d "execution_summary" with
  | some (.obj es) => coerceInt (getKey es "error") 0
  | _ => 0

def scannedOf (d : Dict) : List String × Dict :=
  match getKey d "executions" with
  | some (.arr entries) => errorEntriesAux entries [] []
  | _ => ([], [])

def messageOf (d : Dict) : String :=
  pyStrip (pyStr (orDefault (getKey (summaryOf d) "message")
    (orDefault (getKey d "error") (.str ""))))

def hasErrorOf (d : Dict) : Bool :=
  truthyOpt (getKey (summaryOf d) "has_error") || messageOf d ≠ ""
    || failedActionsOf d > 0

theorem normalizeErrorSummary_eq (d : Dict) :
    normalizeErrorSummary d =
      [("has_error", .bool (hasErrorOf d)), ("message", .str (messageOf d)),
       ("failed_actions", .int (failedActionsOf d)),
       ("failed_action_ids", .arr ((scannedOf d).1.map J.str)),
       ("error_types", .obj (scannedOf d).2)] := rfl

/-- A record's existing `error_summary.message`, if truthy, does not strip
    to the empty string (the condition under which `_normalize_error_summary`
    is stable). -/
def summaryMsgOk (d : Dict) : Prop :=
  match getKey (summaryOf d) "message" with
  | some m => truthy m = true → pyStrip (pyStr m) ≠ ""
  | none => True

theorem boolOrAbsorb (a b c : Bool) : (((a || b) || c || b) || c) = ((a || b) || c) := by
  cases a <;> cases b <;> cases c <;> rfl

theorem messageOf_strip (d : Dict) : pyStrip (messageOf d) = messageOf d := by
  unfold messageOf
  exact pyStrip_idem _

theorem normalizeErrorSummary_stable (d1 r1 : Dict)
    (hsum : getKey r1 "error_summary" = some (.obj (normalizeErrorSummary d1)))
    (hes : getKey r1 "execution_summary" = getKey d1 "execution_summary")
    (hex : getKey r1 "executions" = getKey d1 "executions")
    (herr : getKey r1 "error" = getKey d1 "error")
    (hok : summaryMsgOk d1) :
    normalizeErrorSummary r1 = normalizeErrorSummary d1 := by
  have hS : summaryOf r1 = normalizeErrorSummary d1 := by
    unfold summaryOf; rw [hsum]
  have hFA : failedActionsOf r1 = failedActionsOf d1 := by
    unfold failedActionsOf; rw [hes]
  have hSC : scannedOf r1 = scannedOf d1 := by
    unfold scannedOf; rw [hex]
  have hMkey : getKey (summaryOf r1) "message" = some (.str (messageOf d1)) := by
    rw [hS, normalizeErrorSummary_eq]
    simp [getKey]
  have h1 : messageOf r1 = pyStrip (pyStr (orDefault
      (some (.str (messageOf d1)))
      (orDefault (getKey d1 "error") (.str "")))) := by
    rw [show messageOf r1 = pyStrip (pyStr (orDefault
        (getKey (summaryOf r1) "message")
        (orDefault (getKey r1 "error") (.str "")))) from rfl, hMkey, herr]
  have hM : messageOf r1 = messageOf d1 := by
    by_cases hm : messageOf d1 = ""
    · rw [h1, hm]
      rw [orDefault_of_not_truthy _ _ (by simp [truthy])]
      have hm2 : pyStrip (pyStr (orDefault (getKey (summaryOf d1) "message")
          (orDefault (getKey d1 "error") (.str "")))) = "" := hm
      cases hmsg : getKey (summaryOf d1) "message" with
      | none =>
        rw [hmsg] at hm2
        exact hm2
      | some m =>
        rw [hmsg] at hm2
        have hok2 : truthy m = true → pyStrip (pyStr m) ≠ "" := by
          have hok3 : summaryMsgOk d1 := hok
          unfold summaryMsgOk at hok3
          rw [hmsg] at hok3
          exact hok3
        by_cases ht : truthy m = true
        · rw [orDefault_of_truthy _ _ ht] at hm2
          exact absurd hm2 (hok2 ht)
        · rw [orDefault_of_not_truthy _ _
            (Bool.not_eq_true _ ▸ Bool.of_not_eq_true ht)] at hm2
          exact hm2
    · rw [h1, orDefault_of_truthy _ _ (by simpa [truthy] using hm)]
      exact messageOf_strip d1
  have hHkey : truthyOpt (getKey (summaryOf r1) "has_error")
      = hasErrorOf d1 := by
    rw [hS, normalizeErrorSummary_eq]
    simp [getKey, truthyOpt, truthy]
  have hH : hasErrorOf r1 = hasErrorOf d1 := by
    unfold hasErrorOf
    rw [hHkey, hM, hFA]
    unfold hasErrorOf
    exact boolOrAbsorb _ _ _
  rw [normalizeErrorSummary_eq r1, normalizeErrorSummary_eq d1, hH, hM, hFA,
    hSC]

end Demo

namespace Demo

theorem pyStr_str (s : String) : pyStr (.str s) = s := rfl

theorem pyStr_orDefault_str_ne_empty (v : Option J) (fb : String)
    (hfb : fb ≠ "") : pyStr (orDefault v (.str fb)) ≠ "" := by
  cases v with
  | none => simpa [orDefault, pyStr] using hfb
  | some j =>
    by_cases ht : truthy j = true
    · rw [orDefault_of_truthy _ _ ht]
      exact truthy_pyStr_ne_empty j ht
    · rw [orDefault_of_not_truthy _ _ (by simpa using ht)]
      simpa [pyStr] using hfb

theorem mem_data_append (c : Char) (a b : String) (h : c ∈ (a ++ b).data) :
    c ∈ a.data ∨ c ∈ b.data := by
  simpa using h

theorem pyStrip_prefix_mangle (pre : String) (now : String)
    (hpre : ∀ c ∈ pre.data, isPySpace c = false)
    (hnow : ∀ c ∈ now.data, isPySpace c = false) :
    pyStrip (pre ++ mangleNow now) = pre ++ mangleNow now := by
  apply pyStrip_of_no_space
  intro c hc
  rcases mem_data_append c pre (mangleNow now) hc with h | h
  · exact hpre c h
  · unfold mangleNow at h
    simp only [List.mem_filter] at h
    exact hnow c h.1

theorem renderIdOf_strip (now : String) (r : Dict)
    (hnow : ∀ c ∈ now.data, isPySpace c = false) :
    pyStrip (renderIdOf now none r) = renderIdOf now none r := by
  unfold renderIdOf
  dsimp only
  split
  · exact pyStrip_prefix_mangle "render_" now (by decide) hnow
  · exact pyStrip_idem _

theorem demoRunIdOf_strip (now : String) (r : Dict)
    (hnow : ∀ c ∈ now.data, isPySpace c = false) :
    pyStrip (demoRunIdOf now none r) = demoRunIdOf now none r := by
  unfold demoRunIdOf
  dsimp only
  split
  · exact pyStrip_prefix_mangle "demo_" now (by decide) hnow
  · exact pyStrip_idem _

theorem stagesAux_normalize (v : Option J) :
    stagesAux (normalizeStageTimings v) [] = normalizeStageTimings v :=
  normalizeStageTimings_stable v

/-- The shape `normalize_render_record` guarantees of its output, under
    which a second normalization is the identity. -/
structure RenderNormal (r : Dict) : Prop where
  rid : ∃ s, getKey r "render_id" = some (.str s) ∧ s ≠ "" ∧ pyStrip s = s
  created : ∃ s, getKey r "created_at" = some (.str s) ∧ s ≠ ""
  rmode : ∃ s, getKey r "mode" = some (.str s) ∧ s ≠ ""
  rstatus : ∃ s, getKey r "status" = some (.str s) ∧ s ≠ ""
  stages : ∃ d, getKey r "stage_timings_ms" = some (.obj d) ∧
    stagesAux d [] = d
  corr : ∃ c, getKey r "correlation" = some (.obj c)
  esum : getKey r "error_summary" = some (.obj (normalizeErrorSummary r))

theorem normalizeRenderRecord_of_normal (now2 : String) (r : Dict)
    (h : RenderNormal r) : normalizeRenderRecord now2 none r = some r := by
  obtain ⟨⟨rid, hrid, hridne, hrids⟩, ⟨ca, hca, hcane⟩, ⟨mo, hmo, hmone⟩,
    ⟨st, hst, hstne⟩, ⟨sd, hsd, hsds⟩, ⟨co, hco⟩, hes⟩ := h
  have hidv : renderIdOf now2 none r = rid := by
    unfold renderIdOf
    dsimp only
    rw [hrid, orDefault_of_truthy _ _ (by simpa [truthy] using hridne),
      pyStr_str, hrids, if_neg hridne, if_neg hridne]
  have hbase : normalizeRenderRecordBase now2 none r = r := by
    unfold normalizeRenderRecordBase
    dsimp only
    rw [hidv, setKey_same r "render_id" _ hrid]
    rw [hca, orDefault_of_truthy _ _ (by simpa [truthy] using hcane),
      pyStr_str, setKey_same r "created_at" _ hca]
    rw [hmo, orDefault_of_truthy _ _ (by simpa [truthy] using hmone),
      pyStr_str, setKey_same r "mode" _ hmo]
    rw [hst, orDefault_of_truthy _ _ (by simpa [truthy] using hstne),
      pyStr_str, setKey_same r "status" _ hst]
    rw [hsd]
    rw [show normalizeStageTimings (some (.obj sd)) = stagesAux sd [] from rfl,
      hsds, setKey_same r "stage_timings_ms" _ hsd]
  unfold normalizeRenderRecord
  try dsimp only
  rw [hbase]
  rw [hco, dictOrEmpty_obj, optionBind_some]
  try dsimp only
  rw [setKey_same r "correlation" _ hco]
  rw [setKey_same r "error_summary" _ hes]
  split
  · rw [hst, orDefault_of_truthy _ _ (by simpa [truthy] using hstne),
      pyStr_str, setKey_same r "status" _ hst]
    rfl
  · rfl

end Demo

namespace Demo

theorem normalizeRenderRecord_normal (now : String) (r0 r1 : Dict)
    (hnow1 : now ≠ "") (hnow2 : ∀ c ∈ now.data, isPySpace c = false)
    (hok : summaryMsgOk r0)
    (h : normalizeRenderRecord now none r0 = some r1) : RenderNormal r1 := by
  unfold normalizeRenderRecord at h
  try dsimp only at h
  cases h1 : dictOrEmpty (getKey (normalizeRenderRecordBase now none r0)
      "correlation") with
  | none => rw [h1, optionBind_none] at h; cases h
  | some co =>
    rw [h1, optionBind_some] at h
    try dsimp only at h
    generalize hB : normalizeRenderRecordBase now none r0 = B at h
    have hBrid : getKey B "render_id"
        = some (.str (renderIdOf now none r0)) := by
      rw [← hB]; unfold normalizeRenderRecordBase; simp [getKey_setKey]
    have hBca : getKey B "created_at" = some (.str (pyStr (orDefault
        (getKey r0 "created_at") (.str now)))) := by
      rw [← hB]; unfold normalizeRenderRecordBase; simp [getKey_setKey]
    have hBmo : getKey B "mode" = some (.str (pyStr (orDefault
        (getKey r0 "mode") (.str "tts_only")))) := by
      rw [← hB]; unfold normalizeRenderRecordBase; simp [getKey_setKey]
    have hBst : getKey B "status" = some (.str (pyStr (orDefault
        (getKey r0 "status") (.str "completed")))) := by
      rw [← hB]; unfold normalizeRenderRecordBase; simp [getKey_setKey]
    have hBsd : getKey B "stage_timings_ms" = some (.obj
        (normalizeStageTimings (getKey r0 "stage_timings_ms"))) := by
      rw [← hB]; unfold normalizeRenderRecordBase; simp [getKey_setKey]
    have hBes : getKey B "error_summary" = getKey r0 "error_summary" := by
      rw [← hB]; unfold normalizeRenderRecordBase; simp [getKey_setKey]
    have hBxs : getKey B "execution_summary"
        = getKey r0 "execution_summary" := by
      rw [← hB]; unfold normalizeRenderRecordBase; simp [getKey_setKey]
    have hBex : getKey B "executions" = getKey r0 "executions" := by
      rw [← hB]; unfold normalizeRenderRecordBase; simp [getKey_setKey]
    have hBerr : getKey B "error" = getKey r0 "error" := by
      rw [← hB]; unfold normalizeRenderRecordBase; simp [getKey_setKey]
    generalize hD1 : setKey B "correlation" (J.obj co) = D1 at h
    have hD1c : getKey D1 "correlation" = some (.obj co) := by
      rw [← hD1]; simp [getKey_setKey]
    have hD1get : ∀ k, k ≠ "correlation" → getKey D1 k = getKey B k := by
      intro k hk
      rw [← hD1, getKey_setKey, if_neg (fun he => hk he.symm)]
    generalize hES : normalizeErrorSummary D1 = ES at h
    generalize hD2 : setKey D1 "error_summary" (J.obj ES) = D2 at h
    have hD2e : getKey D2 "error_summary" = some (.obj ES) := by
      rw [← hD2]; simp [getKey_setKey]
    have hD2get : ∀ k, k ≠ "error_summary" → getKey D2 k = getKey D1 k := by
      intro k hk
      rw [← hD2, getKey_setKey, if_neg (fun he => hk he.symm)]
    have hD2st : getKey D2 "status" = some (.str (pyStr (orDefault
        (getKey r0 "status") (.str "completed")))) := by
      rw [hD2get _ (by decide), hD1get _ (by decide), hBst]
    have hSne : pyStr (orDefault (getKey r0 "status") (.str "completed"))
        ≠ "" := pyStr_orDefault_str_ne_empty _ _ (by decide)
    rw [hD2st, orDefault_of_truthy _ _ (by simpa [truthy] using hSne),
      pyStr_str, setKey_same D2 "status" _ hD2st, ite_self] at h
    cases h
    have hsum1 : summaryOf D1 = summaryOf r0 := by
      unfold summaryOf
      rw [hD1get _ (by decide), hBes]
    have hok1 : summaryMsgOk D1 := by
      unfold summaryMsgOk
      rw [hsum1]
      exact hok
    have hstab : normalizeErrorSummary r1 = ES := by
      rw [← hES]
      refine normalizeErrorSummary_stable D1 r1 ?_ ?_ ?_ ?_ hok1
      · rw [hES]; exact hD2e
      · exact hD2get "execution_summary" (by decide)
      · exact hD2get "executions" (by decide)
      · exact hD2get "error" (by decide)
    refine ⟨⟨renderIdOf now none r0, ?_, renderIdOf_ne_empty now none r0,
        renderIdOf_strip now r0 hnow2⟩,
      ⟨pyStr (orDefault (getKey r0 "created_at") (.str now)), ?_,
        pyStr_orDefault_str_ne_empty _ _ hnow1⟩,
      ⟨pyStr (orDefault (getKey r0 "mode") (.str "tts_only")), ?_,
        pyStr_orDefault_str_ne_empty _ _ (by decide)⟩,
      ⟨pyStr (orDefault (getKey r0 "status") (.str "completed")), hD2st,
        hSne⟩,
      ⟨normalizeStageTimings (getKey r0 "stage_timings_ms"), ?_,
        stagesAux_normalize _⟩,
      ⟨co, ?_⟩, ?_⟩
    · rw [hD2get _ (by decide), hD1get _ (by decide), hBrid]
    · rw [hD2get _ (by decide), hD1get _ (by decide), hBca]
    · rw [hD2get _ (by decide), hD1get _ (by decide), hBmo]
    · rw [hD2get _ (by decide), hD1get _ (by decide), hBsd]
    · rw [hD2get _ (by decide), hD1c]
    · rw [hstab]; exact hD2e

end Demo

namespace Demo

/-- The shape `normalize_demo_run_record` guarantees of its output. -/
structure DemoRunNormal (r : Dict) : Prop where
  rid : ∃ s, getKey r "run_id" = some (.str s) ∧ s ≠ "" ∧ pyStrip s = s
  pid : getKey r "project_id" = none ∨
    ∃ s, getKey r "project_id" = some (.str s) ∧ pyStrip s = s
  created : ∃ s, getKey r "created_at" = some (.str s) ∧ s ≠ ""
  dmode : ∃ s, getKey r "mode" = some (.str s) ∧ s ≠ ""
  emode : ∃ s, getKey r "execution_mode" = some (.str s) ∧ s ≠ ""
  atot : ∃ n, getKey r "actions_total" = some (.int n) ∧ max 0 n = n
  aexe : ∃ n, getKey r "actions_executed" = some (.int n) ∧ max 0 n = n
  stages : ∃ d, getKey r "stage_timings_ms" = some (.obj d) ∧
    stagesAux d [] = d
  drift : ∃ d, getKey r "drift_stats" = some (.obj d)
  xsum : ∃ d, getKey r "execution_summary" = some (.obj d)
  corr : ∃ c, getKey r "correlation" = some (.obj c)
  esum : getKey r "error_summary" = some (.obj (normalizeErrorSummary r))

theorem normalizeDemoRunRecord_of_normal (now2 : String) (r : Dict)
    (h : DemoRunNormal r) : normalizeDemoRunRecord now2 none r = some r := by
  obtain ⟨⟨rid, hrid, hridne, hrids⟩, hpid, ⟨ca, hca, hcane⟩,
    ⟨mo, hmo, hmone⟩, ⟨em, hem, hemne⟩, ⟨at_, hat, hatm⟩, ⟨ae, hae, haem⟩,
    ⟨sd, hsd, hsds⟩, ⟨dd, hdd⟩, ⟨xd, hxd⟩, ⟨co, hco⟩, hes⟩ := h
  have hidv : demoRunIdOf now2 none r = rid := by
    unfold demoRunIdOf
    dsimp only
    rw [hrid, orDefault_of_truthy _ _ (by simpa [truthy] using hridne),
      pyStr_str, hrids, if_neg hridne, if_neg hridne]
  have hpidstep : (if (getKey r "project_id").isSome = true
      then setKey r "project_id"
        (.str (pyStrip (pyStr (orDefault (getKey r "project_id") (.str "")))))
      else r) = r := by
    rcases hpid with hnone | ⟨s, hs, hss⟩
    · rw [hnone]
      simp
    · rw [hs, if_pos (by simp)]
      by_cases hse : s = ""
      · subst hse
        rw [orDefault_of_not_truthy _ _ (by simp [truthy])]
        exact setKey_same r _ _ hs
      · rw [orDefault_of_truthy _ _ (by simpa [truthy] using hse),
          pyStr_str, hss]
        exact setKey_same r _ _ hs
  have hbase : normalizeDemoRunRecordBase now2 none r = r := by
    unfold normalizeDemoRunRecordBase
    dsimp only
    rw [hidv, setKey_same r "run_id" _ hrid]
    rw [hpidstep]
    rw [hca, orDefault_of_truthy _ _ (by simpa [truthy] using hcane),
      pyStr_str, setKey_same r "created_at" _ hca]
    rw [hmo, orDefault_of_truthy _ _ (by simpa [truthy] using hmone),
      pyStr_str, setKey_same r "mode" _ hmo]
    rw [hem, orDefault_of_truthy _ _ (by simpa [truthy] using hemne),
      pyStr_str, setKey_same r "execution_mode" _ hem]
    rw [hat]
    rw [show coerceInt (some (.int at_)) 0 = at_ from rfl, hatm,
      setKey_same r "actions_total" _ hat]
    rw [hae]
    rw [show coerceInt (some (.int ae)) 0 = ae from rfl, haem,
      setKey_same r "actions_executed" _ hae]
    rw [hsd]
    rw [show normalizeStageTimings (some (.obj sd)) = stagesAux sd [] from rfl,
      hsds, setKey_same r "stage_timings_ms" _ hsd]
  unfold normalizeDemoRunRecord
  try dsimp only
  rw [hbase]
  rw [hdd, dictOrEmpty_obj, optionBind_some]
  try dsimp only
  rw [setKey_same r "drift_stats" _ hdd]
  rw [hxd, dictOrEmpty_obj, optionBind_some]
  try dsimp only
  rw [setKey_same r "execution_summary" _ hxd]
  rw [hco, dictOrEmpty_obj, optionBind_some]
  try dsimp only
  rw [setKey_same r "correlation" _ hco]
  rw [setKey_same r "error_summary" _ hes]
  rfl

end Demo

namespace Demo

theorem normalizeDemoRunRecord_normal (now : String) (r0 r1 : Dict)
    (hnow1 : now ≠ "") (hnow2 : ∀ c ∈ now.data, isPySpace c = false)
    (hok : summaryMsgOk r0)
    (h : normalizeDemoRunRecord now none r0 = some r1) : DemoRunNormal r1 := by
  unfold normalizeDemoRunRecord at h
  try dsimp only at h
  cases h1 : dictOrEmpty (getKey (normalizeDemoRunRecordBase now none r0)
      "drift_stats") with
  | none => rw [h1, optionBind_none] at h; cases h
  | some dd =>
    rw [h1, optionBind_some] at h
    try dsimp only at h
    generalize hB : normalizeDemoRunRecordBase now none r0 = B at h
    have hBrid : getKey B "run_id"
        = some (.str (demoRunIdOf now none r0)) := by
      rw [← hB]; unfold normalizeDemoRunRecordBase; try dsimp only
      split <;> simp [getKey_setKey]
    have hBpid : getKey B "project_id" = none ∨
        ∃ s, getKey B "project_id" = some (.str s) ∧ pyStrip s = s := by
      rw [← hB]; unfold normalizeDemoRunRecordBase; try dsimp only
      cases hp : getKey r0 "project_id" with
      | none =>
        left
        simp [getKey_setKey, hp]
      | some v =>
        right
        refine ⟨pyStrip (pyStr (orDefault (some v) (.str ""))), ?_,
          pyStrip_idem _⟩
        simp [getKey_setKey, hp]
    have hBca : getKey B "created_at" = some (.str (pyStr (orDefault
        (getKey r0 "created_at") (.str now)))) := by
      rw [← hB]; unfold normalizeDemoRunRecordBase; try dsimp only
      split <;> simp [getKey_setKey]
    have hBmo : getKey B "mode" = some (.str (pyStr (orDefault
        (getKey r0 "mode") (.str "demo_capture_unknown")))) := by
      rw [← hB]; unfold normalizeDemoRunRecordBase; try dsimp only
      split <;> simp [getKey_setKey]
    have hBem : getKey B "execution_mode" = some (.str (pyStr (orDefault
        (getKey r0 "execution_mode") (.str "playwright_optional")))) := by
      rw [← hB]; unfold normalizeDemoRunRecordBase; try dsimp only
      split <;> simp [getKey_setKey]
    have hBat : getKey B "actions_total" = some (.int (max 0 (coerceInt
        (getKey r0 "actions_total") 0))) := by
      rw [← hB]; unfold normalizeDemoRunRecordBase; try dsimp only
      split <;> simp [getKey_setKey]
    have hBae : getKey B "actions_executed" = some (.int (max 0 (coerceInt
        (getKey r0 "actions_executed") 0))) := by
      rw [← hB]; unfold normalizeDemoRunRecordBase; try dsimp only
      split <;> simp [getKey_setKey]
    have hBsd : getKey B "stage_timings_ms" = some (.obj
        (normalizeStageTimings (getKey r0 "stage_timings_ms"))) := by
      rw [← hB]; unfold normalizeDemoRunRecordBase; try dsimp only
      split <;> simp [getKey_setKey]
    have hBes : getKey B "error_summary" = getKey r0 "error_summary" := by
      rw [← hB]; unfold normalizeDemoRunRecordBase; try dsimp only
      split <;> simp [getKey_setKey]
    have hBxs : getKey B "execution_summary"
        = getKey r0 "execution_summary" := by
      rw [← hB]; unfold normalizeDemoRunRecordBase; try dsimp only
      split <;> simp [getKey_setKey]
    have hBex : getKey B "executions" = getKey r0 "executions" := by
      rw [← hB]; unfold normalizeDemoRunRecordBase; try dsimp only
      split <;> simp [getKey_setKey]
    have hBerr : getKey B "error" = getKey r0 "error" := by
      rw [← hB]; unfold normalizeDemoRunRecordBase; try dsimp only
      split <;> simp [getKey_setKey]
    generalize hD1 : setKey B "drift_stats" (J.obj dd) = D1 at h
    have hD1d : getKey D1 "drift_stats" = some (.obj dd) := by
      rw [← hD1]; simp [getKey_setKey]
    have hD1get : ∀ k, k ≠ "drift_stats" → getKey D1 k = getKey B k := by
      intro k hk
      rw [← hD1, getKey_setKey, if_neg (fun he => hk he.symm)]
    cases h2 : dictOrEmpty (getKey D1 "execution_summary") with
    | none => rw [h2, optionBind_none] at h; cases h
    | some xd =>
      rw [h2, optionBind_some] at h
      try dsimp only at h
      generalize hD2 : setKey D1 "execution_summary" (J.obj xd) = D2 at h
      have hD2x : getKey D2 "execution_summary" = some (.obj xd) := by
        rw [← hD2]; simp [getKey_setKey]
      have hD2get : ∀ k, k ≠ "execution_summary" →
          getKey D2 k = getKey D1 k := by
        intro k hk
        rw [← hD2, getKey_setKey, if_neg (fun he => hk he.symm)]
      cases h3 : dictOrEmpty (getKey D2 "correlation") with
      | none => rw [h3, optionBind_none] at h; cases h
      | some co =>
        rw [h3, optionBind_some] at h
        try dsimp only at h
        generalize hD3 : setKey D2 "correlation" (J.obj co) = D3 at h
        have hD3c : getKey D3 "correlation" = some (.obj co) := by
          rw [← hD3]; simp [getKey_setKey]
        have hD3get : ∀ k, k ≠ "correlation" → getKey D3 k = getKey D2 k := by
          intro k hk
          rw [← hD3, getKey_setKey, if_neg (fun he => hk he.symm)]
        generalize hES : normalizeErrorSummary D3 = ES at h
        generalize hD4 : setKey D3 "error_summary" (J.obj ES) = D4 at h
        have hD4e : getKey D4 "error_summary" = some (.obj ES) := by
          rw [← hD4]; simp [getKey_setKey]
        have hD4get : ∀ k, k ≠ "error_summary" →
            getKey D4 k = getKey D3 k := by
          intro k hk
          rw [← hD4, getKey_setKey, if_neg (fun he => hk he.symm)]
        cases h
        have hsum1 : summaryOf D3 = summaryOf r0 := by
          unfold summaryOf
          rw [hD3get _ (by decide), hD2get _ (by decide),
            hD1get _ (by decide), hBes]
        have hok1 : summaryMsgOk D3 := by
          unfold summaryMsgOk
          rw [hsum1]
          exact hok
        have hstab : normalizeErrorSummary r1 = ES := by
          rw [← hES]
          refine normalizeErrorSummary_stable D3 r1 ?_ ?_ ?_ ?_ hok1
          · rw [hES]; exact hD4e
          · rw [hD4get "execution_summary" (by decide),
              hD3get "execution_summary" (by decide)]
          · rw [hD4get "executions" (by decide),
              hD3get "executions" (by decide),
              hD2get "executions" (by decide),
              hD1get "executions" (by decide), hBex,
              ← hBex, ← hD1get "executions" (by decide),
              ← hD2get "executions" (by decide),
              ← hD3get "executions" (by decide)]
          · rw [hD4get "error" (by decide), hD3get "error" (by decide),
              hD2get "error" (by decide), hD1get "error" (by decide), hBerr,
              ← hBerr, ← hD1get "error" (by decide),
              ← hD2get "error" (by decide), ← hD3get "error" (by decide)]
        refine ⟨⟨demoRunIdOf now none r0, ?_, demoRunIdOf_ne_empty now none r0,
            demoRunIdOf_strip now r0 hnow2⟩, ?_,
          ⟨pyStr (orDefault (getKey r0 "created_at") (.str now)), ?_,
            pyStr_orDefault_str_ne_empty _ _ hnow1⟩,
          ⟨pyStr (orDefault (getKey r0 "mode") (.str "demo_capture_unknown")),
            ?_, pyStr_orDefault_str_ne_empty _ _ (by decide)⟩,
          ⟨pyStr (orDefault (getKey r0 "execution_mode")
              (.str "playwright_optional")), ?_,
            pyStr_orDefault_str_ne_empty _ _ (by decide)⟩,
          ⟨max 0 (coerceInt (getKey r0 "actions_total") 0), ?_, by omega⟩,
          ⟨max 0 (coerceInt (getKey r0 "actions_executed") 0), ?_, by omega⟩,
          ⟨normalizeStageTimings (getKey r0 "stage_timings_ms"), ?_,
            stagesAux_normalize _⟩,
          ⟨dd, ?_⟩, ⟨xd, ?_⟩, ⟨co, ?_⟩, ?_⟩
        · rw [hD4get _ (by decide), hD3get _ (by decide),
            hD2get _ (by decide), hD1get _ (by decide), hBrid]
        · rcases hBpid with hn | ⟨s, hs, hss⟩
          · left
            rw [hD4get _ (by decide), hD3get _ (by decide),
              hD2get _ (by decide), hD1get _ (by decide), hn]
          · right
            refine ⟨s, ?_, hss⟩
            rw [hD4get _ (by decide), hD3get _ (by decide),
              hD2get _ (by decide), hD1get _ (by decide), hs]
        · rw [hD4get _ (by decide), hD3get _ (by decide),
            hD2get _ (by decide), hD1get _ (by decide), hBca]
        · rw [hD4get _ (by decide), hD3get _ (by decide),
            hD2get _ (by decide), hD1get _ (by decide), hBmo]
        · rw [hD4get _ (by decide), hD3get _ (by decide),
            hD2get _ (by decide), hD1get _ (by decide), hBem]
        · rw [hD4get _ (by decide), hD3get _ (by decide),
            hD2get _ (by decide), hD1get _ (by decide), hBat]
        · rw [hD4get _ (by decide), hD3get _ (by decide),
            hD2get _ (by decide), hD1get _ (by decide), hBae]
        · rw [hD4get _ (by decide), hD3get _ (by decide),
            hD2get _ (by decide), hD1get _ (by decide), hBsd]
        · rw [hD4get _ (by decide), hD3get _ (by decide),
            hD2get _ (by decide), hD1d]
        · rw [hD4get _ (by decide), hD3get _ (by decide), hD2x]
        · rw [hD4get _ (by decide), hD3c]
        · rw [hstab]; exact hD4e

end Demo

namespace Demo

/-! ### `ensure_project_defaults` (`backend/app/storage.py`) -/

def SCHEMA_VERSION : String := "2.0.0"
def TIMELINE_VERSION : String := "1.0"

mutual
/-- Structural equality on `J` (Python `==` as used here: the compared
    values are produced by the same code path, so representation equality
    is the right notion; floats compare by their `(m, e)` representation). -/
def jEq : J → J → Bool
  | .null, .null => true
  | .bool a, .bool b => a == b
  | .int a, .int b => a == b
  | .float a e1, .float b e2 => a == b && e1 == e2
  | .str a, .str b => a == b
  | .arr a, .arr b => jEqList a b
  | .obj a, .obj b => jEqFields a b
  | _, _ => false

def jEqList : List J → List J → Bool
  | [], [] => true
  | a :: as_, b :: bs => jEq a b && jEqList as_ bs
  | _, _ => false

def jEqFields : List (String × J) → List (String × J) → Bool
  | [], [] => true
  | (k1, v1) :: as_, (k2, v2) :: bs => k1 == k2 && jEq v1 v2 && jEqFields as_ bs
  | _, _ => false
end

def defaultSegmentationSettings : Dict :=
  [("analysis_fps", .int 10), ("min_seg_ms", .int 2000),
   ("max_seg_ms", .int 8000), ("merge_rule", .str "merge_short_segments"),
   ("diff_method", .str "frame_diff_energy"),
   ("ocr_delta_enabled", .bool false)]

def defaultModelsSettings : Dict :=
  [("vision", .obj [("provider", .str "zai_openai_compat"),
     ("base_url", .str "https://api.z.ai/api/paas/v4/"),
     ("model", .str "glm-4.6v"), ("temperature", .float 2 1),
     ("thinking", .str "enabled")]),
   ("rewrite", .obj [("provider", .str "zai_openai_compat"),
     ("base_url", .str "https://api.z.ai/api/paas/v4/"),
     ("model", .str "glm-5"), ("temperature", .float 3 1)])]

def defaultNarrationSettings : Dict :=
  [("wps", .float 225 2), ("min_words", .int 4), ("max_words", .int 28),
   ("style", .str "present tense, action+result, no filler")]

def defaultTtsSettings : Dict :=
  [("provider", .str "chatterbox"), ("endpoint", .str ""),
   ("voice_mode", .str "predefined_voice"),
   ("predefined_voice_id", .str "alloy"),
   ("default_params", .obj [("speed_factor", .float 1 0),
     ("temperature", .float 8 1), ("exaggeration", .float 5 1),
     ("cfg_weight", .float 5 1), ("seed", .int 123),
     ("language_id", .str "en"), ("output_format", .str "wav")])]

def defaultHolisticSettings : Dict :=
  [("enabled", .bool false), ("keyframe_density", .float 1 0),
   ("match_confidence_threshold", .float 5 1)]

def defaultDemoCaptureExecutionMode : String := "playwright_optional"

def defaultTimeline (narrationEvents : List J) : Dict :=
  [("timeline_version", .str TIMELINE_VERSION),
   ("narration_events", .arr narrationEvents), ("action_events", .arr [])]

def defaultExports : Dict :=
  [("artifacts", .obj []), ("ffmpeg", .obj [("commands", .arr [])])]

/-- `_default_profile_from_tts_settings` (the `dict(... or {})` can raise,
    hence `Option`). -/
def defaultProfileFromTtsSettings (tts : Dict) : Option Dict := do
  let params ← dictOrEmpty (getKey tts "default_params")
  let profile : Dict :=
    [("profile_id", .str "default"), ("display_name", .str "Default"),
     ("provider", .str (pyStr (orDefault (getKey tts "provider")
       (.str "chatterbox")))),
     ("voice_mode", .str (pyStr (orDefault (getKey tts "voice_mode")
       (.str "predefined_voice")))),
     ("params", .obj params)]
  let profile := match getKey tts "endpoint" with
    | some (.str e) => setKey profile "endpoint" (.str e)
    | _ => profile
  let profile := match getKey tts "reference_audio_path" with
    | some (.str ra) =>
      if ra ≠ "" then setKey profile "audio_prompt_path" (.str ra)
      else profile
    | _ => profile
  let profile := match getKey tts "predefined_voice_id" with
    | some (.str pv) =>
      if pv ≠ "" then setKey profile "predefined_voice_id" (.str pv)
      else profile
    | _ => profile
  pure profile

/-- Sort key of `_segments_to_narration_events`:
    `(item.get("start_ms", 0), item.get("end_ms", 0), item.get("id", ""))`. -/
def segSortKey (e : J) : Int × Int × String :=
  match e with
  | .obj d =>
    (match getKey d "start_ms" with | some (.int n) => n | _ => 0,
     match getKey d "end_ms" with | some (.int n) => n | _ => 0,
     match getKey d "id" with | some (.str s) => s | _ => "")
  | _ => (0, 0, "")

def segSortLE (a b : J) : Bool :=
  let ka := segSortKey a
  let kb := segSortKey b
  (ka.1 < kb.1) || (ka.1 = kb.1 && ((ka.2.1 < kb.2.1) ||
    (ka.2.1 = kb.2.1 && ka.2.2 ≤ kb.2.2)))

/-- The event-building loop of `_segments_to_narration_events`
    (`seen` is the `seen_ids` counter dict). -/
def segEventsLoop : List J → Nat → List (String × Nat) → List J
  | [], _, _ => []
  | seg :: rest, idx, seen =>
    match seg with
    | .obj s =>
      let rawId := match getKey s "id" with | some v => v | none => .int idx
      let baseId := "n" ++ pyStr rawId
      let assigned :=
        match lookupCount seen baseId with
        | some c => (baseId ++ "_" ++ natDigits (c + 1),
            setCount seen baseId (c + 1))
        | none => (baseId, (baseId, 0) :: seen)
      let startMs := coerceInt (getKey s "start_ms") 0
      let endMs0 := coerceInt (getKey s "end_ms") startMs
      let endMs := if endMs0 < startMs then startMs else endMs0
      let text :=
        match getKey s "narration" with
        | some (.obj n) => pyStr (orDefault (getKey n "selected_text")
            (.str ""))
        | _ => ""
      .obj [("id", .str assigned.1), ("start_ms", .int startMs),
        ("end_ms", .int endMs), ("text", .str text),
        ("voice_profile_id", .str "default"),
        ("meta", .obj [("source", .str "legacy_segment"),
          ("source_segment_id", rawId)])]
        :: segEventsLoop rest (idx + 1) assigned.2
    | _ => segEventsLoop rest (idx + 1) seen

/-- `_segments_to_narration_events`. -/
def segmentsToNarrationEvents (segments : Option J) : List J :=
  match segments with
  | some (.arr segs) => pySortStable segSortLE (segEventsLoop segs 0 [])
  | _ => []

/-- `[normalize(item) for item in items if isinstance(item, dict)]`. -/
def normalizeItems (f : Dict → Option Dict) : List J → Option (List J)
  | [] => some []
  | item :: rest =>
    match item with
    | .obj d => do
      let r ← f d
      let rs ← normalizeItems f rest
      pure (.obj r :: rs)
    | _ => normalizeItems f rest

def VALID_EXECUTION_MODES : List String :=
  ["playwright_optional", "playwright_required"]

def stepSchema (p : Dict) : Dict :=
  let csv := pyStr (orDefault (getKey p "schema_version") (.str ""))
  if csv = "" || csv = "1.0.0" || csv = "1.1.0" || csv = "1.2.0" then
    setKey p "schema_version" (.str SCHEMA_VERSION)
  else p

/-- The mutations applied to the `settings` sub-dict, one definition per
    source block, composed in source order by `settingsSubSteps`. -/
def subSegmentation (s : Dict) : Dict :=
  match getKey s "segmentation" with
  | some (.obj _) => s
  | _ => setKey s "segmentation" (.obj defaultSegmentationSettings)

def subModels (s : Dict) : Dict :=
  match getKey s "models" with
  | some (.obj _) => s
  | _ => setKey s "models" (.obj defaultModelsSettings)

def subNarration (s : Dict) : Dict :=
  match getKey s "narration" with
  | some (.obj _) => s
  | _ => setKey s "narration" (.obj defaultNarrationSettings)

def subTts (s : Dict) : Dict :=
  match getKey s "tts" with
  | some (.obj _) => s
  | _ => setKey s "tts" (.obj defaultTtsSettings)

def subDemoContext (s : Dict) : Dict :=
  match getKey s "demo_context" with
  | some (.str _) => s
  | _ => setKey s "demo_context" (.str "")

def subHolistic (s : Dict) : Dict :=
  match getKey s "holistic" with
  | some (.obj h) =>
    let h := if (getKey h "keyframe_density").isSome then h
      else setKey h "keyframe_density" (.float 1 0)
    let h := if (getKey h "match_confidence_threshold").isSome then h
      else setKey h "match_confidence_threshold" (.float 5 1)
    setKey s "holistic" (.obj h)
  | _ => setKey s "holistic" (.obj defaultHolisticSettings)

def subNarrationMode (s : Dict) : Dict :=
  if (getKey s "narration_mode").isSome then s
  else setKey s "narration_mode" (.str "tts_only")

def subExecutionMode (s : Dict) : Dict :=
  let mode := pyLower (pyStrip (pyStr (orDefault
    (getKey s "demo_capture_execution_mode") (.str ""))))
  if !(mode = "playwright_optional" || mode = "playwright_required") then
    setKey s "demo_capture_execution_mode"
      (.str defaultDemoCaptureExecutionMode)
  else
    match getKey s "demo_capture_execution_mode" with
    | some (.str v) =>
      if v = mode then s
      else setKey s "demo_capture_execution_mode" (.str mode)
    | _ => setKey s "demo_capture_execution_mode" (.str mode)

def subFallback (s : Dict) : Dict :=
  if (getKey s "holistic_fallback_to_segment").isSome then s
  else setKey s "holistic_fallback_to_segment" (.bool true)

def settingsSubSteps (s : Dict) : Dict :=
  subFallback (subExecutionMode (subNarrationMode (subHolistic
    (subDemoContext (subTts (subNarration (subModels
      (subSegmentation s))))))))

def stepSettings (p : Dict) : Dict :=
  let s0 := match getKey p "settings" with
    | some (.obj s) => s
    | _ => []
  setKey p "settings" (.obj (settingsSubSteps s0))

def stepSegments (p : Dict) : Dict :=
  match getKey p "segments" with
  | some (.arr _) => p
  | _ => setKey p "segments" (.arr [])

def stepExports (p : Dict) : Dict :=
  let e0 := match getKey p "exports" with
    | some (.obj e) => e
    | _ => defaultExports
  let e := match getKey e0 "artifacts" with
    | some (.obj _) => e0
    | _ => setKey e0 "artifacts" (.obj [])
  let e := match getKey e "ffmpeg" with
    | some (.obj _) => e
    | _ => setKey e "ffmpeg" (.obj [("commands", .arr [])])
  let f := match getKey e "ffmpeg" with
    | some (.obj f) => f
    | _ => []
  let e := match getKey f "commands" with
    | some (.arr _) => e
    | _ => setKey e "ffmpeg" (.obj (setKey f "commands" (.arr [])))
  setKey p "exports" (.obj e)

def stepPlanning (p : Dict) : Dict :=
  let pl0 := match getKey p "planning" with
    | some (.obj pl) => pl
    | _ => []
  let pl := match getKey pl0 "narration_global" with
    | some (.obj ng) =>
      if (getKey ng "status").isSome then pl0
      else setKey pl0 "narration_global"
        (.obj (setKey ng "status" (.str "not_started")))
    | _ => setKey pl0 "narration_global"
        (.obj [("status", .str "not_started")])
  setKey p "planning" (.obj pl)

def stepHolisticState (p : Dict) : Dict :=
  match getKey p "holistic" with
  | some (.obj _) => p
  | _ => setKey p "holistic" (.obj [("status", .str "not_started")])

def stepTimeline (p : Dict) : Dict :=
  let legacy := segmentsToNarrationEvents (getKey p "segments")
  match getKey p "timeline" with
  | some (.obj t) =>
    let t := match getKey t "timeline_version" with
      | some (.str v) =>
        if v = TIMELINE_VERSION then t
        else setKey t "timeline_version" (.str TIMELINE_VERSION)
      | _ => setKey t "timeline_version" (.str TIMELINE_VERSION)
    let t := match getKey t "narration_events" with
      | some (.arr _) => t
      | _ => setKey t "narration_events" (.arr [])
    let t := match getKey t "action_events" with
      | some (.arr _) => t
      | _ => setKey t "action_events" (.arr [])
    let t :=
      if !truthyOpt (getKey t "narration_events") && !legacy.isEmpty then
        setKey t "narration_events" (.arr legacy)
      else t
    setKey p "timeline" (.obj t)
  | _ => setKey p "timeline" (.obj (defaultTimeline legacy))

def stepTtsProfiles (p : Dict) : Option Dict := do
  let ttsSettings := match getKey p "settings" with
    | some (.obj s) =>
      match getKey s "tts" with
      | some (.obj t) => t
      | _ => []
    | _ => []
  let tp0 := match getKey p "tts_profiles" with
    | some (.obj tp) => tp
    | _ => []
  let tp ←
    match getKey tp0 "default" with
    | some (.obj dp) =>
      let dp := if truthyOpt (getKey dp "profile_id") then dp
        else setKey dp "profile_id" (.str "default")
      match getKey dp "params" with
      | some (.obj _) => pure (setKey tp0 "default" (.obj dp))
      | _ => do
        let params ← dictOrEmpty (getKey ttsSettings "default_params")
        pure (setKey tp0 "default" (.obj (setKey dp "params" (.obj params))))
    | _ => do
      let prof ← defaultProfileFromTtsSettings ttsSettings
      pure (setKey tp0 "default" (.obj prof))
  pure (setKey p "tts_profiles" (.obj tp))

def stepRenders (now : String) (p : Dict) : Option Dict := do
  match getKey p "renders" with
  | some (.obj r) =>
    let r1 :=
      if (getKey r "last_render_id").isSome then r
      else setKey r "last_render_id" .null
    match getKey r1 "history" with
    | some (.arr history) => do
      let limit := historyLimit MAX_RENDER_HISTORY MAX_RENDER_HISTORY
      let normalized ← normalizeItems (normalizeRenderRecord now none) history
      let trimmed := trimHistory normalized limit
      let r2 := if jEqList history trimmed then r1
        else setKey r1 "history" (.arr trimmed)
      let r3 :=
        match trimmed.getLast? with
        | some (.obj lastRec) =>
          let latest := pyStr (orDefault (getKey lastRec "render_id")
            (.str ""))
          if latest ≠ "" &&
              !(match getKey r2 "last_render_id" with
                | some (.str v) => v = latest
                | _ => false) then
            setKey r2 "last_render_id" (.str latest)
          else r2
        | _ => r2
      pure (setKey p "renders" (.obj r3))
    | _ => pure (setKey p "renders" (.obj (setKey r1 "history" (.arr []))))
  | _ => pure (setKey p "renders" (.obj defaultRenders))

def stepDemo (now : String) (p : Dict) : Option Dict := do
  match getKey p "demo" with
  | some (.obj d) =>
    let d1 :=
      if (getKey d "last_run_id").isSome then d
      else setKey d "last_run_id" .null
    match getKey d1 "runs" with
    | some (.arr runs) => do
      let limit := historyLimit MAX_DEMO_RUN_HISTORY MAX_DEMO_RUN_HISTORY
      let normalized ← normalizeItems (normalizeDemoRunRecord now none) runs
      let trimmed := trimHistory normalized limit
      let d2 := if jEqList runs trimmed then d1
        else setKey d1 "runs" (.arr trimmed)
      let d3 :=
        match trimmed.getLast? with
        | some (.obj lastRec) =>
          let latest := pyStr (orDefault (getKey lastRec "run_id") (.str ""))
          if latest ≠ "" &&
              !(match getKey d2 "last_run_id" with
                | some (.str v) => v = latest
                | _ => false) then
            setKey d2 "last_run_id" (.str latest)
          else d2
        | _ => d2
      pure (setKey p "demo" (.obj d3))
    | _ => pure (setKey p "demo" (.obj (setKey d1 "runs" (.arr []))))
  | _ => pure (setKey p "demo" (.obj defaultDemoState))

/-- `ensure_project_defaults` as a document transformation (`now` stands for
    `utc_now_iso()`; the `changed` flag and the `write_demo_context_md`
    filesystem side effect are outside the model; `none` models an
    exception from one of the `dict(x or {})` coercions). -/
def ensureProjectDefaults (now : String) (p : Dict) : Option Dict := do
  let p := stepSchema p
  let p := stepSettings p
  let p := stepSegments p
  let p := stepExports p
  let p := stepPlanning p
  let p := stepHolisticState p
  let p := stepTimeline p
  let p ← stepTtsProfiles p
  let p ← stepRenders now p
  stepDemo now p

end Demo

namespace Demo

def c7now : String := "20260101T000000"

/-- A project whose single render-history record has a whitespace-only
    (truthy) `error_summary.message` and a non-empty `error` field. -/
def c7Project : Dict :=
  [("renders", .obj [("last_render_id", .null),
    ("history", .arr [.obj [("error_summary", .obj [("message", .str " ")]),
      ("error", .str "boom")]])])]

def c7p1 : Dict := (ensureProjectDefaults c7now c7Project).getD []
def c7p2 : Dict := (ensureProjectDefaults c7now c7p1).getD []

/-- The `error_summary.message` of the first render-history record. -/
def c7HistMsg (p : Dict) : String :=
  match getKey p "renders" with
  | some (.obj r) =>
    match getKey r "history" with
    | some (.arr (first :: _)) =>
      match first with
      | .obj rec0 =>
        match getKey rec0 "error_summary" with
        | some (.obj es) =>
          match getKey es "message" with
          | some (.str s) => s
          | _ => "ABSENT"
        | _ => "ABSENT"
      | _ => "ABSENT"
    | _ => "ABSENT"
  | _ => "ABSENT"

/-- Counterexample for **C7**: `ensure_project_defaults` is not idempotent.
    On the first pass the whitespace-only `error_summary.message` strips to
    `""`; on the second pass the empty message falls back to the record's
    `error` field (`"boom"`), so the document changes again. -/
theorem ensure_project_defaults_not_idempotent :
    ensureProjectDefaults c7now c7Project = some c7p1 ∧
    ensureProjectDefaults c7now c7p1 = some c7p2 ∧
    c7HistMsg c7p1 = "" ∧ c7HistMsg c7p2 = "boom" ∧ c7p1 ≠ c7p2 := by
  refine ⟨rfl, rfl, rfl, rfl, ?_⟩
  intro hcon
  have h := congrArg c7HistMsg hcon
  have h1 : c7HistMsg c7p1 = "" := rfl
  have h2 : c7HistMsg c7p2 = "boom" := rfl
  rw [h1, h2] at h
  exact absurd h (by decide)

end Demo

namespace Demo

mutual
theorem jEq_sound : ∀ a b : J, jEq a b = true → a = b
  | .null, b, h => by
    cases b
    case null => rfl
    all_goals exact Bool.noConfusion h
  | .bool a, b, h => by
    cases b
    case bool a2 =>
      have h2 : a = a2 := by simpa [jEq] using h
      rw [h2]
    all_goals exact Bool.noConfusion h
  | .int n, b, h => by
    cases b
    case int n2 =>
      have h2 : n = n2 := by simpa [jEq] using h
      rw [h2]
    all_goals exact Bool.noConfusion h
  | .float m e, b, h => by
    cases b
    case float m2 e2 =>
      have h2 : m = m2 ∧ e = e2 := by simpa [jEq] using h
      rw [h2.1, h2.2]
    all_goals exact Bool.noConfusion h
  | .str s, b, h => by
    cases b
    case str s2 =>
      have h2 : s = s2 := by simpa [jEq] using h
      rw [h2]
    all_goals exact Bool.noConfusion h
  | .arr xs, b, h =>
    match b, h with
    | .arr ys, h =>
      congrArg J.arr (jEqList_sound xs ys (by simpa [jEq] using h))
    | .null, h | .bool _, h | .int _, h | .float _ _, h | .str _, h
    | .obj _, h => Bool.noConfusion h
  | .obj fs, b, h =>
    match b, h with
    | .obj gs, h =>
      congrArg J.obj (jEqFields_sound fs gs (by simpa [jEq] using h))
    | .null, h | .bool _, h | .int _, h | .float _ _, h | .str _, h
    | .arr _, h => Bool.noConfusion h

theorem jEqList_sound : ∀ a b : List J, jEqList a b = true → a = b
  | [], [], _ => rfl
  | [], _ :: _, h => Bool.noConfusion h
  | _ :: _, [], h => Bool.noConfusion h
  | x :: xs, y :: ys, h => by
    have h2 : jEq x y = true ∧ jEqList xs ys = true := by
      simpa [jEqList, Bool.and_eq_true] using h
    rw [jEq_sound x y h2.1, jEqList_sound xs ys h2.2]

theorem jEqFields_sound : ∀ a b : List (String × J), jEqFields a b = true → a = b
  | [], [], _ => rfl
  | [], _ :: _, h => Bool.noConfusion h
  | _ :: _, [], h => Bool.noConfusion h
  | (k1, v1) :: xs, (k2, v2) :: ys, h => by
    have h2 : (k1 == k2) = true ∧ jEq v1 v2 = true ∧ jEqFields xs ys = true := by
      simpa [jEqFields, Bool.and_eq_true, and_assoc] using h
    have hk : k1 = k2 := by simpa using h2.1
    rw [hk, jEq_sound v1 v2 h2.2.1, jEqFields_sound xs ys h2.2.2]
end

theorem trimHistory_of_le (l : List J) (n : Int) (h : (l.length : Int) ≤ n) :
    trimHistory l n = l := by
  unfold trimHistory
  rw [if_pos h]

theorem mem_trimHistory (l : List J) (n : Int) (x : J)
    (h : x ∈ trimHistory l n) : x ∈ l := by
  unfold trimHistory at h
  split at h
  · exact h
  · exact List.mem_of_mem_drop h

end Demo

namespace Demo

/-- Every element is a dict satisfying `P`. -/
def AllObjWith (P : Dict → Prop) (l : List J) : Prop :=
  ∀ x ∈ l, ∃ d, x = J.obj d ∧ P d

theorem normalizeItems_cons_obj (f : Dict → Option Dict) (d : Dict)
    (rest : List J) :
    normalizeItems f (J.obj d :: rest) =
      (f d).bind (fun r => (normalizeItems f rest).bind
        (fun rs => some (J.obj r :: rs))) := rfl

theorem normalizeItems_of_id (f : Dict → Option Dict) (P : Dict → Prop)
    (hf : ∀ d, P d → f d = some d) :
    ∀ l, AllObjWith P l → normalizeItems f l = some l := by
  intro l
  induction l with
  | nil => intro _; rfl
  | cons x rest ih =>
    intro h
    obtain ⟨d, rfl, hPd⟩ := h x (List.mem_cons_self _ _)
    rw [normalizeItems_cons_obj, hf d hPd]
    rw [show ∀ o : Option (List J), (some d).bind
      (fun r => o.bind (fun rs => some (J.obj r :: rs)))
      = o.bind (fun rs => some (J.obj d :: rs)) from fun o => rfl]
    rw [ih (fun y hy => h y (List.mem_cons_of_mem _ hy))]
    rfl

theorem normalizeItems_all (f : Dict → Option Dict) (P : Dict → Prop)
    (Q : Dict → Prop) (hf : ∀ d r, Q d → f d = some r → P r) :
    ∀ l l2, (∀ d : Dict, J.obj d ∈ l → Q d) →
      normalizeItems f l = some l2 → AllObjWith P l2 := by
  intro l
  induction l with
  | nil =>
    intro l2 _ h
    cases h
    intro x hx
    cases hx
  | cons x rest ih =>
    intro l2 hq h
    match x, h with
    | J.obj d, h =>
      rw [normalizeItems_cons_obj] at h
      cases hd : f d with
      | none => rw [hd] at h; cases h
      | some r =>
        rw [hd] at h
        cases hrest : normalizeItems f rest with
        | none => rw [hrest] at h; cases h
        | some rs =>
          rw [hrest] at h
          cases h
          intro y hy
          rcases List.mem_cons.mp hy with hy | hy
          · exact ⟨r, hy, hf d r (hq d (List.mem_cons_self _ _)) hd⟩
          · exact ih rs (fun d2 hd2 => hq d2 (List.mem_cons_of_mem _ hd2))
              hrest y hy
    | J.null, h | J.bool _, h | J.int _, h | J.float _ _, h | J.str _, h
    | J.arr _, h =>
      exact ih l2 (fun d2 hd2 => hq d2 (List.mem_cons_of_mem _ hd2)) h

end Demo

namespace Demo

theorem option_do_inv {α β : Type} (m : Option α) (g : α → Option β) (b : β)
    (h : (m >>= g) = some b) : ∃ a, m = some a ∧ g a = some b := by
  cases m with
  | none => cases h
  | some a => exact ⟨a, rfl, h⟩

theorem getKey_stepSchema (p : Dict) (k : String)
    (hk : k ≠ "schema_version") : getKey (stepSchema p) k = getKey p k := by
  unfold stepSchema
  dsimp only
  split
  · rw [getKey_setKey, if_neg (fun he => hk he.symm)]
  · rfl

theorem getKey_stepSettings (p : Dict) (k : String) (hk : k ≠ "settings") :
    getKey (stepSettings p) k = getKey p k := by
  unfold stepSettings
  dsimp only
  rw [getKey_setKey, if_neg (fun he => hk he.symm)]

theorem getKey_stepSegments (p : Dict) (k : String) (hk : k ≠ "segments") :
    getKey (stepSegments p) k = getKey p k := by
  unfold stepSegments
  split
  · rfl
  · rw [getKey_setKey, if_neg (fun he => hk he.symm)]

theorem getKey_stepExports (p : Dict) (k : String) (hk : k ≠ "exports") :
    getKey (stepExports p) k = getKey p k := by
  unfold stepExports
  dsimp only
  rw [getKey_setKey, if_neg (fun he => hk he.symm)]

theorem getKey_stepPlanning (p : Dict) (k : String) (hk : k ≠ "planning") :
    getKey (stepPlanning p) k = getKey p k := by
  unfold stepPlanning
  dsimp only
  rw [getKey_setKey, if_neg (fun he => hk he.symm)]

theorem getKey_stepHolisticState (p : Dict) (k : String)
    (hk : k ≠ "holistic") : getKey (stepHolisticState p) k = getKey p k := by
  unfold stepHolisticState
  split
  · rfl
  · rw [getKey_setKey, if_neg (fun he => hk he.symm)]

theorem getKey_stepTimeline (p : Dict) (k : String) (hk : k ≠ "timeline") :
    getKey (stepTimeline p) k = getKey p k := by
  unfold stepTimeline
  dsimp only
  split
  · rw [getKey_setKey, if_neg (fun he => hk he.symm)]
  · rw [getKey_setKey, if_neg (fun he => hk he.symm)]

theorem getKey_stepTtsProfiles (p p2 : Dict) (h : stepTtsProfiles p = some p2)
    (k : String) (hk : k ≠ "tts_profiles") : getKey p2 k = getKey p k := by
  unfold stepTtsProfiles at h
  try dsimp only at h
  have hshape : ∃ v, p2 = setKey p "tts_profiles" (.obj v) := by
    split at h
    · split at h
      · cases h
        exact ⟨_, rfl⟩
      · rcases option_do_inv _ _ _ h with ⟨params, _, hp⟩
        cases hp
        exact ⟨_, rfl⟩
    · rcases option_do_inv _ _ _ h with ⟨prof, _, hp⟩
      cases hp
      exact ⟨_, rfl⟩
  rcases hshape with ⟨v, rfl⟩
  rw [getKey_setKey, if_neg (fun he => hk he.symm)]

theorem getKey_stepRenders (now : String) (p p2 : Dict)
    (h : stepRenders now p = some p2) (k : String) (hk : k ≠ "renders") :
    getKey p2 k = getKey p k := by
  unfold stepRenders at h
  cases hr : getKey p "renders" with
  | none =>
    rw [hr] at h
    cases h
    rw [getKey_setKey, if_neg (fun he => hk he.symm)]
  | some v =>
    rw [hr] at h
    match v, h with
    | .obj r, h => ?_
    | .null, h | .bool _, h | .int _, h | .float _ _, h | .str _, h
    | .arr _, h =>
      cases h
      rw [getKey_setKey, if_neg (fun he => hk he.symm)]
    try dsimp only at h
    cases hh : getKey (if (getKey r "last_render_id").isSome = true then r
        else setKey r "last_render_id" .null) "history" with
    | none =>
      rw [hh] at h
      cases h
      rw [getKey_setKey, if_neg (fun he => hk he.symm)]
    | some w =>
      rw [hh] at h
      match w, h with
      | .arr history, h =>
        rcases option_do_inv _ _ _ h with ⟨nl, _, hp⟩
        try dsimp only at hp
        cases hp
        rw [getKey_setKey, if_neg (fun he => hk he.symm)]
      | .null, h | .bool _, h | .int _, h | .float _ _, h | .str _, h
      | .obj _, h =>
        cases h
        rw [getKey_setKey, if_neg (fun he => hk he.symm)]

theorem getKey_stepDemo (now : String) (p p2 : Dict)
    (h : stepDemo now p = some p2) (k : String) (hk : k ≠ "demo") :
    getKey p2 k = getKey p k := by
  unfold stepDemo at h
  cases hr : getKey p "demo" with
  | none =>
    rw [hr] at h
    cases h
    rw [getKey_setKey, if_neg (fun he => hk he.symm)]
  | some v =>
    rw [hr] at h
    match v, h with
    | .obj r, h => ?_
    | .null, h | .bool _, h | .int _, h | .float _ _, h | .str _, h
    | .arr _, h =>
      cases h
      rw [getKey_setKey, if_neg (fun he => hk he.symm)]
    try dsimp only at h
    cases hh : getKey (if (getKey r "last_run_id").isSome = true then r
        else setKey r "last_run_id" .null) "runs" with
    | none =>
      rw [hh] at h
      cases h
      rw [getKey_setKey, if_neg (fun he => hk he.symm)]
    | some w =>
      rw [hh] at h
      match w, h with
      | .arr runs, h =>
        rcases option_do_inv _ _ _ h with ⟨nl, _, hp⟩
        try dsimp only at hp
        cases hp
        rw [getKey_setKey, if_neg (fun he => hk he.symm)]
      | .null, h | .bool _, h | .int _, h | .float _ _, h | .str _, h
      | .obj _, h =>
        cases h
        rw [getKey_setKey, if_neg (fun he => hk he.symm)]

end Demo

namespace Demo

theorem getKey_subSegmentation_ne (s : Dict) (k : String)
    (hk : k ≠ "segmentation") : getKey (subSegmentation s) k = getKey s k := by
  unfold subSegmentation
  split
  · rfl
  · rw [getKey_setKey, if_neg (fun he => hk he.symm)]

theorem getKey_subModels_ne (s : Dict) (k : String)
    (hk : k ≠ "models") : getKey (subModels s) k = getKey s k := by
  unfold subModels
  split
  · rfl
  · rw [getKey_setKey, if_neg (fun he => hk he.symm)]

theorem getKey_subNarration_ne (s : Dict) (k : String)
    (hk : k ≠ "narration") : getKey (subNarration s) k = getKey s k := by
  unfold subNarration
  split
  · rfl
  · rw [getKey_setKey, if_neg (fun he => hk he.symm)]

theorem getKey_subTts_ne (s : Dict) (k : String)
    (hk : k ≠ "tts") : getKey (subTts s) k = getKey s k := by
  unfold subTts
  split
  · rfl
  · rw [getKey_setKey, if_neg (fun he => hk he.symm)]

theorem getKey_subDemoContext_ne (s : Dict) (k : String)
    (hk : k ≠ "demo_context") : getKey (subDemoContext s) k = getKey s k := by
  unfold subDemoContext
  split
  · rfl
  · rw [getKey_setKey, if_neg (fun he => hk he.symm)]

theorem getKey_subHolistic_ne (s : Dict) (k : String)
    (hk : k ≠ "holistic") : getKey (subHolistic s) k = getKey s k := by
  unfold subHolistic
  split
  · rw [getKey_setKey, if_neg (fun he => hk he.symm)]
  · rw [getKey_setKey, if_neg (fun he => hk he.symm)]

theorem getKey_subNarrationMode_ne (s : Dict) (k : String)
    (hk : k ≠ "narration_mode") :
    getKey (subNarrationMode s) k = getKey s k := by
  unfold subNarrationMode
  split
  · rfl
  · rw [getKey_setKey, if_neg (fun he => hk he.symm)]

theorem getKey_subExecutionMode_ne (s : Dict) (k : String)
    (hk : k ≠ "demo_capture_execution_mode") :
    getKey (subExecutionMode s) k = getKey s k := by
  unfold subExecutionMode
  dsimp only
  split
  · rw [getKey_setKey, if_neg (fun he => hk he.symm)]
  · split
    · split
      · rfl
      · rw [getKey_setKey, if_neg (fun he => hk he.symm)]
    · rw [getKey_setKey, if_neg (fun he => hk he.symm)]

theorem getKey_subFallback_ne (s : Dict) (k : String)
    (hk : k ≠ "holistic_fallback_to_segment") :
    getKey (subFallback s) k = getKey s k := by
  unfold subFallback
  split
  · rfl
  · rw [getKey_setKey, if_neg (fun he => hk he.symm)]

theorem subSegmentation_obj (s : Dict) :
    ∃ d, getKey (subSegmentation s) "segmentation" = some (.obj d) := by
  unfold subSegmentation
  split
  · rename_i d hd
    exact ⟨d, hd⟩
  · exact ⟨defaultSegmentationSettings, by rw [getKey_setKey, if_pos rfl]⟩

theorem subModels_obj (s : Dict) :
    ∃ d, getKey (subModels s) "models" = some (.obj d) := by
  unfold subModels
  split
  · rename_i d hd
    exact ⟨d, hd⟩
  · exact ⟨defaultModelsSettings, by rw [getKey_setKey, if_pos rfl]⟩

theorem subNarration_obj (s : Dict) :
    ∃ d, getKey (subNarration s) "narration" = some (.obj d) := by
  unfold subNarration
  split
  · rename_i d hd
    exact ⟨d, hd⟩
  · exact ⟨defaultNarrationSettings, by rw [getKey_setKey, if_pos rfl]⟩

theorem subTts_obj (s : Dict) :
    ∃ d, getKey (subTts s) "tts" = some (.obj d) := by
  unfold subTts
  split
  · rename_i d hd
    exact ⟨d, hd⟩
  · exact ⟨defaultTtsSettings, by rw [getKey_setKey, if_pos rfl]⟩

theorem subDemoContext_str (s : Dict) :
    ∃ v, getKey (subDemoContext s) "demo_context" = some (.str v) := by
  unfold subDemoContext
  split
  · rename_i v hv
    exact ⟨v, hv⟩
  · exact ⟨"", by rw [getKey_setKey, if_pos rfl]⟩

theorem subHolistic_obj (s : Dict) :
    ∃ hh, getKey (subHolistic s) "holistic" = some (.obj hh) ∧
      (getKey hh "keyframe_density").isSome = true ∧
      (getKey hh "match_confidence_threshold").isSome = true := by
  unfold subHolistic
  split
  · rename_i h0 hh0
    dsimp only
    refine ⟨_, by rw [getKey_setKey, if_pos rfl], ?_, ?_⟩
    · have hkd1 : (getKey (if (getKey h0 "keyframe_density").isSome = true
          then h0 else setKey h0 "keyframe_density" (.float 1 0))
          "keyframe_density").isSome = true := by
        by_cases hkd : (getKey h0 "keyframe_density").isSome = true
        · rw [if_pos hkd]; exact hkd
        · rw [if_neg hkd, getKey_setKey, if_pos rfl]; rfl
      by_cases hmc : (getKey (if (getKey h0 "keyframe_density").isSome = true
          then h0 else setKey h0 "keyframe_density" (.float 1 0))
          "match_confidence_threshold").isSome = true
      · rw [if_pos hmc]
        exact hkd1
      · rw [if_neg hmc, getKey_setKey, if_neg (by decide)]
        exact hkd1
    · by_cases hmc : (getKey (if (getKey h0 "keyframe_density").isSome = true
          then h0 else setKey h0 "keyframe_density" (.float 1 0))
          "match_confidence_threshold").isSome = true
      · rw [if_pos hmc]
        exact hmc
      · rw [if_neg hmc, getKey_setKey, if_pos rfl]
        rfl
  · refine ⟨defaultHolisticSettings, by rw [getKey_setKey, if_pos rfl],
      by decide, by decide⟩

theorem subNarrationMode_some (s : Dict) :
    (getKey (subNarrationMode s) "narration_mode").isSome = true := by
  unfold subNarrationMode
  split
  · assumption
  · rw [getKey_setKey, if_pos rfl]
    rfl

theorem subExecutionMode_mode (s : Dict) :
    ∃ v, getKey (subExecutionMode s) "demo_capture_execution_mode"
        = some (.str v) ∧
      (v = "playwright_optional" ∨ v = "playwright_required") := by
  unfold subExecutionMode
  dsimp only
  split
  · exact ⟨defaultDemoCaptureExecutionMode,
      by rw [getKey_setKey, if_pos rfl], Or.inl rfl⟩
  · rename_i hcond
    have hval : pyLower (pyStrip (pyStr (orDefault
        (getKey s "demo_capture_execution_mode") (.str ""))))
        = "playwright_optional" ∨
        pyLower (pyStrip (pyStr (orDefault
        (getKey s "demo_capture_execution_mode") (.str ""))))
        = "playwright_required" := by
      have h2 := Bool.of_not_eq_true hcond
      simp at h2
      exact or_iff_not_imp_left.mpr h2
    split
    · rename_i v hv
      split
      · rename_i hveq
        exact ⟨v, hv, hveq ▸ hval⟩
      · exact ⟨_, by rw [getKey_setKey, if_pos rfl], hval⟩
    · exact ⟨_, by rw [getKey_setKey, if_pos rfl], hval⟩

theorem subFallback_some (s : Dict) :
    (getKey (subFallback s) "holistic_fallback_to_segment").isSome
      = true := by
  unfold subFallback
  split
  · assumption
  · rw [getKey_setKey, if_pos rfl]
    rfl

end Demo

namespace Demo

theorem subSegmentation_stable (s : Dict) (d : Dict)
    (h : getKey s "segmentation" = some (.obj d)) : subSegmentation s = s := by
  unfold subSegmentation
  rw [h]

theorem subModels_stable (s : Dict) (d : Dict)
    (h : getKey s "models" = some (.obj d)) : subModels s = s := by
  unfold subModels
  rw [h]

theorem subNarration_stable (s : Dict) (d : Dict)
    (h : getKey s "narration" = some (.obj d)) : subNarration s = s := by
  unfold subNarration
  rw [h]

theorem subTts_stable (s : Dict) (d : Dict)
    (h : getKey s "tts" = some (.obj d)) : subTts s = s := by
  unfold subTts
  rw [h]

theorem subDemoContext_stable (s : Dict) (v : String)
    (h : getKey s "demo_context" = some (.str v)) : subDemoContext s = s := by
  unfold subDemoContext
  rw [h]

theorem subHolistic_stable (s : Dict) (hh : Dict)
    (h : getKey s "holistic" = some (.obj hh))
    (hkd : (getKey hh "keyframe_density").isSome = true)
    (hmc : (getKey hh "match_confidence_threshold").isSome = true) :
    subHolistic s = s := by
  unfold subHolistic
  rw [h]
  dsimp only
  rw [if_pos hkd, if_pos hmc]
  exact setKey_same s "holistic" _ h

theorem subNarrationMode_stable (s : Dict)
    (h : (getKey s "narration_mode").isSome = true) :
    subNarrationMode s = s := by
  unfold subNarrationMode
  rw [if_pos h]

theorem subExecutionMode_stable (s : Dict) (v : String)
    (h : getKey s "demo_capture_execution_mode" = some (.str v))
    (hv : v = "playwright_optional" ∨ v = "playwright_required") :
    subExecutionMode s = s := by
  unfold subExecutionMode
  dsimp only
  rcases hv with hv | hv <;> subst hv <;> rw [h]
  · rw [show pyLower (pyStrip (pyStr (orDefault
        (some (J.str "playwright_optional")) (.str ""))))
        = "playwright_optional" from rfl]
    rw [if_neg (by decide)]
    rfl
  · rw [show pyLower (pyStrip (pyStr (orDefault
        (some (J.str "playwright_required")) (.str ""))))
        = "playwright_required" from rfl]
    rw [if_neg (by decide)]
    rfl

theorem subFallback_stable (s : Dict)
    (h : (getKey s "holistic_fallback_to_segment").isSome = true) :
    subFallback s = s := by
  unfold subFallback
  rw [if_pos h]

/-- The shape `settingsSubSteps` guarantees of the settings dict. -/
def SettingsInnerOk (s : Dict) : Prop :=
  (∃ d, getKey s "segmentation" = some (.obj d)) ∧
  (∃ d, getKey s "models" = some (.obj d)) ∧
  (∃ d, getKey s "narration" = some (.obj d)) ∧
  (∃ d, getKey s "tts" = some (.obj d)) ∧
  (∃ v, getKey s "demo_context" = some (.str v)) ∧
  (∃ hh, getKey s "holistic" = some (.obj hh) ∧
    (getKey hh "keyframe_density").isSome = true ∧
    (getKey hh "match_confidence_threshold").isSome = true) ∧
  (getKey s "narration_mode").isSome = true ∧
  (∃ v, getKey s "demo_capture_execution_mode" = some (.str v) ∧
    (v = "playwright_optional" ∨ v = "playwright_required")) ∧
  (getKey s "holistic_fallback_to_segment").isSome = true

theorem settingsSubSteps_stable (s : Dict) (h : SettingsInnerOk s) :
    settingsSubSteps s = s := by
  obtain ⟨⟨d1, h1⟩, ⟨d2, h2⟩, ⟨d3, h3⟩, ⟨d4, h4⟩, ⟨v5, h5⟩,
    ⟨hh, h6, h6a, h6b⟩, h7, ⟨v8, h8, hv8⟩, h9⟩ := h
  unfold settingsSubSteps
  rw [subSegmentation_stable s d1 h1, subModels_stable s d2 h2,
    subNarration_stable s d3 h3, subTts_stable s d4 h4,
    subDemoContext_stable s v5 h5, subHolistic_stable s hh h6 h6a h6b,
    subNarrationMode_stable s h7, subExecutionMode_stable s v8 h8 hv8,
    subFallback_stable s h9]

theorem settingsSubSteps_shape (s : Dict) :
    SettingsInnerOk (settingsSubSteps s) := by
  unfold settingsSubSteps
  refine ⟨?_, ?_, ?_, ?_, ?_, ?_, ?_, ?_, ?_⟩
  · rw [getKey_subFallback_ne _ _ (by decide),
      getKey_subExecutionMode_ne _ _ (by decide),
      getKey_subNarrationMode_ne _ _ (by decide),
      getKey_subHolistic_ne _ _ (by decide),
      getKey_subDemoContext_ne _ _ (by decide),
      getKey_subTts_ne _ _ (by decide),
      getKey_subNarration_ne _ _ (by decide),
      getKey_subModels_ne _ _ (by decide)]
    exact subSegmentation_obj _
  · rw [getKey_subFallback_ne _ _ (by decide),
      getKey_subExecutionMode_ne _ _ (by decide),
      getKey_subNarrationMode_ne _ _ (by decide),
      getKey_subHolistic_ne _ _ (by decide),
      getKey_subDemoContext_ne _ _ (by decide),
      getKey_subTts_ne _ _ (by decide),
      getKey_subNarration_ne _ _ (by decide)]
    exact subModels_obj _
  · rw [getKey_subFallback_ne _ _ (by decide),
      getKey_subExecutionMode_ne _ _ (by decide),
      getKey_subNarrationMode_ne _ _ (by decide),
      getKey_subHolistic_ne _ _ (by decide),
      getKey_subDemoContext_ne _ _ (by decide),
      getKey_subTts_ne _ _ (by decide)]
    exact subNarration_obj _
  · rw [getKey_subFallback_ne _ _ (by decide),
      getKey_subExecutionMode_ne _ _ (by decide),
      getKey_subNarrationMode_ne _ _ (by decide),
      getKey_subHolistic_ne _ _ (by decide),
      getKey_subDemoContext_ne _ _ (by decide)]
    exact subTts_obj _
  · rw [getKey_subFallback_ne _ _ (by decide),
      getKey_subExecutionMode_ne _ _ (by decide),
      getKey_subNarrationMode_ne _ _ (by decide),
      getKey_subHolistic_ne _ _ (by decide)]
    exact subDemoContext_str _
  · rw [getKey_subFallback_ne _ _ (by decide),
      getKey_subExecutionMode_ne _ _ (by decide),
      getKey_subNarrationMode_ne _ _ (by decide)]
    exact subHolistic_obj _
  · rw [getKey_subFallback_ne _ _ (by decide),
      getKey_subExecutionMode_ne _ _ (by decide)]
    exact subNarrationMode_some _
  · rw [getKey_subFallback_ne _ _ (by decide)]
    exact subExecutionMode_mode _
  · exact subFallback_some _

end Demo

namespace Demo

def SchemaOk (p : Dict) : Prop :=
  pyStr (orDefault (getKey p "schema_version") (.str "")) ≠ "" ∧
  pyStr (orDefault (getKey p "schema_version") (.str "")) ≠ "1.0.0" ∧
  pyStr (orDefault (getKey p "schema_version") (.str "")) ≠ "1.1.0" ∧
  pyStr (orDefault (getKey p "schema_version") (.str "")) ≠ "1.2.0"

theorem stepSchema_stable (p : Dict) (h : SchemaOk p) : stepSchema p = p := by
  unfold stepSchema
  dsimp only
  split
  · rename_i hcond
    exfalso
    simp only [Bool.or_eq_true, decide_eq_true_eq] at hcond
    rcases hcond with ((hc | hc) | hc) | hc
    · exact h.1 hc
    · exact h.2.1 hc
    · exact h.2.2.1 hc
    · exact h.2.2.2 hc
  · rfl

theorem stepSchema_shape (p : Dict) : SchemaOk (stepSchema p) := by
  unfold stepSchema
  dsimp only
  split
  · refine ⟨?_, ?_, ?_, ?_⟩ <;>
      rw [getKey_setKey, if_pos rfl] <;> decide
  · rename_i hcond
    simp only [Bool.or_eq_true, decide_eq_true_eq, not_or] at hcond
    exact ⟨hcond.1.1.1, hcond.1.1.2, hcond.1.2, hcond.2⟩

def SettingsOk (p : Dict) : Prop :=
  ∃ s, getKey p "settings" = some (.obj s) ∧ SettingsInnerOk s

theorem stepSettings_stable (p : Dict) (h : SettingsOk p) :
    stepSettings p = p := by
  obtain ⟨s, hs, hin⟩ := h
  unfold stepSettings
  dsimp only
  rw [hs]
  show setKey p "settings" (.obj (settingsSubSteps s)) = p
  rw [settingsSubSteps_stable s hin]
  exact setKey_same p "settings" _ hs

theorem stepSettings_shape (p : Dict) : SettingsOk (stepSettings p) := by
  unfold stepSettings
  dsimp only
  refine ⟨_, by rw [getKey_setKey, if_pos rfl], settingsSubSteps_shape _⟩

def SegmentsOk (p : Dict) : Prop :=
  ∃ l, getKey p "segments" = some (.arr l)

theorem stepSegments_stable (p : Dict) (h : SegmentsOk p) :
    stepSegments p = p := by
  obtain ⟨l, hl⟩ := h
  unfold stepSegments
  rw [hl]

theorem stepSegments_shape (p : Dict) : SegmentsOk (stepSegments p) := by
  unfold stepSegments
  split
  · rename_i l hl
    exact ⟨l, hl⟩
  · exact ⟨[], by rw [getKey_setKey, if_pos rfl]⟩

def ExportsOk (p : Dict) : Prop :=
  ∃ e, getKey p "exports" = some (.obj e) ∧
    (∃ a, getKey e "artifacts" = some (.obj a)) ∧
    (∃ f, getKey e "ffmpeg" = some (.obj f) ∧
      ∃ c, getKey f "commands" = some (.arr c))

theorem stepExports_stable (p : Dict) (h : ExportsOk p) :
    stepExports p = p := by
  obtain ⟨e, he, ⟨a, ha⟩, ⟨f, hf, c, hc⟩⟩ := h
  unfold stepExports
  dsimp only
  simp only [he, ha, hf, hc]
  exact setKey_same p "exports" _ he

theorem stepExports_shape (p : Dict) : ExportsOk (stepExports p) := by
  unfold stepExports
  dsimp only
  refine ⟨_, by rw [getKey_setKey, if_pos rfl], ?_, ?_⟩
  all_goals
    generalize he0 : (match getKey p "exports" with
      | some (.obj e) => e
      | _ => defaultExports) = e0
  all_goals
    have hart : ∃ a, getKey (match getKey e0 "artifacts" with
        | some (.obj _) => e0
        | _ => setKey e0 "artifacts" (.obj [])) "artifacts"
        = some (.obj a) := by
      split
      · rename_i a ha
        exact ⟨a, ha⟩
      · exact ⟨[], by rw [getKey_setKey, if_pos rfl]⟩
  all_goals
    generalize he1 : (match getKey e0 "artifacts" with
      | some (.obj _) => e0
      | _ => setKey e0 "artifacts" (.obj [])) = e1 at hart
  all_goals
    have hff : ∃ f, getKey (match getKey e1 "ffmpeg" with
        | some (.obj _) => e1
        | _ => setKey e1 "ffmpeg" (.obj [("commands", .arr [])]))
        "ffmpeg" = some (.obj f) := by
      split
      · rename_i f hf
        exact ⟨f, hf⟩
      · exact ⟨[("commands", .arr [])], by rw [getKey_setKey, if_pos rfl]⟩
  all_goals
    generalize he2 : (match getKey e1 "ffmpeg" with
      | some (.obj _) => e1
      | _ => setKey e1 "ffmpeg" (.obj [("commands", .arr [])])) = e2 at hff
  all_goals obtain ⟨a1, ha1⟩ := hart
  all_goals obtain ⟨f2, hf2⟩ := hff
  all_goals
    have ha2 : getKey e2 "artifacts" = some (J.obj a1) := by
      rw [← he2]
      split
      · exact ha1
      · rw [getKey_setKey, if_neg (by decide)]
        exact ha1
  all_goals rw [hf2]
  · -- artifacts of the final exports dict
    split
    · exact ⟨a1, ha2⟩
    · rw [getKey_setKey, if_neg (by decide)]
      exact ⟨a1, ha2⟩
  · -- ffmpeg/commands of the final exports dict
    split
    · rename_i c3 hc3
      exact ⟨f2, hf2, c3, hc3⟩
    · refine ⟨setKey f2 "commands" (.arr []),
        by rw [getKey_setKey, if_pos rfl], [],
        by rw [getKey_setKey, if_pos rfl]⟩

def PlanningOk (p : Dict) : Prop :=
  ∃ pl, getKey p "planning" = some (.obj pl) ∧
    ∃ ng, getKey pl "narration_global" = some (.obj ng) ∧
      (getKey ng "status").isSome = true

theorem stepPlanning_stable (p : Dict) (h : PlanningOk p) :
    stepPlanning p = p := by
  obtain ⟨pl, hpl, ng, hng, hst⟩ := h
  unfold stepPlanning
  dsimp only
  simp only [hpl, hng, hst, reduceIte]
  exact setKey_same p "planning" _ hpl

theorem stepPlanning_shape (p : Dict) : PlanningOk (stepPlanning p) := by
  unfold stepPlanning
  dsimp only
  refine ⟨_, by rw [getKey_setKey, if_pos rfl], ?_⟩
  split
  · rename_i ng hng
    split
    · rename_i hst
      exact ⟨ng, hng, hst⟩
    · refine ⟨setKey ng "status" (.str "not_started"),
        by rw [getKey_setKey, if_pos rfl], ?_⟩
      rw [getKey_setKey, if_pos rfl]
      rfl
  · refine ⟨[("status", .str "not_started")],
      by rw [getKey_setKey, if_pos rfl], by decide⟩

def HolStateOk (p : Dict) : Prop :=
  ∃ hh, getKey p "holistic" = some (.obj hh)

theorem stepHolisticState_stable (p : Dict) (h : HolStateOk p) :
    stepHolisticState p = p := by
  obtain ⟨hh, hhh⟩ := h
  unfold stepHolisticState
  rw [hhh]

theorem stepHolisticState_shape (p : Dict) :
    HolStateOk (stepHolisticState p) := by
  unfold stepHolisticState
  split
  · rename_i hh hhh
    exact ⟨hh, hhh⟩
  · exact ⟨_, by rw [getKey_setKey, if_pos rfl]⟩

def TimelineOk (p : Dict) : Prop :=
  ∃ t, getKey p "timeline" = some (.obj t) ∧
    getKey t "timeline_version" = some (.str TIMELINE_VERSION) ∧
    (∃ ne, getKey t "narration_events" = some (.arr ne) ∧
      (ne = [] → segmentsToNarrationEvents (getKey p "segments") = [])) ∧
    (∃ ae, getKey t "action_events" = some (.arr ae))

theorem stepTimeline_stable (p : Dict) (h : TimelineOk p) :
    stepTimeline p = p := by
  obtain ⟨t, ht, hv, ⟨ne, hne, hlegacy⟩, ⟨ae, hae⟩⟩ := h
  have hcond : (!truthyOpt (some (J.arr ne))
      && !(segmentsToNarrationEvents (getKey p "segments")).isEmpty)
      = false := by
    by_cases hne0 : ne = []
    · subst hne0
      rw [hlegacy rfl]
      simp [truthyOpt, truthy]
    · simp [truthyOpt, truthy, List.isEmpty_iff, hne0]
  unfold stepTimeline
  dsimp only
  simp only [ht, hv, hne, hae, hcond, reduceIte, Bool.false_eq_true,
    if_false]
  exact setKey_same p "timeline" _ ht

theorem stepTimeline_shape_aux (p : Dict) :
    ∃ t, getKey (stepTimeline p) "timeline" = some (.obj t) ∧
      getKey t "timeline_version" = some (.str TIMELINE_VERSION) ∧
      (∃ ne, getKey t "narration_events" = some (.arr ne) ∧
        (ne = [] → segmentsToNarrationEvents (getKey p "segments") = [])) ∧
      (∃ ae, getKey t "action_events" = some (.arr ae)) := by
  unfold stepTimeline
  dsimp only
  split
  · rename_i t0 ht0
    refine ⟨_, by rw [getKey_setKey, if_pos rfl], ?_, ?_, ?_⟩
    all_goals
      generalize ht1 : (match getKey t0 "timeline_version" with
        | some (.str v) =>
          if v = TIMELINE_VERSION then t0
          else setKey t0 "timeline_version" (.str TIMELINE_VERSION)
        | _ => setKey t0 "timeline_version" (.str TIMELINE_VERSION)) = t1
    all_goals
      have hv1 : getKey t1 "timeline_version"
          = some (.str TIMELINE_VERSION) := by
        rw [← ht1]
        split
        · rename_i v hv
          split
          · rename_i hveq
            rw [hv, hveq]
          · rw [getKey_setKey, if_pos rfl]
        · rw [getKey_setKey, if_pos rfl]
    all_goals
      generalize ht2 : (match getKey t1 "narration_events" with
        | some (.arr _) => t1
        | _ => setKey t1 "narration_events" (.arr [])) = t2
    all_goals
      have hne2 : ∃ ne, getKey t2 "narration_events" = some (.arr ne) := by
        rw [← ht2]
        split
        · rename_i ne hne
          exact ⟨ne, hne⟩
        · exact ⟨[], by rw [getKey_setKey, if_pos rfl]⟩
    all_goals
      have hv2 : getKey t2 "timeline_version"
          = some (.str TIMELINE_VERSION) := by
        rw [← ht2]
        split
        · exact hv1
        · rw [getKey_setKey, if_neg (by decide)]
          exact hv1
    all_goals
      generalize ht3 : (match getKey t2 "action_events" with
        | some (.arr _) => t2
        | _ => setKey t2 "action_events" (.arr [])) = t3
    all_goals
      have hae3 : ∃ ae, getKey t3 "action_events" = some (.arr ae) := by
        rw [← ht3]
        split
        · rename_i ae hae
          exact ⟨ae, hae⟩
        · exact ⟨[], by rw [getKey_setKey, if_pos rfl]⟩
    all_goals
      have hv3 : getKey t3 "timeline_version"
          = some (.str TIMELINE_VERSION) := by
        rw [← ht3]
        split
        · exact hv2
        · rw [getKey_setKey, if_neg (by decide)]
          exact hv2
    all_goals
      have hne3 : ∃ ne, getKey t3 "narration_events" = some (.arr ne) := by
        rw [← ht3]
        split
        · exact hne2
        · rw [getKey_setKey, if_neg (by decide)]
          exact hne2
    · -- timeline_version of the final timeline
      split
      · rw [getKey_setKey, if_neg (by decide)]
        exact hv3
      · exact hv3
    · -- narration_events of the final timeline, with the legacy fact
      obtain ⟨ne3, hne3v⟩ := hne3
      split
      · refine ⟨segmentsToNarrationEvents (getKey p "segments"),
          by rw [getKey_setKey, if_pos rfl], ?_⟩
        intro hleg
        exact hleg
      · rename_i hcond
        refine ⟨ne3, hne3v, ?_⟩
        intro hnil
        subst hnil
        simp only [Bool.not_eq_true, Bool.and_eq_false_iff] at hcond
        rw [hne3v] at hcond
        rcases hcond with hc | hc
        · simp [truthyOpt, truthy] at hc
        · simpa [List.isEmpty_iff] using hc
    · -- action_events of the final timeline
      obtain ⟨ae3, hae3v⟩ := hae3
      split
      · refine ⟨ae3, ?_⟩
        rw [getKey_setKey, if_neg (by decide)]
        exact hae3v
      · exact ⟨ae3, hae3v⟩
  · refine ⟨defaultTimeline (segmentsToNarrationEvents (getKey p "segments")),
      by rw [getKey_setKey, if_pos rfl], rfl, ?_, ?_⟩
    · exact ⟨segmentsToNarrationEvents (getKey p "segments"), rfl,
        fun hleg => hleg⟩
    · exact ⟨[], rfl⟩

theorem stepTimeline_shape (p : Dict) : TimelineOk (stepTimeline p) := by
  obtain ⟨t, h1, h2, ⟨ne, h3, h4⟩, h5⟩ := stepTimeline_shape_aux p
  refine ⟨t, h1, h2, ⟨ne, h3, ?_⟩, h5⟩
  intro hnil
  rw [getKey_stepTimeline p "segments" (by decide)]
  exact h4 hnil

end Demo

namespace Demo

def TtsOk (p : Dict) : Prop :=
  ∃ tp, getKey p "tts_profiles" = some (.obj tp) ∧
    ∃ dp, getKey tp "default" = some (.obj dp) ∧
      truthyOpt (getKey dp "profile_id") = true ∧
      ∃ pr, getKey dp "params" = some (.obj pr)

theorem stepTtsProfiles_stable (p : Dict) (h : TtsOk p) :
    stepTtsProfiles p = some p := by
  obtain ⟨tp, htp, dp, hdp, hpid, pr, hpr⟩ := h
  unfold stepTtsProfiles
  try dsimp only
  simp only [htp, hdp, hpid, hpr, reduceIte]
  rw [setKey_same tp "default" _ hdp]
  show some (setKey p "tts_profiles" (J.obj tp)) = some p
  rw [setKey_same p "tts_profiles" _ htp]

theorem defaultProfileFromTtsSettings_shape (tts prof : Dict)
    (h : defaultProfileFromTtsSettings tts = some prof) :
    truthyOpt (getKey prof "profile_id") = true ∧
    ∃ pr, getKey prof "params" = some (.obj pr) := by
  unfold defaultProfileFromTtsSettings at h
  try dsimp only at h
  rcases option_do_inv _ _ _ h with ⟨params, _, hp⟩
  try dsimp only at hp
  cases hp
  constructor
  · try split
    all_goals try split
    all_goals try split
    all_goals try split
    all_goals try split
    all_goals simp [getKey, getKey_setKey, truthyOpt, truthy]
  · try split
    all_goals try split
    all_goals try split
    all_goals try split
    all_goals try split
    all_goals exact ⟨params, by simp [getKey, getKey_setKey]⟩

theorem stepTtsProfiles_shape (p p2 : Dict)
    (h : stepTtsProfiles p = some p2) : TtsOk p2 := by
  unfold stepTtsProfiles at h
  try dsimp only at h
  split at h
  · rename_i dp0 hdp0
    split at h
    · rename_i pr0 hpr0
      cases h
      refine ⟨_, by rw [getKey_setKey, if_pos rfl], _,
        by rw [getKey_setKey, if_pos rfl], ?_, ⟨pr0, hpr0⟩⟩
      by_cases hc : truthyOpt (getKey dp0 "profile_id") = true
      · rw [if_pos hc]
        exact hc
      · rw [if_neg hc, getKey_setKey, if_pos rfl]
        rfl
    · rcases option_do_inv _ _ _ h with ⟨params, _, hp⟩
      try dsimp only at hp
      cases hp
      refine ⟨_, by rw [getKey_setKey, if_pos rfl], _,
        by rw [getKey_setKey, if_pos rfl], ?_,
        ⟨params, by rw [getKey_setKey, if_pos rfl]⟩⟩
      rw [getKey_setKey, if_neg (by decide)]
      by_cases hc : truthyOpt (getKey dp0 "profile_id") = true
      · rw [if_pos hc]
        exact hc
      · rw [if_neg hc, getKey_setKey, if_pos rfl]
        rfl
  · rcases option_do_inv _ _ _ h with ⟨prof, hprof, hp⟩
    try dsimp only at hp
    cases hp
    obtain ⟨h1, pr, h2⟩ := defaultProfileFromTtsSettings_shape _ _ hprof
    exact ⟨_, by rw [getKey_setKey, if_pos rfl], prof,
      by rw [getKey_setKey, if_pos rfl], h1, ⟨pr, h2⟩⟩

end Demo

namespace Demo

def RendersOk (p : Dict) : Prop :=
  ∃ r, getKey p "renders" = some (.obj r) ∧
    (getKey r "last_render_id").isSome = true ∧
    ∃ hl, getKey r "history" = some (.arr hl) ∧
      AllObjWith RenderNormal hl ∧
      (hl.length : Int) ≤ 50 ∧
      (hl.getLast? = none ∨
        ∃ lr s, hl.getLast? = some (.obj lr) ∧
          getKey lr "render_id" = some (.str s) ∧ s ≠ "" ∧
          getKey r "last_render_id" = some (.str s))

theorem historyLimit_fifty : historyLimit 50 50 = 50 := by decide

theorem stepRenders_stable (now2 : String) (p : Dict) (h : RendersOk p) :
    stepRenders now2 p = some p := by
  obtain ⟨r, hr, hlast, hl, hh, hnorm, hlen, hlink⟩ := h
  unfold stepRenders
  rw [hr]
  try dsimp only
  rw [if_pos hlast, hh]
  try dsimp only
  rw [normalizeItems_of_id _ RenderNormal
    (fun d hd => normalizeRenderRecord_of_normal now2 d hd) hl hnorm,
    optionBind_some]
  try dsimp only
  rw [show historyLimit MAX_RENDER_HISTORY MAX_RENDER_HISTORY = 50 from
    by decide]
  rw [trimHistory_of_le hl 50 hlen]
  have hr2 : (if jEqList hl hl then r else setKey r "history" (.arr hl)) = r := by
    split
    · rfl
    · exact setKey_same r "history" _ hh
  rw [hr2]
  rcases hlink with hnone | ⟨lr, s2, hsome, hrid, hs2, hlk⟩
  · rw [hnone]
    try dsimp only
    rw [setKey_same p "renders" _ hr]
    rfl
  · rw [hsome]
    try dsimp only
    rw [hrid, orDefault_of_truthy _ _ (by simpa [truthy] using hs2), pyStr_str,
      hlk]
    rw [show (decide (s2 ≠ "") &&
        !(match some (J.str s2) with
          | some (J.str v) => decide (v = s2)
          | _ => false)) = false from by simp]
    rw [if_neg (by decide)]
    rw [setKey_same p "renders" _ hr]
    rfl

/-- Hypothesis of message-stability for all render-history records of `p`. -/
def RendersMsgOk (p : Dict) : Prop :=
  ∀ r hl, getKey p "renders" = some (.obj r) →
    getKey r "history" = some (.arr hl) →
    ∀ d : Dict, J.obj d ∈ hl → summaryMsgOk d

theorem stepRenders_shape (now : String) (p p2 : Dict)
    (hnow1 : now ≠ "") (hnow2 : ∀ c ∈ now.data, isPySpace c = false)
    (hmsg : RendersMsgOk p)
    (h : stepRenders now p = some p2) : RendersOk p2 := by
  unfold stepRenders at h
  cases hr : getKey p "renders" with
  | none =>
    rw [hr] at h
    cases h
    exact ⟨defaultRenders, by rw [getKey_setKey, if_pos rfl], rfl, [], rfl,
      fun x hx => absurd hx (List.not_mem_nil x), by decide, Or.inl rfl⟩
  | some v =>
    rw [hr] at h
    match v, h with
    | .obj r0, h => ?_
    | .null, h | .bool _, h | .int _, h | .float _ _, h | .str _, h
    | .arr _, h =>
      cases h
      exact ⟨defaultRenders, by rw [getKey_setKey, if_pos rfl], rfl, [], rfl,
        fun x hx => absurd hx (List.not_mem_nil x), by decide, Or.inl rfl⟩
    try dsimp only at h
    have hlast1 : (getKey (if (getKey r0 "last_render_id").isSome = true
        then r0 else setKey r0 "last_render_id" .null)
        "last_render_id").isSome = true := by
      by_cases hc : (getKey r0 "last_render_id").isSome = true
      · rw [if_pos hc]
        exact hc
      · rw [if_neg hc, getKey_setKey, if_pos rfl]
        rfl
    have hhist1 : getKey (if (getKey r0 "last_render_id").isSome = true
        then r0 else setKey r0 "last_render_id" .null) "history"
        = getKey r0 "history" := by
      split
      · rfl
      · rw [getKey_setKey, if_neg (by decide)]
    generalize hr1 : (if (getKey r0 "last_render_id").isSome = true
        then r0 else setKey r0 "last_render_id" .null) = r1 at h hlast1 hhist1
    cases hh : getKey r1 "history" with
    | none =>
      rw [hh] at h
      cases h
      refine ⟨setKey r1 "history" (.arr []), by rw [getKey_setKey, if_pos rfl],
        ?_, [], by rw [getKey_setKey, if_pos rfl],
        fun x hx => absurd hx (List.not_mem_nil x), by decide, Or.inl rfl⟩
      rw [getKey_setKey, if_neg (by decide)]
      exact hlast1
    | some w =>
      rw [hh] at h
      match w, h with
      | .arr h0, h => ?_
      | .null, h | .bool _, h | .int _, h | .float _ _, h | .str _, h
      | .obj _, h =>
        cases h
        refine ⟨setKey r1 "history" (.arr []),
          by rw [getKey_setKey, if_pos rfl], ?_, [],
          by rw [getKey_setKey, if_pos rfl],
          fun x hx => absurd hx (List.not_mem_nil x), by decide, Or.inl rfl⟩
        rw [getKey_setKey, if_neg (by decide)]
        exact hlast1
      try dsimp only at h
      cases hn : normalizeItems (normalizeRenderRecord now none) h0 with
        | none => rw [hn, optionBind_none] at h; cases h
        | some l1 =>
          rw [hn, optionBind_some] at h
          try dsimp only at h
          have hQ : ∀ d : Dict, J.obj d ∈ h0 → summaryMsgOk d := by
            intro d hd
            exact hmsg r0 h0 hr (by rw [← hhist1, hh]) d hd
          have hnorm1 : AllObjWith RenderNormal l1 :=
            normalizeItems_all _ RenderNormal summaryMsgOk
              (fun d r hq hfd =>
                normalizeRenderRecord_normal now d r hnow1 hnow2 hq hfd)
              h0 l1 hQ hn
          rw [show historyLimit MAX_RENDER_HISTORY MAX_RENDER_HISTORY = 50
            from by decide] at h
          have hnormT : AllObjWith RenderNormal (trimHistory l1 50) :=
            fun x hx => hnorm1 x (mem_trimHistory l1 50 x hx)
          have hlenT : ((trimHistory l1 50).length : Int) ≤ 50 := by
            have := trimHistory_length_le l1 50 (by decide)
            omega
          have hr2hist : getKey (if jEqList h0 (trimHistory l1 50) then r1
              else setKey r1 "history" (.arr (trimHistory l1 50))) "history"
              = some (.arr (trimHistory l1 50)) := by
            by_cases hj : jEqList h0 (trimHistory l1 50) = true
            · rw [if_pos hj, hh, jEqList_sound h0 _ hj]
            · rw [if_neg hj, getKey_setKey, if_pos rfl]
          have hr2last : getKey (if jEqList h0 (trimHistory l1 50) then r1
              else setKey r1 "history" (.arr (trimHistory l1 50)))
              "last_render_id" = getKey r1 "last_render_id" := by
            split
            · rfl
            · rw [getKey_setKey, if_neg (by decide)]
          generalize hr2 : (if jEqList h0 (trimHistory l1 50) then r1
              else setKey r1 "history" (.arr (trimHistory l1 50))) = r2
            at h hr2hist hr2last
          cases hlastT : (trimHistory l1 50).getLast? with
          | none =>
            rw [hlastT] at h
            try dsimp only at h
            cases h
            refine ⟨r2, by rw [getKey_setKey, if_pos rfl], ?_,
              trimHistory l1 50, hr2hist, hnormT, hlenT, Or.inl hlastT⟩
            rw [hr2last]
            exact hlast1
          | some v2 =>
            obtain ⟨lr, hveq, hlrN⟩ := hnormT v2
              (List.mem_of_mem_getLast? hlastT)
            subst hveq
            rw [hlastT] at h
            try dsimp only at h
            obtain ⟨srid, hsrid, hsridne, _⟩ := hlrN.rid
            rw [hsrid, orDefault_of_truthy _ _
              (by simpa [truthy] using hsridne), pyStr_str] at h
            by_cases hcond : (decide (srid ≠ "") &&
                !(match getKey r2 "last_render_id" with
                  | some (J.str v) => decide (v = srid)
                  | _ => false)) = true
            · rw [if_pos hcond] at h
              cases h
              refine ⟨setKey r2 "last_render_id" (.str srid),
                by rw [getKey_setKey, if_pos rfl], ?_,
                trimHistory l1 50, ?_, hnormT, hlenT,
                Or.inr ⟨lr, srid, hlastT, hsrid, hsridne, ?_⟩⟩
              · rw [getKey_setKey, if_pos rfl]
                rfl
              · rw [getKey_setKey, if_neg (by decide)]
                exact hr2hist
              · rw [getKey_setKey, if_pos rfl]
            · rw [if_neg hcond] at h
              cases h
              have hmatch : (match getKey r2 "last_render_id" with
                  | some (J.str v) => decide (v = srid)
                  | _ => false) = true := by
                rcases Bool.and_eq_false_iff.mp
                  (Bool.of_not_eq_true hcond) with hc | hc
                · exact absurd hc (by simpa using hsridne)
                · simpa using hc
              have hlk : getKey r2 "last_render_id" = some (.str srid) := by
                cases hg : getKey r2 "last_render_id" with
                | none => rw [hg] at hmatch; cases hmatch
                | some j =>
                  rw [hg] at hmatch
                  match j, hmatch with
                  | .str v, hmatch =>
                    have : v = srid := by simpa using hmatch
                    rw [this]
                  | .null, hmatch | .bool _, hmatch | .int _, hmatch
                  | .float _ _, hmatch | .arr _, hmatch
                  | .obj _, hmatch => cases hmatch
              refine ⟨r2, by rw [getKey_setKey, if_pos rfl],
                by rw [hlk]; rfl,
                trimHistory l1 50, hr2hist, hnormT, hlenT,
                Or.inr ⟨lr, srid, hlastT, hsrid, hsridne, hlk⟩⟩

end Demo

namespace Demo

def DemoOk (p : Dict) : Prop :=
  ∃ r, getKey p "demo" = some (.obj r) ∧
    (getKey r "last_run_id").isSome = true ∧
    ∃ hl, getKey r "runs" = some (.arr hl) ∧
      AllObjWith DemoRunNormal hl ∧
      (hl.length : Int) ≤ 50 ∧
      (hl.getLast? = none ∨
        ∃ lr s, hl.getLast? = some (.obj lr) ∧
          getKey lr "run_id" = some (.str s) ∧ s ≠ "" ∧
          getKey r "last_run_id" = some (.str s))

theorem stepDemo_stable (now2 : String) (p : Dict) (h : DemoOk p) :
    stepDemo now2 p = some p := by
  obtain ⟨r, hr, hlast, hl, hh, hnorm, hlen, hlink⟩ := h
  unfold stepDemo
  rw [hr]
  try dsimp only
  rw [if_pos hlast, hh]
  try dsimp only
  rw [normalizeItems_of_id _ DemoRunNormal
    (fun d hd => normalizeDemoRunRecord_of_normal now2 d hd) hl hnorm,
    optionBind_some]
  try dsimp only
  rw [show historyLimit MAX_DEMO_RUN_HISTORY MAX_DEMO_RUN_HISTORY = 50 from
    by decide]
  rw [trimHistory_of_le hl 50 hlen]
  have hr2 : (if jEqList hl hl then r else setKey r "runs" (.arr hl)) = r := by
    split
    · rfl
    · exact setKey_same r "runs" _ hh
  rw [hr2]
  rcases hlink with hnone | ⟨lr, s2, hsome, hrid, hs2, hlk⟩
  · rw [hnone]
    try dsimp only
    rw [setKey_same p "demo" _ hr]
    rfl
  · rw [hsome]
    try dsimp only
    rw [hrid, orDefault_of_truthy _ _ (by simpa [truthy] using hs2), pyStr_str,
      hlk]
    rw [show (decide (s2 ≠ "") &&
        !(match some (J.str s2) with
          | some (J.str v) => decide (v = s2)
          | _ => false)) = false from by simp]
    rw [if_neg (by decide)]
    rw [setKey_same p "demo" _ hr]
    rfl

/-- Hypothesis of message-stability for all demo-run records of `p`. -/
def DemoMsgOk (p : Dict) : Prop :=
  ∀ r hl, getKey p "demo" = some (.obj r) →
    getKey r "runs" = some (.arr hl) →
    ∀ d : Dict, J.obj d ∈ hl → summaryMsgOk d

theorem stepDemo_shape (now : String) (p p2 : Dict)
    (hnow1 : now ≠ "") (hnow2 : ∀ c ∈ now.data, isPySpace c = false)
    (hmsg : DemoMsgOk p)
    (h : stepDemo now p = some p2) : DemoOk p2 := by
  unfold stepDemo at h
  cases hr : getKey p "demo" with
  | none =>
    rw [hr] at h
    cases h
    exact ⟨defaultDemoState, by rw [getKey_setKey, if_pos rfl], rfl, [], rfl,
      fun x hx => absurd hx (List.not_mem_nil x), by decide, Or.inl rfl⟩
  | some v =>
    rw [hr] at h
    match v, h with
    | .obj r0, h => ?_
    | .null, h | .bool _, h | .int _, h | .float _ _, h | .str _, h
    | .arr _, h =>
      cases h
      exact ⟨defaultDemoState, by rw [getKey_setKey, if_pos rfl], rfl, [], rfl,
        fun x hx => absurd hx (List.not_mem_nil x), by decide, Or.inl rfl⟩
    try dsimp only at h
    have hlast1 : (getKey (if (getKey r0 "last_run_id").isSome = true
        then r0 else setKey r0 "last_run_id" .null)
        "last_run_id").isSome = true := by
      by_cases hc : (getKey r0 "last_run_id").isSome = true
      · rw [if_pos hc]
        exact hc
      · rw [if_neg hc, getKey_setKey, if_pos rfl]
        rfl
    have hhist1 : getKey (if (getKey r0 "last_run_id").isSome = true
        then r0 else setKey r0 "last_run_id" .null) "runs"
        = getKey r0 "runs" := by
      split
      · rfl
      · rw [getKey_setKey, if_neg (by decide)]
    generalize hr1 : (if (getKey r0 "last_run_id").isSome = true
        then r0 else setKey r0 "last_run_id" .null) = r1 at h hlast1 hhist1
    cases hh : getKey r1 "runs" with
    | none =>
      rw [hh] at h
      cases h
      refine ⟨setKey r1 "runs" (.arr []), by rw [getKey_setKey, if_pos rfl],
        ?_, [], by rw [getKey_setKey, if_pos rfl],
        fun x hx => absurd hx (List.not_mem_nil x), by decide, Or.inl rfl⟩
      rw [getKey_setKey, if_neg (by decide)]
      exact hlast1
    | some w =>
      rw [hh] at h
      match w, h with
      | .arr h0, h => ?_
      | .null, h | .bool _, h | .int _, h | .float _ _, h | .str _, h
      | .obj _, h =>
        cases h
        refine ⟨setKey r1 "runs" (.arr []),
          by rw [getKey_setKey, if_pos rfl], ?_, [],
          by rw [getKey_setKey, if_pos rfl],
          fun x hx => absurd hx (List.not_mem_nil x), by decide, Or.inl rfl⟩
        rw [getKey_setKey, if_neg (by decide)]
        exact hlast1
      try dsimp only at h
      cases hn : normalizeItems (normalizeDemoRunRecord now none) h0 with
      | none => rw [hn, optionBind_none] at h; cases h
      | some l1 =>
        rw [hn, optionBind_some] at h
        try dsimp only at h
        have hQ : ∀ d : Dict, J.obj d ∈ h0 → summaryMsgOk d := by
          intro d hd
          exact hmsg r0 h0 hr (by rw [← hhist1, hh]) d hd
        have hnorm1 : AllObjWith DemoRunNormal l1 :=
          normalizeItems_all _ DemoRunNormal summaryMsgOk
            (fun d r hq hfd =>
              normalizeDemoRunRecord_normal now d r hnow1 hnow2 hq hfd)
            h0 l1 hQ hn
        rw [show historyLimit MAX_DEMO_RUN_HISTORY MAX_DEMO_RUN_HISTORY = 50
          from by decide] at h
        have hnormT : AllObjWith DemoRunNormal (trimHistory l1 50) :=
          fun x hx => hnorm1 x (mem_trimHistory l1 50 x hx)
        have hlenT : ((trimHistory l1 50).length : Int) ≤ 50 := by
          have := trimHistory_length_le l1 50 (by decide)
          omega
        have hr2hist : getKey (if jEqList h0 (trimHistory l1 50) then r1
            else setKey r1 "runs" (.arr (trimHistory l1 50))) "runs"
            = some (.arr (trimHistory l1 50)) := by
          by_cases hj : jEqList h0 (trimHistory l1 50) = true
          · rw [if_pos hj, hh, jEqList_sound h0 _ hj]
          · rw [if_neg hj, getKey_setKey, if_pos rfl]
        have hr2last : getKey (if jEqList h0 (trimHistory l1 50) then r1
            else setKey r1 "runs" (.arr (trimHistory l1 50)))
            "last_run_id" = getKey r1 "last_run_id" := by
          split
          · rfl
          · rw [getKey_setKey, if_neg (by decide)]
        generalize hr2 : (if jEqList h0 (trimHistory l1 50) then r1
            else setKey r1 "runs" (.arr (trimHistory l1 50))) = r2
          at h hr2hist hr2last
        cases hlastT : (trimHistory l1 50).getLast? with
        | none =>
          rw [hlastT] at h
          try dsimp only at h
          cases h
          refine ⟨r2, by rw [getKey_setKey, if_pos rfl], ?_,
            trimHistory l1 50, hr2hist, hnormT, hlenT, Or.inl hlastT⟩
          rw [hr2last]
          exact hlast1
        | some v2 =>
          obtain ⟨lr, hveq, hlrN⟩ := hnormT v2
            (List.mem_of_mem_getLast? hlastT)
          subst hveq
          rw [hlastT] at h
          try dsimp only at h
          obtain ⟨srid, hsrid, hsridne, _⟩ := hlrN.rid
          rw [hsrid, orDefault_of_truthy _ _
            (by simpa [truthy] using hsridne), pyStr_str] at h
          by_cases hcond : (decide (srid ≠ "") &&
              !(match getKey r2 "last_run_id" with
                | some (J.str v) => decide (v = srid)
                | _ => false)) = true
          · rw [if_pos hcond] at h
            cases h
            refine ⟨setKey r2 "last_run_id" (.str srid),
              by rw [getKey_setKey, if_pos rfl], ?_,
              trimHistory l1 50, ?_, hnormT, hlenT,
              Or.inr ⟨lr, srid, hlastT, hsrid, hsridne, ?_⟩⟩
            · rw [getKey_setKey, if_pos rfl]
              rfl
            · rw [getKey_setKey, if_neg (by decide)]
              exact hr2hist
            · rw [getKey_setKey, if_pos rfl]
          · rw [if_neg hcond] at h
            cases h
            have hmatch : (match getKey r2 "last_run_id" with
                | some (J.str v) => decide (v = srid)
                | _ => false) = true := by
              rcases Bool.and_eq_false_iff.mp
                (Bool.of_not_eq_true hcond) with hc | hc
              · exact absurd hc (by simpa using hsridne)
              · simpa using hc
            have hlk : getKey r2 "last_run_id" = some (.str srid) := by
              cases hg : getKey r2 "last_run_id" with
              | none => rw [hg] at hmatch; cases hmatch
              | some j =>
                rw [hg] at hmatch
                match j, hmatch with
                | .str v, hmatch =>
                  have : v = srid := by simpa using hmatch
                  rw [this]
                | .null, hmatch | .bool _, hmatch | .int _, hmatch
                | .float _ _, hmatch | .arr _, hmatch
                | .obj _, hmatch => cases hmatch
            refine ⟨r2, by rw [getKey_setKey, if_pos rfl],
              by rw [hlk]; rfl,
              trimHistory l1 50, hr2hist, hnormT, hlenT,
              Or.inr ⟨lr, srid, hlastT, hsrid, hsridne, hlk⟩⟩

end Demo

namespace Demo

theorem SchemaOk_congr (p q : Dict)
    (h : getKey p "schema_version" = getKey q "schema_version")
    (hq : SchemaOk q) : SchemaOk p := by
  unfold SchemaOk at hq ⊢
  rw [h]
  exact hq

theorem SettingsOk_congr (p q : Dict)
    (h : getKey p "settings" = getKey q "settings")
    (hq : SettingsOk q) : SettingsOk p := by
  unfold SettingsOk at hq ⊢
  rw [h]
  exact hq

theorem SegmentsOk_congr (p q : Dict)
    (h : getKey p "segments" = getKey q "segments")
    (hq : SegmentsOk q) : SegmentsOk p := by
  unfold SegmentsOk at hq ⊢
  rw [h]
  exact hq

theorem ExportsOk_congr (p q : Dict)
    (h : getKey p "exports" = getKey q "exports")
    (hq : ExportsOk q) : ExportsOk p := by
  unfold ExportsOk at hq ⊢
  rw [h]
  exact hq

theorem PlanningOk_congr (p q : Dict)
    (h : getKey p "planning" = getKey q "planning")
    (hq : PlanningOk q) : PlanningOk p := by
  unfold PlanningOk at hq ⊢
  rw [h]
  exact hq

theorem HolStateOk_congr (p q : Dict)
    (h : getKey p "holistic" = getKey q "holistic")
    (hq : HolStateOk q) : HolStateOk p := by
  unfold HolStateOk at hq ⊢
  rw [h]
  exact hq

theorem TimelineOk_congr (p q : Dict)
    (ht : getKey p "timeline" = getKey q "timeline")
    (hs : getKey p "segments" = getKey q "segments")
    (hq : TimelineOk q) : TimelineOk p := by
  unfold TimelineOk at hq ⊢
  rw [ht, hs]
  exact hq

theorem TtsOk_congr (p q : Dict)
    (h : getKey p "tts_profiles" = getKey q "tts_profiles")
    (hq : TtsOk q) : TtsOk p := by
  unfold TtsOk at hq ⊢
  rw [h]
  exact hq

theorem RendersOk_congr (p q : Dict)
    (h : getKey p "renders" = getKey q "renders")
    (hq : RendersOk q) : RendersOk p := by
  unfold RendersOk at hq ⊢
  rw [h]
  exact hq

/-- The post-state of `ensure_project_defaults`: every section is filled
    and normalized, so a second pass changes nothing. -/
def EnsureNormal (p : Dict) : Prop :=
  SchemaOk p ∧ SettingsOk p ∧ SegmentsOk p ∧ ExportsOk p ∧ PlanningOk p ∧
  HolStateOk p ∧ TimelineOk p ∧ TtsOk p ∧ RendersOk p ∧ DemoOk p

theorem ensure_of_normal (now2 : String) (p : Dict) (h : EnsureNormal p) :
    ensureProjectDefaults now2 p = some p := by
  obtain ⟨h1, h2, h3, h4, h5, h6, h7, h8, h9, h10⟩ := h
  unfold ensureProjectDefaults
  try dsimp only
  rw [stepSchema_stable p h1, stepSettings_stable p h2,
    stepSegments_stable p h3, stepExports_stable p h4,
    stepPlanning_stable p h5, stepHolisticState_stable p h6,
    stepTimeline_stable p h7, stepTtsProfiles_stable p h8, optionBind_some,
    stepRenders_stable now2 p h9, optionBind_some]
  exact stepDemo_stable now2 p h10

theorem ensureNormal_of (now : String) (p p1 : Dict)
    (hnow1 : now ≠ "") (hnow2 : ∀ c ∈ now.data, isPySpace c = false)
    (hmsgR : RendersMsgOk p) (hmsgD : DemoMsgOk p)
    (h : ensureProjectDefaults now p = some p1) : EnsureNormal p1 := by
  unfold ensureProjectDefaults at h
  try dsimp only at h
  rcases option_do_inv _ _ _ h with ⟨p8, h8, hrest⟩
  rcases option_do_inv _ _ _ hrest with ⟨p9, h9, h10⟩
  have e8 : ∀ k, k ≠ "tts_profiles" → getKey p8 k
      = getKey (stepTimeline (stepHolisticState (stepPlanning (stepExports
        (stepSegments (stepSettings (stepSchema p))))))) k :=
    fun k hk => getKey_stepTtsProfiles _ p8 h8 k hk
  have e9 : ∀ k, k ≠ "renders" → getKey p9 k = getKey p8 k :=
    fun k hk => getKey_stepRenders now p8 p9 h9 k hk
  have e10 : ∀ k, k ≠ "demo" → getKey p1 k = getKey p9 k :=
    fun k hk => getKey_stepDemo now p9 p1 h10 k hk
  have hrenders8 : getKey p8 "renders" = getKey p "renders" := by
    rw [e8 _ (by decide), getKey_stepTimeline _ _ (by decide),
      getKey_stepHolisticState _ _ (by decide),
      getKey_stepPlanning _ _ (by decide),
      getKey_stepExports _ _ (by decide),
      getKey_stepSegments _ _ (by decide),
      getKey_stepSettings _ _ (by decide),
      getKey_stepSchema _ _ (by decide)]
  have hdemo9 : getKey p9 "demo" = getKey p "demo" := by
    rw [e9 _ (by decide), e8 _ (by decide),
      getKey_stepTimeline _ _ (by decide),
      getKey_stepHolisticState _ _ (by decide),
      getKey_stepPlanning _ _ (by decide),
      getKey_stepExports _ _ (by decide),
      getKey_stepSegments _ _ (by decide),
      getKey_stepSettings _ _ (by decide),
      getKey_stepSchema _ _ (by decide)]
  have hmsgR8 : RendersMsgOk p8 := by
    intro r hl hrr hhl d hd
    exact hmsgR r hl (by rw [← hrenders8]; exact hrr) hhl d hd
  have hmsgD9 : DemoMsgOk p9 := by
    intro r hl hrr hhl d hd
    exact hmsgD r hl (by rw [← hdemo9]; exact hrr) hhl d hd
  have s9 : RendersOk p9 := stepRenders_shape now p8 p9 hnow1 hnow2 hmsgR8 h9
  have s10 : DemoOk p1 := stepDemo_shape now p9 p1 hnow1 hnow2 hmsgD9 h10
  refine ⟨?_, ?_, ?_, ?_, ?_, ?_, ?_, ?_, ?_, s10⟩
  · refine SchemaOk_congr p1 (stepSchema p) ?_ (stepSchema_shape p)
    rw [e10 _ (by decide), e9 _ (by decide), e8 _ (by decide),
      getKey_stepTimeline _ _ (by decide),
      getKey_stepHolisticState _ _ (by decide),
      getKey_stepPlanning _ _ (by decide),
      getKey_stepExports _ _ (by decide),
      getKey_stepSegments _ _ (by decide),
      getKey_stepSettings _ _ (by decide)]
  · refine SettingsOk_congr p1 (stepSettings (stepSchema p)) ?_
      (stepSettings_shape _)
    rw [e10 _ (by decide), e9 _ (by decide), e8 _ (by decide),
      getKey_stepTimeline _ _ (by decide),
      getKey_stepHolisticState _ _ (by decide),
      getKey_stepPlanning _ _ (by decide),
      getKey_stepExports _ _ (by decide),
      getKey_stepSegments _ _ (by decide)]
  · refine SegmentsOk_congr p1 (stepSegments (stepSettings (stepSchema p)))
      ?_ (stepSegments_shape _)
    rw [e10 _ (by decide), e9 _ (by decide), e8 _ (by decide),
      getKey_stepTimeline _ _ (by decide),
      getKey_stepHolisticState _ _ (by decide),
      getKey_stepPlanning _ _ (by decide),
      getKey_stepExports _ _ (by decide)]
  · refine ExportsOk_congr p1 (stepExports (stepSegments (stepSettings
      (stepSchema p)))) ?_ (stepExports_shape _)
    rw [e10 _ (by decide), e9 _ (by decide), e8 _ (by decide),
      getKey_stepTimeline _ _ (by decide),
      getKey_stepHolisticState _ _ (by decide),
      getKey_stepPlanning _ _ (by decide)]
  · refine PlanningOk_congr p1 (stepPlanning (stepExports (stepSegments
      (stepSettings (stepSchema p))))) ?_ (stepPlanning_shape _)
    rw [e10 _ (by decide), e9 _ (by decide), e8 _ (by decide),
      getKey_stepTimeline _ _ (by decide),
      getKey_stepHolisticState _ _ (by decide)]
  · refine HolStateOk_congr p1 (stepHolisticState (stepPlanning (stepExports
      (stepSegments (stepSettings (stepSchema p)))))) ?_
      (stepHolisticState_shape _)
    rw [e10 _ (by decide), e9 _ (by decide), e8 _ (by decide),
      getKey_stepTimeline _ _ (by decide)]
  · refine TimelineOk_congr p1 (stepTimeline (stepHolisticState (stepPlanning
      (stepExports (stepSegments (stepSettings (stepSchema p))))))) ?_ ?_
      (stepTimeline_shape _)
    · rw [e10 _ (by decide), e9 _ (by decide), e8 _ (by decide)]
    · rw [e10 _ (by decide), e9 _ (by decide), e8 _ (by decide)]
  · refine TtsOk_congr p1 p8 ?_ (stepTtsProfiles_shape _ p8 h8)
    rw [e10 _ (by decide), e9 _ (by decide)]
  · refine RendersOk_congr p1 p9 ?_ s9
    rw [e10 _ (by decide)]

end Demo

namespace Demo

/-- **C7** (amended). `ensure_project_defaults` is idempotent — a second
    application returns the first pass's document unchanged — provided no
    render-history or demo-run record of the input has a truthy
    `error_summary.message` that strips to the empty string (the
    counterexample shows idempotence fails there: the recomputed summary
    falls back to the record's `error` field on the second pass).  `now`
    and `now2` stand for the `utc_now_iso()` values of the two passes;
    real timestamps are nonempty and contain no whitespace. -/
theorem ensure_project_defaults_idempotent (now now2 : String) (p p1 : Dict)
    (hnow1 : now ≠ "") (hnow2 : ∀ c ∈ now.data, isPySpace c = false)
    (hmsgR : RendersMsgOk p) (hmsgD : DemoMsgOk p)
    (h : ensureProjectDefaults now p = some p1) :
    ensureProjectDefaults now2 p1 = some p1 :=
  ensure_of_normal now2 p1
    (ensureNormal_of now p p1 hnow1 hnow2 hmsgR hmsgD h)

def c7w1 : Dict := (ensureProjectDefaults "20260101T000000" []).getD []

/-- Witness for C7: filling defaults into the empty project document and
    re-running the migration returns the same document. -/
theorem ensure_project_defaults_idempotent_witness :
    ensureProjectDefaults "20260101T000000" ([] : Dict) = some c7w1 ∧
    ensureProjectDefaults "20270505T121212" c7w1 = some c7w1 := by
  refine ⟨rfl, ?_⟩
  exact ensure_project_defaults_idempotent "20260101T000000" "20270505T121212"
    [] c7w1 (by decide) (by decide) (fun r hl hr => by cases hr)
    (fun r hl hr => by cases hr) rfl

end Demo
